import Mathlib

/-!
# MicroHH: NSW6 microphysics kernels

A shallow embedding of `src/src/microphys_nsw6.cxx`.

* Floating-point numbers (`TF`, `double`) are modelled by the elements of a
  linearly ordered field `F`; every arithmetic operation is exact, and `/` is
  the total division of the field.  The definitions are executable at `F = ℚ`.
  The return value of `get_time_limit`, an integer that depends on the rounding
  of the operations, is in addition modelled with binary64 rounding (`fl64`,
  `get_time_limit_double`).
* A raw array (`TF*`) is a function `Int → F` from the flat element index to
  the element; a store `a[n] = v` is `Function.update a n v`.
* Library functions (`std::sqrt`, `std::pow`, `std::tgamma`, `std::exp`,
  `std::log`) and the functions and constants of headers that are not part of
  the sources (`minmod`, `pow2`, `esat_liq`, `Lv`, ...) are the fields of a
  record `Env F` that every kernel takes as a parameter.
* Counting loops are folds over the list of the values of the loop variable,
  in the order of the source.
-/

namespace MicroHH

/-! ## Loops -/

/-- The values `lo, lo+1, ..., hi-1` of the loop variable of
`for (int k=lo; k<hi; ++k)`, in the order they are visited. -/
def lvls (lo hi : Int) : List Int :=
  (List.range (hi - lo).toNat).map (fun (n : Nat) => lo + (n : Int))

/-- The loop `for (int k=lo; k<hi; ++k) body(k)` as a state transformer. -/
def forUp {σ : Type} (lo hi : Int) (body : Int → σ → σ) (s : σ) : σ :=
  (lvls lo hi).foldl (fun s k => body k s) s

/-- The loop `for (int k=hi; k>lo; --k) body(k)` as a state transformer. -/
def forDown {σ : Type} (hi lo : Int) (body : Int → σ → σ) (s : σ) : σ :=
  (lvls (lo + 1) (hi + 1)).reverse.foldl (fun s k => body k s) s

/-- Index bounds and strides of the structured grid, as passed to every kernel:
`istart, jstart, kstart, iend, jend, kend, jj, kk`. -/
structure Grid where
  istart : Int
  jstart : Int
  kstart : Int
  iend : Int
  jend : Int
  kend : Int
  jj : Int
  kk : Int
deriving Repr

/-- The flat index `i + j*jj + k*kk` of cell `(i, j, k)`. -/
def Grid.ijk (g : Grid) (i j k : Int) : Int := i + j * g.jj + k * g.kk

/-- The flat index `i + j*jj` of the horizontal position `(i, j)`. -/
def Grid.ij (g : Grid) (i j : Int) : Int := i + j * g.jj

/-- The horizontal loop nest
`for (j=jstart; j<jend; ++j) for (i=istart; i<iend; ++i) body(i, j)`. -/
def loop2 {σ : Type} (g : Grid) (body : Int → Int → σ → σ) (s : σ) : σ :=
  forUp g.jstart g.jend (fun j => forUp g.istart g.iend (fun i => body i j)) s

/-- The loop nest over the interior cells
`for (k=kstart; k<kend; ++k) for (j=jstart; j<jend; ++j) for (i=istart; i<iend; ++i) body(i, j, k)`. -/
def loop3 {σ : Type} (g : Grid) (body : Int → Int → Int → σ → σ) (s : σ) : σ :=
  forUp g.kstart g.kend (fun k => loop2 g (fun i j => body i j k)) s

/-- The strides address the cells of the subdomain without overlap, as for
`jj = icells`, `kk = icells*jcells` and interior bounds inside the allocated
cells; the interior has a non-negative number of levels. -/
structure Grid.WellFormed (g : Grid) : Prop where
  istart_nonneg : 0 ≤ g.istart
  iend_le : g.iend ≤ g.jj
  jstart_nonneg : 0 ≤ g.jstart
  jend_le : g.jend * g.jj ≤ g.kk
  kstart_le : g.kstart ≤ g.kend

/-- The horizontal position `(i, j)` is visited by the loops of the kernels. -/
def Grid.inBox (g : Grid) (i j : Int) : Prop :=
  g.istart ≤ i ∧ i < g.iend ∧ g.jstart ≤ j ∧ j < g.jend

/-! ## Library functions and constants -/

/-- The functions of `<cmath>` and the functions and constants that the kernels
take from headers outside the sources (`Micro_2mom_warm_functions::minmod`,
`Fast_math::pow2`, `pow3`, `pow7`, the saturation functions of
`Thermo_moist_functions`, `M_PI` and the physical constants of `Constants`). -/
structure Env (F : Type) where
  sqrt : F → F
  pow : F → F → F
  tgamma : F → F
  exp : F → F
  log : F → F
  minmod : F → F → F
  pow2 : F → F
  pow3 : F → F
  pow7 : F → F
  esat_liq : F → F
  esat_ice : F → F
  qsat_liq : F → F → F
  qsat_ice : F → F → F
  M_PI : F
  Lv : F
  Ls : F
  Lf : F
  cp : F
  Rv : F
  T0 : F

section Kernels

variable {F : Type} [LinearOrderedField F]

/-! ## Sedimentation (Stevens and Seifert, 2008) -/

/-- The arrays that `sedimentation_ss08` writes: the tendency `qct`, the
surface rate `rc_bot` and the four scratch buffers. -/
structure SedArrays (F : Type) where
  qct : Int → F
  rc_bot : Int → F
  w_qc : Int → F
  c_qc : Int → F
  slope_qc : Int → F
  flux_qc : Int → F

/-- Step 1, the value stored in `w_qc[ijk]`: the sedimentation velocity at the
cell centre, zero where `qc[ijk] <= qc_min`. -/
def sed_velocity (M : Env F) (qc rho : Int → F) (a_c b_c c_c d_c N_0c qc_min : F)
    (g : Grid) (i j k : Int) : F :=
  let rho0_rho_sqrt := M.sqrt (rho g.kstart / rho k)
  let ijk := i + j * g.jj + k * g.kk
  if qc ijk > qc_min then
    let lambda_c := M.pow (a_c * N_0c * M.tgamma (b_c + 1) / (rho k * qc ijk)) (1 / (b_c + 1))
    let V_T := c_c * rho0_rho_sqrt * M.tgamma (b_c + d_c + 1) / M.tgamma (b_c + 1)
      * M.pow lambda_c (-d_c)
    V_T
  else
    0

/-- Step 1.1, the two stores of one horizontal position: the ghost cell below
takes the velocity of the lowest interior cell, the ghost cell above is zero. -/
def sed_ghost (g : Grid) (i j : Int) (w_qc : Int → F) : Int → F :=
  let ijk_bot := i + j * g.jj + (g.kstart - 1) * g.kk
  let ijk_top := i + j * g.jj + g.kend * g.kk
  let w_qc := Function.update w_qc ijk_bot (w_qc (ijk_bot + g.kk))
  Function.update w_qc ijk_top 0

/-- Step 2, the value stored in `c_qc[ijk]`. -/
def sed_cfl (w_qc dzi : Int → F) (dt : F) (g : Grid) (i j k : Int) : F :=
  let ijk := i + j * g.jj + k * g.kk
  0.25 * (w_qc (ijk - g.kk) + 2 * w_qc ijk + w_qc (ijk + g.kk)) * dzi k * dt

/-- Step 3, the value stored in `slope_qc[ijk]`. -/
def sed_slope (M : Env F) (qc : Int → F) (g : Grid) (i j k : Int) : F :=
  let ijk := i + j * g.jj + k * g.kk
  M.minmod (qc ijk - qc (ijk - g.kk)) (qc (ijk + g.kk) - qc ijk)

/-- The accumulation loop `while (cc > 0 && kc < kend)` of the flux sweep, from
the loop state `(kc, ftot, dzz, cc)`; the result is `ftot` at loop exit. -/
def flux_sweep (qc slope_qc c_qc rho dzi dz : Int → F) (g : Grid) (i j : Int)
    (kc : Int) (ftot dzz cc : F) : F :=
  if cc > 0 ∧ kc < g.kend then
    let ijkc := i + j * g.jj + kc * g.kk
    let ftot := ftot + rho kc * (qc ijkc + 0.5 * slope_qc ijkc * (1 - cc)) * cc * dz kc
    let dzz := dzz + dz kc
    let kc1 := kc + 1
    let cc := min 1 (c_qc ijkc - dzz * dzi kc1)
    flux_sweep qc slope_qc c_qc rho dzi dz g i j kc1 ftot dzz cc
  else
    ftot
termination_by (g.kend - kc).toNat
decreasing_by omega

/-- The cumulative flux `ftot` of cell `(i, j, k)` before the clip: the
accumulation loop started with `kc = k`, `ftot = 0`, `dzz = 0` and
`cc = min(1, c_qc[ijk])`. -/
def sed_ftot (qc slope_qc c_qc rho dzi dz : Int → F) (g : Grid) (i j k : Int) : F :=
  let ijk := i + j * g.jj + k * g.kk
  flux_sweep qc slope_qc c_qc rho dzi dz g i j k 0 0 (min 1 (c_qc ijk))

/-- The value stored in `flux_qc[ijk]` by the flux sweep: the cumulative flux,
clipped with the flux at the interface above, divided by `-dt`. -/
def sed_flux (qc slope_qc c_qc rho dzi dz : Int → F) (dt : F) (g : Grid) (i j k : Int)
    (flux_qc : Int → F) : F :=
  let ijk := i + j * g.jj + k * g.kk
  let ftot := sed_ftot qc slope_qc c_qc rho dzi dz g i j k
  let ftot := min ftot (rho k * dz k * qc ijk - flux_qc (ijk + g.kk) * dt)
  (-ftot / dt)

/-- The amount added to `qct[ijk]`: `-(flux_qc[ijk+kk] - flux_qc[ijk]) / rho[k] * dzi[k]`. -/
def sed_tend (flux_qc rho dzi : Int → F) (g : Grid) (i j k : Int) : F :=
  let ijk := i + j * g.jj + k * g.kk
  (-(flux_qc (ijk + g.kk) - flux_qc ijk) / rho k * dzi k)

/-- The kernel `sedimentation_ss08`: the arrays it writes, after the call. -/
def sedimentation_ss08 (M : Env F) (s : SedArrays F) (qc rho dzi dz : Int → F) (dt : F)
    (a_c b_c c_c d_c N_0c qc_min : F) (g : Grid) : SedArrays F :=
  -- 1. Calculate sedimentation velocity at cell center
  let w_qc := loop3 g (fun i j k w_qc =>
    Function.update w_qc (i + j * g.jj + k * g.kk)
      (sed_velocity M qc rho a_c b_c c_c d_c N_0c qc_min g i j k)) s.w_qc
  -- 1.1 Set one ghost cell to zero
  let w_qc := loop2 g (fun i j w_qc => sed_ghost g i j w_qc) w_qc
  -- 2. Calculate CFL number using interpolated sedimentation velocity
  let c_qc := loop3 g (fun i j k c_qc =>
    Function.update c_qc (i + j * g.jj + k * g.kk) (sed_cfl w_qc dzi dt g i j k)) s.c_qc
  -- 3. Calculate slopes
  let slope_qc := loop3 g (fun i j k slope_qc =>
    Function.update slope_qc (i + j * g.jj + k * g.kk) (sed_slope M qc g i j k)) s.slope_qc
  -- Set the fluxes at the top of the domain (kend) to zero
  let flux_qc := loop2 g (fun i j flux_qc =>
    Function.update flux_qc (i + j * g.jj + g.kend * g.kk) 0) s.flux_qc
  -- Calculate flux
  let flux_qc := forDown (g.kend - 1) (g.kstart - 1) (fun k => loop2 g (fun i j flux_qc =>
    Function.update flux_qc (i + j * g.jj + k * g.kk)
      (sed_flux qc slope_qc c_qc rho dzi dz dt g i j k flux_qc))) flux_qc
  -- Calculate tendency
  let qct := loop3 g (fun i j k qct =>
    Function.update qct (i + j * g.jj + k * g.kk)
      (qct (i + j * g.jj + k * g.kk) + sed_tend flux_qc rho dzi g i j k)) s.qct
  -- Store surface sedimentation flux
  let rc_bot := loop2 g (fun i j rc_bot =>
    Function.update rc_bot (i + j * g.jj) (-flux_qc (i + j * g.jj + g.kstart * g.kk))) s.rc_bot
  { qct := qct, rc_bot := rc_bot, w_qc := w_qc, c_qc := c_qc, slope_qc := slope_qc,
    flux_qc := flux_qc }

/-! ## Constants of the scheme -/

/-- Threshold ql for calculating microphysical terms. -/
def ql_min : F := 1e-7
/-- Threshold qi for calculating microphysical terms. -/
def qi_min : F := 1e-7
/-- Threshold qr for calculating microphysical terms. -/
def qr_min : F := 1e-12
/-- Threshold qs for calculating microphysical terms. -/
def qs_min : F := 1e-12
/-- Threshold qg for calculating microphysical terms. -/
def qg_min : F := 1e-12

/-- Pi constant. -/
def pi (M : Env F) : F := M.M_PI
/-- Pi constant squared. -/
def pi_2 (M : Env F) : F := M.M_PI * M.M_PI

/-- Density of water. -/
def rho_w : F := 1e3
/-- Density of snow. -/
def rho_s : F := 1e2
/-- Density of graupel. -/
def rho_g : F := 4e2

/-- Intercept parameter rain (m-4). -/
def N_0r : F := 8e6
/-- Intercept parameter snow (m-4). -/
def N_0s : F := 3e6
/-- Intercept parameter graupel (m-4). -/
def N_0g : F := 4e6

/-- Empirical constant for m_r. -/
def a_r (M : Env F) : F := M.M_PI * rho_w / 6
/-- Empirical constant for m_s. -/
def a_s (M : Env F) : F := M.M_PI * rho_s / 6
/-- Empirical constant for m_g. -/
def a_g (M : Env F) : F := M.M_PI * rho_g / 6

/-- Empirical constant for m_r. -/
def b_r : F := 3
/-- Empirical constant for m_s. -/
def b_s : F := 3
/-- Empirical constant for m_g. -/
def b_g : F := 3

/-- Empirical constant for v_r. -/
def c_r : F := 130
/-- Empirical constant for v_s. -/
def c_s : F := 4.84
/-- Empirical constant for v_g. -/
def c_g : F := 82.5

/-- Empirical constant for v_r. -/
def d_r : F := 0.5
/-- Empirical constant for v_s. -/
def d_s : F := 0.25
/-- Empirical constant for v_g. -/
def d_g : F := 0.25

/-- Specific heat of liquid water. -/
def C_l : F := 4218

/-- First coefficient of ventilation factor for rain. -/
def f_1r : F := 0.78
/-- First coefficient of ventilation factor for snow. -/
def f_1s : F := 0.65
/-- First coefficient of ventilation factor for graupel. -/
def f_1g : F := 0.78

/-- Second coefficient of ventilation factor for rain. -/
def f_2r : F := 0.27
/-- Second coefficient of ventilation factor for snow. -/
def f_2s : F := 0.39
/-- Second coefficient of ventilation factor for graupel. -/
def f_2g : F := 0.27

/-- Collection efficiency of ice for rain. -/
def E_ri : F := 1
/-- Collection efficiency of rain for cloud water. -/
def E_rw : F := 1
/-- Collection efficiency of snow for cloud water. -/
def E_sw : F := 1
/-- Collection efficiency of graupel for cloud water. -/
def E_gw : F := 1
/-- Collection efficiency of graupel for cloud ice. -/
def E_gi : F := 0.1
/-- Collection efficiency of snow for rain. -/
def E_sr : F := 1
/-- Collection efficiency of graupel for rain. -/
def E_gr : F := 1

/-- Thermal diffusion coefficient of air. -/
def K_a : F := 2.43e-2
/-- Diffusion coefficient of water vapor in air. -/
def K_d : F := 2.26e-5

/-- Mass of one cloud ice particle. -/
def M_i : F := 4.19e-13

/-- Constant `gamma_sacr`. -/
def gamma_sacr : F := 0.025
/-- Constant `gamma_saut`. -/
def gamma_saut : F := 0.025
/-- Constant `gamma_gacs`. -/
def gamma_gacs : F := 0.09
/-- Constant `gamma_gaut`. -/
def gamma_gaut : F := 0.09

/-- Kinematic viscosity of air. -/
def nu : F := 1.5e-5

/-! ## Cells and tendencies -/

/-- The input arrays of the process-rate kernels: the prognostic fields and the
diagnosed liquid and ice content by flat index, the reference profiles and
the grid spacing by level. -/
structure Fields (F : Type) where
  qr : Int → F
  qs : Int → F
  qg : Int → F
  qt : Int → F
  thl : Int → F
  ql : Int → F
  qi : Int → F
  rho : Int → F
  exner : Int → F
  p : Int → F
  dzi : Int → F
  dzhi : Int → F

/-- The values that the body of the loop over the cells reads for the cell
`ijk` at level `k`: `qr[ijk]`, ..., `qi[ijk]`, `rho[k]`, `rho[kstart]`,
`exner[k]`, `p[k]` and `dzi[k]`. -/
structure Cell (F : Type) where
  qr : F
  qs : F
  qg : F
  qt : F
  thl : F
  ql : F
  qi : F
  rho : F
  rho0 : F
  exner : F
  p : F
  dzi : F

/-- The cell `(i, j, k)` of the input arrays. -/
def Fields.cell (f : Fields F) (g : Grid) (i j k : Int) : Cell F :=
  let ijk := i + j * g.jj + k * g.kk
  { qr := f.qr ijk, qs := f.qs ijk, qg := f.qg ijk, qt := f.qt ijk, thl := f.thl ijk,
    ql := f.ql ijk, qi := f.qi ijk, rho := f.rho k, rho0 := f.rho g.kstart,
    exner := f.exner k, p := f.p k, dzi := f.dzi k }

/-- The five tendencies `qrt[ijk]`, `qst[ijk]`, `qgt[ijk]`, `qtt[ijk]` and
`thlt[ijk]` of one cell. -/
structure Tend (F : Type) where
  qrt : F
  qst : F
  qgt : F
  qtt : F
  thlt : F

/-- The five tendency arrays `qrt`, `qst`, `qgt`, `qtt` and `thlt`. -/
structure TendArrays (F : Type) where
  qrt : Int → F
  qst : Int → F
  qgt : Int → F
  qtt : Int → F
  thlt : Int → F

/-- The tendencies of the cell with flat index `n`. -/
def TendArrays.get (t : TendArrays F) (n : Int) : Tend F :=
  { qrt := t.qrt n, qst := t.qst n, qgt := t.qgt n, qtt := t.qtt n, thlt := t.thlt n }

/-- Store the tendencies of the cell with flat index `n`. -/
def TendArrays.set (t : TendArrays F) (n : Int) (v : Tend F) : TendArrays F :=
  { qrt := Function.update t.qrt n v.qrt, qst := Function.update t.qst n v.qst,
    qgt := Function.update t.qgt n v.qgt, qtt := Function.update t.qtt n v.qtt,
    thlt := Function.update t.thlt n v.thlt }

/-- The absolute temperature `T = exner[k]*thl[ijk] + Lv/cp*ql[ijk] + Ls/cp*qi[ijk]`. -/
def Cell.T (M : Env F) (c : Cell F) : F :=
  c.exner * c.thl + M.Lv / M.cp * c.ql + M.Ls / M.cp * c.qi

/-- The flag `has_liq`. -/
def Cell.has_liq (c : Cell F) : Prop := c.ql > ql_min
/-- The flag `has_ice`. -/
def Cell.has_ice (c : Cell F) : Prop := c.qi > qi_min
/-- The flag `has_rain`. -/
def Cell.has_rain (c : Cell F) : Prop := c.qr > qr_min
/-- The flag `has_snow`. -/
def Cell.has_snow (c : Cell F) : Prop := c.qs > qs_min
/-- The flag `has_graupel`. -/
def Cell.has_graupel (c : Cell F) : Prop := c.qg > qg_min

instance (c : Cell F) : Decidable c.has_liq := by unfold Cell.has_liq; infer_instance
instance (c : Cell F) : Decidable c.has_ice := by unfold Cell.has_ice; infer_instance
instance (c : Cell F) : Decidable c.has_rain := by unfold Cell.has_rain; infer_instance
instance (c : Cell F) : Decidable c.has_snow := by unfold Cell.has_snow; infer_instance
instance (c : Cell F) : Decidable c.has_graupel := by unfold Cell.has_graupel; infer_instance

/-! ## Autoconversion -/

/-- Tomita Eq. 51. -/
def D_d (M : Env F) (N_d : F) : F := 0.146 - 5.964e-2 * M.log (N_d / (2e3 * 1e6))

/-- The constant `q_icrt`. -/
def q_icrt : F := 0
/-- The constant `q_scrt`. -/
def q_scrt : F := 6e-4

/-- Tomita Eq. 53. -/
def beta_1 (M : Env F) (c : Cell F) : F :=
  min 1e-3 (1e-3 * M.exp (gamma_saut * (c.T M - M.T0)))

/-- Tomita Eq. 54. -/
def beta_2 (M : Env F) (c : Cell F) : F :=
  min 1e-3 (1e-3 * M.exp (gamma_gaut * (c.T M - M.T0)))

/-- Tomita Eq. 50. -/
def P_raut (M : Env F) (N_d : F) (c : Cell F) : F :=
  16.7 / c.rho * M.pow2 (c.rho * c.ql) / (5 + 3.6e-5 * N_d / (D_d M N_d * c.rho * c.ql))

/-- Tomita Eq. 52. -/
def P_saut (M : Env F) (c : Cell F) : F := max (beta_1 M c * (c.qi - q_icrt)) 0

/-- Tomita Eq. 54. -/
def P_gaut (M : Env F) (c : Cell F) : F := max (beta_2 M c * (c.qs - q_scrt)) 0

/-- Autoconversion, cloud to rain. -/
def auto_cloud_to_rain (M : Env F) (N_d : F) (c : Cell F) (t : Tend F) : Tend F :=
  if c.has_liq then
    { t with
      qtt := t.qtt - P_raut M N_d c
      qrt := t.qrt + P_raut M N_d c
      thlt := t.thlt + M.Lv / (M.cp * c.exner) * P_raut M N_d c }
  else t

/-- Autoconversion, ice to snow. -/
def auto_ice_to_snow (M : Env F) (c : Cell F) (t : Tend F) : Tend F :=
  if c.has_ice then
    { t with
      qtt := t.qtt - P_saut M c
      qst := t.qst + P_saut M c
      thlt := t.thlt + M.Ls / (M.cp * c.exner) * P_saut M c }
  else t

/-- Autoconversion, snow to graupel. -/
def auto_snow_to_graupel (M : Env F) (c : Cell F) (t : Tend F) : Tend F :=
  if c.has_snow then
    { t with
      qst := t.qst - P_gaut M c
      qgt := t.qgt + P_gaut M c }
  else t

/-- The body of the loop of `autoconversion` for one cell, as a transformer of
the tendencies of the cell: the three blocks in the order of the source. -/
def autoconversion_cell (M : Env F) (N_d : F) (c : Cell F) (t : Tend F) : Tend F :=
  auto_snow_to_graupel M c (auto_ice_to_snow M c (auto_cloud_to_rain M N_d c t))

/-- The kernel `autoconversion`: the tendency arrays after the call. -/
def autoconversion (M : Env F) (t : TendArrays F) (f : Fields F) (N_d : F) (g : Grid) :
    TendArrays F :=
  loop3 g (fun i j k t =>
    let ijk := i + j * g.jj + k * g.kk
    t.set ijk (autoconversion_cell M N_d (f.cell g i j k) (t.get ijk))) t

/-! ## Accretion and phase changes -/

/-- The factor `sqrt(rho[kstart]/rho[k])`. -/
def rho0_rho_sqrt (M : Env F) (c : Cell F) : F := M.sqrt (c.rho0 / c.rho)

/-- Part of Tomita Eq. 29. -/
def fac_iacr (M : Env F) (c : Cell F) : F :=
  pi_2 M * E_ri * N_0r * c_r * rho_w * M.tgamma (6 + d_r) / (24 * M_i) * rho0_rho_sqrt M c

/-- Part of Tomita Eq. 32. -/
def fac_raci (M : Env F) (c : Cell F) : F :=
  pi M * E_ri * N_0r * c_r * M.tgamma (3 + d_r) / 4 * rho0_rho_sqrt M c

/-- Part of Tomita Eq. 34. -/
def fac_racw (M : Env F) (c : Cell F) : F :=
  pi M * E_rw * N_0r * c_r * M.tgamma (3 + d_r) / 4 * rho0_rho_sqrt M c

/-- Part of Tomita Eq. 35. -/
def fac_sacw (M : Env F) (c : Cell F) : F :=
  pi M * E_sw * N_0s * c_s * M.tgamma (3 + d_s) / 4 * rho0_rho_sqrt M c

/-- Part of Tomita Eq. 36 (without the temperature dependent `E_si`). -/
def fac_saci (M : Env F) (c : Cell F) : F :=
  pi M * N_0s * c_s * M.tgamma (3 + d_s) / 4 * rho0_rho_sqrt M c

/-- Part of Tomita Eq. 37. -/
def fac_gacw (M : Env F) (c : Cell F) : F :=
  pi M * E_gw * N_0g * c_g * M.tgamma (3 + d_g) / 4 * rho0_rho_sqrt M c

/-- Part of Tomita Eq. 38. -/
def fac_gaci (M : Env F) (c : Cell F) : F :=
  pi M * E_gi * N_0g * c_g * M.tgamma (3 + d_g) / 4 * rho0_rho_sqrt M c

/-- Tomita Eq. 27, rain. -/
def lambda_r (M : Env F) (c : Cell F) : F :=
  M.pow (a_r M * N_0r * M.tgamma (b_r + 1) / (c.rho * c.qr)) (1 / (b_r + 1))

/-- Tomita Eq. 27, snow (with the intercept `N_0r`, as in the source). -/
def lambda_s (M : Env F) (c : Cell F) : F :=
  M.pow (a_s M * N_0r * M.tgamma (b_s + 1) / (c.rho * c.qs)) (1 / (b_s + 1))

/-- Tomita Eq. 27, graupel (with the intercept `N_0r`, as in the source). -/
def lambda_g (M : Env F) (c : Cell F) : F :=
  M.pow (a_g M * N_0r * M.tgamma (b_g + 1) / (c.rho * c.qg)) (1 / (b_g + 1))

/-- Tomita Eq. 28, rain. -/
def V_Tr (M : Env F) (c : Cell F) : F :=
  c_r * rho0_rho_sqrt M c * M.tgamma (b_r + d_r + 1) / M.tgamma (b_r + 1)
    * M.pow (lambda_r M c) (-d_r)

/-- Tomita Eq. 28, snow. -/
def V_Ts (M : Env F) (c : Cell F) : F :=
  c_s * rho0_rho_sqrt M c * M.tgamma (b_s + d_s + 1) / M.tgamma (b_s + 1)
    * M.pow (lambda_s M c) (-d_s)

/-- Tomita Eq. 28, graupel. -/
def V_Tg (M : Env F) (c : Cell F) : F :=
  c_g * rho0_rho_sqrt M c * M.tgamma (b_g + d_g + 1) / M.tgamma (b_g + 1)
    * M.pow (lambda_g M c) (-d_g)

/-- The three updates of the running maximum `cfl` in one cell. -/
def cfl_cell (M : Env F) (dt : F) (c : Cell F) (cfl : F) : F :=
  let cfl := if c.has_rain then max (V_Tr M c * dt * c.dzi) cfl else cfl
  let cfl := if c.has_snow then max (V_Ts M c * dt * c.dzi) cfl else cfl
  let cfl := if c.has_graupel then max (V_Tg M c * dt * c.dzi) cfl else cfl
  cfl

/-- Tomita Eq. 29. -/
def P_iacr (M : Env F) (c : Cell F) : F :=
  fac_iacr M c / M.pow (lambda_r M c) (6 + d_r) * c.qi

/-- Tomita Eq. 30. -/
def delta_1 (c : Cell F) : F := if c.qr ≥ 1e-4 then 1 else 0

/-- Tomita Eq. 31, snow part. -/
def P_iacr_s (M : Env F) (c : Cell F) : F := (1 - delta_1 c) * P_iacr M c
/-- Tomita Eq. 31, graupel part. -/
def P_iacr_g (M : Env F) (c : Cell F) : F := delta_1 c * P_iacr M c

/-- Tomita Eq. 32. -/
def P_raci (M : Env F) (c : Cell F) : F :=
  fac_raci M c / M.pow (lambda_r M c) (3 + d_r) * c.qi

/-- Tomita Eq. 33, snow part. -/
def P_raci_s (M : Env F) (c : Cell F) : F := (1 - delta_1 c) * P_raci M c
/-- Tomita Eq. 33, graupel part. -/
def P_raci_g (M : Env F) (c : Cell F) : F := delta_1 c * P_raci M c

/-- Tomita Eq. 34. -/
def P_racw (M : Env F) (c : Cell F) : F :=
  fac_racw M c / M.pow (lambda_r M c) (3 + d_r) * c.ql
/-- Tomita Eq. 35. -/
def P_sacw (M : Env F) (c : Cell F) : F :=
  fac_sacw M c / M.pow (lambda_s M c) (3 + d_s) * c.ql

/-- Tomita Eq. 39. -/
def E_si (M : Env F) (c : Cell F) : F := M.exp (gamma_sacr * (c.T M - M.T0))

/-- Tomita Eq. 36. -/
def P_saci (M : Env F) (c : Cell F) : F :=
  fac_saci M c * E_si M c / M.pow (lambda_s M c) (3 + d_s) * c.qi
/-- Tomita Eq. 37. -/
def P_gacw (M : Env F) (c : Cell F) : F :=
  fac_gacw M c / M.pow (lambda_g M c) (3 + d_g) * c.ql
/-- Tomita Eq. 38. -/
def P_gaci (M : Env F) (c : Cell F) : F :=
  fac_gaci M c / M.pow (lambda_g M c) (3 + d_g) * c.qi

/-- Tomita Eq. 42. -/
def delta_2 (c : Cell F) : F := 1 - (if c.qr ≥ 1e-4 ∨ c.qs ≥ 1e-4 then 1 else 0)

/-- Tomita Eq. 41, `P_racs`. -/
def P_racs (M : Env F) (c : Cell F) : F :=
  (1 - delta_2 c)
    * pi M * a_s M * |V_Tr M c - V_Ts M c| * E_sr * N_0s * N_0r / (4 * c.rho)
    * (M.tgamma (b_s + 3) * M.tgamma 1 / (M.pow (lambda_s M c) (b_s + 3) * lambda_r M c)
      + 2 * M.tgamma (b_s + 2) * M.tgamma 2
        / (M.pow (lambda_s M c) (b_s + 2) * M.pow2 (lambda_r M c))
      + M.tgamma (b_s + 1) * M.tgamma 3
        / (M.pow (lambda_s M c) (b_s + 1) * M.pow3 (lambda_r M c)))

/-- Tomita Eq. 41, `P_sacr`. -/
def P_sacr (M : Env F) (c : Cell F) : F :=
  pi M * a_r M * |V_Ts M c - V_Tr M c| * E_sr * N_0r * N_0s / (4 * c.rho)
    * (M.tgamma (b_r + 1) * M.tgamma 3 / (M.pow (lambda_r M c) (b_r + 1) * M.pow3 (lambda_s M c))
      + 2 * M.tgamma (b_r + 2) * M.tgamma 2
        / (M.pow (lambda_r M c) (b_r + 2) * M.pow2 (lambda_s M c))
      + M.tgamma (b_r + 3) * M.tgamma 1
        / (M.pow (lambda_r M c) (b_r + 3) * lambda_s M c))

/-- Tomita Eq. 43, graupel part. -/
def P_sacr_g (M : Env F) (c : Cell F) : F := (1 - delta_2 c) * P_sacr M c
/-- Tomita Eq. 43, snow part. -/
def P_sacr_s (M : Env F) (c : Cell F) : F := delta_2 c * P_sacr M c

/-- Tomita Eq. 49. -/
def E_gs (M : Env F) (c : Cell F) : F := min 1 (M.exp (gamma_gacs * (c.T M - M.T0)))

/-- Tomita Eq. 47. -/
def P_gacr (M : Env F) (c : Cell F) : F :=
  pi M * a_r M * |V_Tg M c - V_Tr M c| * E_gr * N_0g * N_0r / (4 * c.rho)
    * (M.tgamma (b_r + 1) * M.tgamma 3 / (M.pow (lambda_r M c) (b_r + 1) * M.pow3 (lambda_g M c))
      + 2 * M.tgamma (b_r + 2) * M.tgamma 2
        / (M.pow (lambda_r M c) (b_r + 2) * M.pow2 (lambda_g M c))
      + M.tgamma (b_r + 3) * M.tgamma 1
        / (M.pow (lambda_r M c) (b_r + 3) * lambda_g M c))

/-- Tomita Eq. 48 (with `lambda_r` in the powers, as in the source). -/
def P_gacs (M : Env F) (c : Cell F) : F :=
  pi M * a_s M * |V_Tg M c - V_Ts M c| * E_gs M c * N_0g * N_0s / (4 * c.rho)
    * (M.tgamma (b_s + 1) * M.tgamma 3 / (M.pow (lambda_r M c) (b_s + 1) * M.pow3 (lambda_g M c))
      + 2 * M.tgamma (b_s + 2) * M.tgamma 2
        / (M.pow (lambda_r M c) (b_s + 2) * M.pow2 (lambda_g M c))
      + M.tgamma (b_s + 3) * M.tgamma 1
        / (M.pow (lambda_r M c) (b_s + 3) * lambda_g M c))

/-- Tomita Eq. 57. -/
def G_w (M : Env F) (c : Cell F) : F :=
  1 / (M.Lv / (K_a * c.T M) * (M.Lv / (M.Rv * c.T M) - 1)
    + M.Rv * c.T M / (K_d * M.esat_liq (c.T M)))

/-- Tomita Eq. 62. -/
def G_i (M : Env F) (c : Cell F) : F :=
  1 / (M.Ls / (K_a * c.T M) * (M.Ls / (M.Rv * c.T M) - 1)
    + M.Rv * c.T M / (K_d * M.esat_ice (c.T M)))

/-- Saturation ratio with respect to liquid. -/
def S_w (M : Env F) (c : Cell F) : F := (c.qt - c.ql - c.qi) / M.qsat_liq c.p (c.T M)
/-- Saturation ratio with respect to ice. -/
def S_i (M : Env F) (c : Cell F) : F := (c.qt - c.ql - c.qi) / M.qsat_ice c.p (c.T M)

/-- Tomita Eq. 63. -/
def delta_3 (M : Env F) (c : Cell F) : F := if S_i M c - 1 ≤ 0 then 1 else 0

/-- Tomita Eq. 59. -/
def P_revp (M : Env F) (c : Cell F) : F :=
  -2 * pi M * N_0r * (min (S_w M c) 1 - 1) * G_w M c / c.rho
    * (f_1r * M.tgamma 2 / M.pow2 (lambda_r M c)
      + f_2r * M.sqrt (c_r * rho0_rho_sqrt M c / nu)
        * M.tgamma (0.5 * (5 + d_r))
        / M.pow (lambda_r M c) (0.5 * (5 + d_r)))

/-- Tomita Eq. 60. -/
def P_sdep_ssub (M : Env F) (c : Cell F) : F :=
  2 * pi M * N_0s * (S_i M c - 1) * G_i M c / c.rho
    * (f_1s * M.tgamma 2 / M.pow2 (lambda_s M c)
      + f_2s * M.sqrt (c_s * rho0_rho_sqrt M c / nu)
        * M.tgamma (0.5 * (5 + d_s))
        / M.pow (lambda_s M c) (0.5 * (5 + d_s)))

/-- Tomita Eq. 51 in the numbering of the source: deposition on graupel. -/
def P_gdep_gsub (M : Env F) (c : Cell F) : F :=
  2 * pi M * N_0g * (S_i M c - 1) * G_i M c / c.rho
    * (f_1g * M.tgamma 2 / M.pow2 (lambda_g M c)
      + f_2g * M.sqrt (c_g * rho0_rho_sqrt M c / nu)
        * M.tgamma (0.5 * (5 + d_g))
        / M.pow (lambda_g M c) (0.5 * (5 + d_g)))

/-- Tomita Eq. 64, snow. -/
def P_sdep (M : Env F) (c : Cell F) : F := (delta_3 M c - 1) * P_sdep_ssub M c
/-- Tomita Eq. 64, graupel. -/
def P_gdep (M : Env F) (c : Cell F) : F := (delta_3 M c - 1) * P_gdep_gsub M c

/-- Tomita Eq. 65, snow. -/
def P_ssub (M : Env F) (c : Cell F) : F := delta_3 M c * P_sdep_ssub M c
/-- Tomita Eq. 65, graupel. -/
def P_gsub (M : Env F) (c : Cell F) : F := delta_3 M c * P_gdep_gsub M c

/-- Tomita Eq. 67, 68 combined. -/
def P_smlt (M : Env F) (c : Cell F) : F :=
  2 * pi M * K_a * (c.T M - M.T0) * N_0s / (c.rho * M.Lf)
    * (f_1s * M.tgamma 2 / M.pow2 (lambda_s M c)
      + f_2s * M.sqrt (c_s * rho0_rho_sqrt M c / nu)
        * M.tgamma (0.5 * (5 + d_s))
        / M.pow (lambda_s M c) (0.5 * (5 + d_s)))
    + C_l * (c.T M - M.T0) / M.Lf * (P_sacw M c + P_sacr M c)

/-- Tomita Eq. 69. -/
def P_gmlt (M : Env F) (c : Cell F) : F :=
  2 * pi M * K_a * (c.T M - M.T0) * N_0g / (c.rho * M.Lf)
    * (f_1g * M.tgamma 2 / M.pow2 (lambda_g M c)
      + f_2g * M.sqrt (c_g * rho0_rho_sqrt M c / nu)
        * M.tgamma (0.5 * (5 + d_g))
        / M.pow (lambda_g M c) (0.5 * (5 + d_g)))
    + C_l * (c.T M - M.T0) / M.Lf * (P_gacw M c + P_gacr M c)

/-- The constant `A_prime` of Tomita Eq. 70. -/
def A_prime : F := 0.66
/-- The constant `B_prime` of Tomita Eq. 70. -/
def B_prime : F := 100

/-- Tomita Eq. 70. -/
def P_gfrz (M : Env F) (c : Cell F) : F :=
  20 * pi_2 M * B_prime * N_0r * rho_w / c.rho
    * (M.exp (A_prime * (M.T0 - c.T M)) - 1) / M.pow7 (lambda_r M c)

/-- The flag `T_pos = TF(T >= T0)`. -/
def T_pos (M : Env F) (c : Cell F) : F := if c.T M ≥ M.T0 then 1 else 0
/-- The flag `T_neg = 1 - T_pos`. -/
def T_neg (M : Env F) (c : Cell F) : F := 1 - T_pos M c

/-- Warm processes, cloud to rain. -/
def cloud_to_rain (M : Env F) (c : Cell F) (t : Tend F) : Tend F :=
  if c.has_liq then
    { t with
      qtt := t.qtt - (P_racw M c + P_sacw M c * T_pos M c)
      qrt := t.qrt + (P_racw M c + P_sacw M c * T_pos M c)
      thlt := t.thlt + M.Lv / (M.cp * c.exner) * (P_racw M c + P_sacw M c * T_pos M c) }
  else t

/-- Warm processes, rain to vapor. -/
def rain_to_vapor (M : Env F) (c : Cell F) (t : Tend F) : Tend F :=
  if c.has_rain then
    { t with
      qrt := t.qrt - P_revp M c
      qtt := t.qtt + P_revp M c
      thlt := t.thlt - M.Lv / (M.cp * c.exner) * P_revp M c }
  else t

/-- Cold processes, cloud to graupel. -/
def cloud_to_graupel (M : Env F) (c : Cell F) (t : Tend F) : Tend F :=
  if c.has_liq then
    { t with
      qtt := t.qtt - P_gacw M c
      qgt := t.qgt + P_gacw M c
      thlt := t.thlt + M.Ls / (M.cp * c.exner) * P_gacw M c }
  else t

/-- Cold processes, cloud to snow. -/
def cloud_to_snow (M : Env F) (c : Cell F) (t : Tend F) : Tend F :=
  if c.has_liq then
    { t with
      qtt := t.qtt - P_sacw M c * T_neg M c
      qst := t.qst + P_sacw M c * T_neg M c
      thlt := t.thlt + M.Ls / (M.cp * c.exner) * (P_sacw M c * T_neg M c) }
  else t

/-- Cold processes, ice to snow. -/
def ice_to_snow (M : Env F) (c : Cell F) (t : Tend F) : Tend F :=
  if c.has_ice then
    { t with
      qtt := t.qtt - (P_raci_s M c + P_saci M c)
      qst := t.qst + (P_raci_s M c + P_saci M c)
      thlt := t.thlt + M.Ls / (M.cp * c.exner) * (P_raci_s M c + P_saci M c) }
  else t

/-- Cold processes, ice to graupel. -/
def ice_to_graupel (M : Env F) (c : Cell F) (t : Tend F) : Tend F :=
  if c.has_ice then
    { t with
      qtt := t.qtt - (P_raci_g M c + P_gaci M c)
      qgt := t.qgt + (P_raci_g M c + P_gaci M c)
      thlt := t.thlt + M.Ls / (M.cp * c.exner) * (P_raci_g M c + P_gaci M c) }
  else t

/-- Cold processes, rain to graupel. -/
def rain_to_graupel (M : Env F) (c : Cell F) (t : Tend F) : Tend F :=
  if c.has_rain then
    { t with
      qrt := t.qrt - (P_gacr M c + P_iacr_g M c + P_sacr_g M c * T_neg M c
        + P_gfrz M c * T_neg M c)
      qgt := t.qgt + (P_gacr M c + P_iacr_g M c + P_sacr_g M c * T_neg M c
        + P_gfrz M c * T_neg M c)
      thlt := t.thlt + M.Lf / (M.cp * c.exner) * (P_gacr M c + P_iacr_g M c
        + P_sacr_g M c * T_neg M c + P_gfrz M c * T_neg M c) }
  else t

/-- Cold processes, rain to snow. -/
def rain_to_snow (M : Env F) (c : Cell F) (t : Tend F) : Tend F :=
  if c.has_rain then
    { t with
      qrt := t.qrt - (P_sacr_s M c * T_neg M c + P_iacr_s M c)
      qst := t.qst + (P_sacr_s M c * T_neg M c + P_iacr_s M c)
      thlt := t.thlt + M.Lf / (M.cp * c.exner) * (P_gacr M c + P_iacr_g M c
        + P_sacr_g M c * T_neg M c + P_gfrz M c * T_neg M c) }
  else t

/-- Cold processes, snow to rain. -/
def snow_to_rain (M : Env F) (c : Cell F) (t : Tend F) : Tend F :=
  if c.has_snow then
    { t with
      qst := t.qst - P_smlt M c * T_pos M c
      qrt := t.qrt + P_smlt M c * T_pos M c
      thlt := t.thlt - M.Lf / (M.cp * c.exner) * P_smlt M c * T_pos M c }
  else t

/-- Cold processes, snow to graupel. -/
def snow_to_graupel (M : Env F) (c : Cell F) (t : Tend F) : Tend F :=
  if c.has_snow then
    { t with
      qst := t.qst - (P_gacs M c + P_racs M c)
      qgt := t.qgt + (P_gacs M c + P_racs M c) }
  else t

/-- Cold processes, snow to vapor. -/
def snow_to_vapor (M : Env F) (c : Cell F) (t : Tend F) : Tend F :=
  if c.has_snow then
    { t with
      qst := t.qst - (P_sdep M c + P_ssub M c)
      qtt := t.qtt + (P_sdep M c + P_ssub M c)
      thlt := t.thlt - M.Ls / (M.cp * c.exner) * (P_sdep M c + P_ssub M c) }
  else t

/-- Cold processes, graupel to rain. -/
def graupel_to_rain (M : Env F) (c : Cell F) (t : Tend F) : Tend F :=
  if c.has_graupel then
    { t with
      qgt := t.qgt - P_gmlt M c * T_pos M c
      qrt := t.qrt + P_gmlt M c * T_pos M c
      thlt := t.thlt - M.Lf / (M.cp * c.exner) * (P_gmlt M c * T_pos M c) }
  else t

/-- Cold processes, graupel to vapor. -/
def graupel_to_vapor (M : Env F) (c : Cell F) (t : Tend F) : Tend F :=
  if c.has_graupel then
    { t with
      qgt := t.qgt - (P_gdep M c + P_gsub M c)
      qtt := t.qtt + (P_gdep M c + P_gsub M c)
      thlt := t.thlt - M.Ls / (M.cp * c.exner) * (P_gdep M c + P_gsub M c) }
  else t

/-- The tendency part of the body of the loop of `accretion_and_phase_changes`
for one cell: the thirteen blocks in the order of the source. -/
def accretion_cell (M : Env F) (c : Cell F) (t : Tend F) : Tend F :=
  let t := cloud_to_rain M c t
  let t := rain_to_vapor M c t
  let t := cloud_to_graupel M c t
  let t := cloud_to_snow M c t
  let t := ice_to_snow M c t
  let t := ice_to_graupel M c t
  let t := rain_to_graupel M c t
  let t := rain_to_snow M c t
  let t := snow_to_rain M c t
  let t := snow_to_graupel M c t
  let t := snow_to_vapor M c t
  let t := graupel_to_rain M c t
  graupel_to_vapor M c t

/-- The kernel `accretion_and_phase_changes`: the tendency arrays and the value
of `cfl_out` after the call.  The local `cfl` starts at zero and is stored to
`cfl_out` after the loops. -/
def accretion_and_phase_changes (M : Env F) (t : TendArrays F) (_cfl_out : F) (f : Fields F)
    (dt : F) (g : Grid) : TendArrays F × F :=
  let cfl : F := 0
  loop3 g (fun i j k (s : TendArrays F × F) =>
    let ijk := i + j * g.jj + k * g.kk
    let c := f.cell g i j k
    (s.1.set ijk (accretion_cell M c (s.1.get ijk)), cfl_cell M dt c s.2)) (t, cfl)

/-! ## The class `Microphys_nsw6` -/

/-- The members of `Microphys_nsw6` that the embedded methods use. -/
structure Microphys_nsw6 (F : Type) where
  cfl : F
  cfl_max : F
  N_d : F
  rr_bot : Int → F
  rs_bot : Int → F
  rg_bot : Int → F

/-- The kernels run by `Microphys_nsw6::exec`, in order: the object and the
tendency arrays after the call.  `f` holds the prognostic fields together with
`ql` and `qi` as returned by the thermodynamics; `tmp1 .. tmp4` are the contents
of the scratch fields handed out by `get_tmp`. -/
def exec (M : Env F) (this : Microphys_nsw6 F) (st : TendArrays F) (f : Fields F)
    (dz : Int → F) (tmp1 tmp2 tmp3 tmp4 : Int → F) (dt : F) (g : Grid) :
    Microphys_nsw6 F × TendArrays F :=
  let st := autoconversion M st f this.N_d g
  let acc := accretion_and_phase_changes M st this.cfl f dt g
  let st := acc.1
  -- Falling rain.
  let rain := sedimentation_ss08 M
    { qct := st.qrt, rc_bot := this.rr_bot, w_qc := tmp1, c_qc := tmp2, slope_qc := tmp3,
      flux_qc := tmp4 }
    f.qr f.rho f.dzi dz dt (a_r M) b_r c_r d_r N_0r qr_min g
  -- Falling snow.
  let snow := sedimentation_ss08 M
    { qct := st.qst, rc_bot := this.rs_bot, w_qc := rain.w_qc, c_qc := rain.c_qc,
      slope_qc := rain.slope_qc, flux_qc := rain.flux_qc }
    f.qs f.rho f.dzi dz dt (a_s M) b_s c_s d_s N_0s qs_min g
  -- Falling graupel.
  let graupel := sedimentation_ss08 M
    { qct := st.qgt, rc_bot := this.rg_bot, w_qc := snow.w_qc, c_qc := snow.c_qc,
      slope_qc := snow.slope_qc, flux_qc := snow.flux_qc }
    f.qg f.rho f.dzi dz dt (a_g M) b_g c_g d_g N_0g qg_min g
  let this1 : Microphys_nsw6 F :=
    { this with
      cfl := acc.2
      rr_bot := rain.rc_bot
      rs_bot := snow.rc_bot
      rg_bot := graupel.rc_bot }
  let st : TendArrays F := { st with qrt := rain.qct, qst := snow.qct, qgt := graupel.qct }
  (this1, st)

/-! ## Statistics -/

/-- The calls that `create` and `exec_stats` make on the statistics
collaborator, with their arguments. -/
inductive StatsCall (F : Type) where
  | add_time_series (name longname unit group_name : String)
  | add_tendency (field zloc tend_name tend_longname : String)
  | calc_stats_2d (name : String) (values : Int → F) (offset : F)

/-- `Microphys_nsw6::create`: the calls made on the statistics object, in
order; `switch` is the value of `stats.get_switch()`, and `tend_name`,
`tend_longname` are the members of the class with these names. -/
def create (switch : Bool) (tend_name tend_longname : String) : List (StatsCall F) :=
  let group_name := "thermo"
  if switch then
    [ StatsCall.add_time_series "rr" "Mean surface rain rate" "kg m-2 s-1" group_name,
      StatsCall.add_time_series "rs" "Mean surface snow rate" "kg m-2 s-1" group_name,
      StatsCall.add_time_series "rg" "Mean surface graupel rate" "kg m-2 s-1" group_name,
      StatsCall.add_tendency "thl" "z" tend_name tend_longname,
      StatsCall.add_tendency "qt" "z" tend_name tend_longname,
      StatsCall.add_tendency "qr" "z" tend_name tend_longname,
      StatsCall.add_tendency "qs" "z" tend_name tend_longname,
      StatsCall.add_tendency "qg" "z" tend_name tend_longname ]
  else
    []

/-- `Microphys_nsw6::exec_stats`: the calls made on the statistics object. -/
def exec_stats (this : Microphys_nsw6 F) (_dt : F) : List (StatsCall F) :=
  let no_offset : F := 0
  [ StatsCall.calc_stats_2d "rr" this.rr_bot no_offset ]

/-- The names of the time series registered by a sequence of calls. -/
def registered_series : List (StatsCall F) → List String
  | [] => []
  | StatsCall.add_time_series name _ _ _ :: rest => name :: registered_series rest
  | _ :: rest => registered_series rest

/-! ## Increments of the tendencies -/

/-- Componentwise sum of the tendencies of a cell. -/
def Tend.add (a b : Tend F) : Tend F :=
  { qrt := a.qrt + b.qrt, qst := a.qst + b.qst, qgt := a.qgt + b.qgt, qtt := a.qtt + b.qtt,
    thlt := a.thlt + b.thlt }

/-- Componentwise difference of the tendencies of a cell: final minus initial. -/
def Tend.sub (a b : Tend F) : Tend F :=
  { qrt := a.qrt - b.qrt, qst := a.qst - b.qst, qgt := a.qgt - b.qgt, qtt := a.qtt - b.qtt,
    thlt := a.thlt - b.thlt }

/-- The flat index `n` is that of an interior cell visited by the loops. -/
def Grid.interior (g : Grid) (n : Int) : Prop :=
  ∃ i j k, g.inBox i j ∧ g.kstart ≤ k ∧ k < g.kend ∧ n = i + j * g.jj + k * g.kk

/-- A cell at the temperature `T0` that holds snow of `1e-3` and no other
condensate. -/
def cellSnowOnly (M : Env F) : Cell F :=
  { qr := 0, qs := 1e-3, qg := 0, qt := 1e-3, thl := M.T0, ql := 0, qi := 0, rho := 1,
    rho0 := 1, exner := 1, p := 1e5, dzi := 1 }

/-- The terms of the running maximum in one cell: `v` is `V_T*dt*dzi[k]` for a
falling species whose mixing ratio exceeds its threshold in the cell. -/
def IsCflTerm (M : Env F) (dt : F) (c : Cell F) (v : F) : Prop :=
  (c.has_rain ∧ v = V_Tr M c * dt * c.dzi) ∨
  (c.has_snow ∧ v = V_Ts M c * dt * c.dzi) ∨
  (c.has_graupel ∧ v = V_Tg M c * dt * c.dzi)

/-- Conversion of a floating-point value to `unsigned long`: the value
truncated toward zero; `none` where the truncated value is not representable
and the behaviour of the conversion is undefined. -/
def to_unsigned_long [FloorRing F] (x : F) : Option Nat :=
  if -1 < x ∧ x < 2 ^ 64 then some ⌊x⌋₊ else none

/-- `Microphys_nsw6::get_time_limit(idt, dt)`: the object after the call, the
values written to `std::cout` and the returned value, with the quotient
`idt * cfl_max / cfl` in exact arithmetic.  The rounding of the operations is
modelled by `get_time_limit_double`. -/
def get_time_limit [FloorRing F] (this : Microphys_nsw6 F) (idt : Nat) (_dt : F) :
    Microphys_nsw6 F × List F × Option Nat :=
  -- Prevent zero division.
  let this := { this with cfl := max this.cfl 1e-5 }
  let cout := if this.cfl > this.cfl_max then [this.cfl] else []
  (this, cout, to_unsigned_long ((idt : F) * this.cfl_max / this.cfl))

end Kernels

/-! ## Masks -/

/-- `Microphys_nsw6::has_mask(name)`. -/
def has_mask (_name : String) : Bool := false

/-- `Microphys_nsw6::get_mask(stats, mask_name)`: the thrown `std::runtime_error`
is the error of `Except`, carrying its message; a normal return would hand back
the statistics object. -/
def get_mask {Stats : Type} (_stats : Stats) (mask_name : String) : Except String Stats :=
  let message := "NSW6 microphysics scheme can not provide mask: \"" ++ mask_name ++ "\""
  throw message

/-! ## Cells visited by the loop nests -/

/-- The horizontal positions `(i, j)` in the order `loop2` visits them. -/
def cells2 (g : Grid) : List (Int × Int) :=
  (lvls g.jstart g.jend).flatMap (fun j => (lvls g.istart g.iend).map (fun i => (i, j)))

/-- The cells `(i, j, k)` in the order `loop3` visits them. -/
def cells3 (g : Grid) : List (Int × Int × Int) :=
  (lvls g.kstart g.kend).flatMap (fun k => (cells2 g).map (fun c => (c.1, c.2, k)))

/-- The sum of `f k` over the interior levels `k = lo, ..., hi-1` of a column. -/
def colsum {F : Type} [LinearOrderedField F] (lo hi : Int) (f : Int → F) : F :=
  ((lvls lo hi).map f).sum

/-! ## Concrete inputs -/

/-- Modelled from the spec: `Micro_2mom_warm_functions::minmod` is not among
the sources.  The slope limiter (Minmod) of the glossary in its standard form:
zero when the arguments differ in sign, otherwise the argument of smaller
magnitude. -/
def minmod_std {F : Type} [LinearOrderedField F] (a b : F) : F :=
  if a * b ≤ 0 then 0 else if |a| ≤ |b| then a else b

/-- A rational instance of the library record, for evaluating the kernels on
concrete inputs: the algebraic functions are exact, the transcendental ones are
rational stand-ins that agree with them at the arguments used below. -/
def ratEnv : Env ℚ where
  sqrt := fun x => x
  pow := fun x y => if y = 1 then x else if y = -1 then 1 / x else 1
  tgamma := fun x => if x = 3 then 2 else if x = 4 then 6 else 1
  exp := fun x => 1 + x
  log := fun x => x - 1
  minmod := minmod_std
  pow2 := fun x => x * x
  pow3 := fun x => x * x * x
  pow7 := fun x => x ^ 7
  esat_liq := fun _ => 611
  esat_ice := fun _ => 611
  qsat_liq := fun _ _ => 1 / 100
  qsat_ice := fun _ _ => 1 / 100
  M_PI := 355 / 113
  Lv := 2500000
  Ls := 2834000
  Lf := 334000
  cp := 1005
  Rv := 461
  T0 := 273

/-- A grid with one interior column `(i, j) = (1, 1)` of two levels `k = 1, 2`
and one ghost cell on every side: `icells = jcells = 3`, `kcells = 4`. -/
def grid1 : Grid :=
  { istart := 1, jstart := 1, kstart := 1, iend := 2, jend := 2, kend := 3, jj := 3, kk := 9 }

/-- Arrays that are zero everywhere. -/
def sedZero : SedArrays ℚ :=
  { qct := fun _ => 0, rc_bot := fun _ => 0, w_qc := fun _ => 0, c_qc := fun _ => 0,
    slope_qc := fun _ => 0, flux_qc := fun _ => 0 }

/-- A mixing ratio of `1e-3` in the upper interior cell of `grid1` (flat index
`1 + 1*3 + 2*9 = 22`), zero elsewhere. -/
def qcTop : Int → ℚ := fun n => if n = 22 then 1 / 1000 else 0

/-- An object with the default `cfl_max = 2` and an observed `cfl = 3/2`. -/
def nsw6A : Microphys_nsw6 ℚ :=
  { cfl := 3 / 2, cfl_max := 2, N_d := 50000000, rr_bot := fun _ => 0, rs_bot := fun _ => 0,
    rg_bot := fun _ => 0 }

/-- An object whose observed `cfl` equals the default `cfl_max = 2`. -/
def nsw6C : Microphys_nsw6 ℚ :=
  { cfl := 2, cfl_max := 2, N_d := 50000000, rr_bot := fun _ => 0, rs_bot := fun _ => 0,
    rg_bot := fun _ => 0 }

/-- A cold cell (`T < T0`) with rain, snow and graupel of `1e-3`, cloud water
and cloud ice of `1e-4`, at unit density. -/
def cellCold : Cell ℚ :=
  { qr := 1 / 1000, qs := 1 / 1000, qg := 1 / 1000, qt := 5 / 1000, thl := 260,
    ql := 1 / 10000, qi := 1 / 10000, rho := 1, rho0 := 1, exner := 1, p := 100000,
    dzi := 1 / 100 }

/-- Tendencies that are zero. -/
def tendZero : Tend ℚ := { qrt := 0, qst := 0, qgt := 0, qtt := 0, thlt := 0 }

/-- Fields without any condensate: all mixing ratios are zero, the reference
profiles are those of a uniform column. -/
def fieldsZero : Fields ℚ :=
  { qr := fun _ => 0, qs := fun _ => 0, qg := fun _ => 0, qt := fun _ => 0,
    thl := fun _ => 300, ql := fun _ => 0, qi := fun _ => 0, rho := fun _ => 1,
    exner := fun _ => 1, p := fun _ => 100000, dzi := fun _ => 1 / 100,
    dzhi := fun _ => 1 / 100 }

/-- Tendency arrays with the value 1 in every element. -/
def tendOnes : TendArrays ℚ :=
  { qrt := fun _ => 1, qst := fun _ => 1, qgt := fun _ => 1, qtt := fun _ => 1,
    thlt := fun _ => 1 }

/-- A horizontally uniform field given by its profile `q`: the element with
flat index `n` lies on level `n / kk`. -/
def byLevel {F : Type} (g : Grid) (q : Int → F) : Int → F := fun n => q (n / g.kk)

/-- The profile of the end-to-end column of the specification: `1e-3` on the
levels 10 to 20 and zero elsewhere. -/
def rainLayer {F : Type} [LinearOrderedField F] : Int → F :=
  fun k => if 10 ≤ k ∧ k ≤ 20 then 1e-3 else 0

/-- A grid with one interior column `(i, j) = (1, 1)` of thirty levels
`k = 1, ..., 30` and one ghost cell on every side. -/
def gridCol : Grid :=
  { istart := 1, jstart := 1, kstart := 1, iend := 2, jend := 2, kend := 31, jj := 3, kk := 9 }

/-- A grid with one interior column `(i, j) = (1, 1)` whose lowest interior
level is level 10: the levels `k = 10, ..., 30`, one ghost cell on every side. -/
def gridRain : Grid :=
  { istart := 1, jstart := 1, kstart := 10, iend := 2, jend := 2, kend := 31, jj := 3, kk := 9 }

/-- The rational instance of the library with `pow` replaced by a stand-in
that is injective in its base, for inputs that compare powers of different
bases. -/
def ratEnvLin : Env ℚ := { ratEnv with pow := fun x y => if y = 0 then 1 else x }

/-- Fields with rain, snow and graupel of `1e-3` in every cell, at unit density. -/
def fieldsMixed : Fields ℚ :=
  { qr := fun _ => 1 / 1000, qs := fun _ => 1 / 1000, qg := fun _ => 1 / 1000,
    qt := fun _ => 5 / 1000, thl := fun _ => 260, ql := fun _ => 0, qi := fun _ => 0,
    rho := fun _ => 1, exner := fun _ => 1, p := fun _ => 100000, dzi := fun _ => 1 / 100,
    dzhi := fun _ => 1 / 100 }

/-- Tendency arrays with the value 2 in every element. -/
def tendTwos : TendArrays ℚ :=
  { qrt := fun _ => 2, qst := fun _ => 2, qgt := fun _ => 2, qtt := fun _ => 2,
    thlt := fun _ => 2 }

/-- Fields with every mixing ratio at its presence threshold. -/
def fieldsThreshold : Fields ℚ :=
  { fieldsZero with
    ql := fun _ => 1 / 10000000
    qi := fun _ => 1 / 10000000
    qr := fun _ => 1 / 1000000000000
    qs := fun _ => 1 / 1000000000000
    qg := fun _ => 1 / 1000000000000 }

/-- Arrays with the tendency and the surface rate of `sedZero` and other
contents in the four scratch buffers. -/
def sedStale : SedArrays ℚ :=
  { qct := fun _ => 0, rc_bot := fun _ => 0, w_qc := fun _ => 7, c_qc := fun n => n,
    slope_qc := fun _ => -3, flux_qc := fun n => 5 - n }

/-- A mixing ratio of `1e-3` in the lower interior cell of `grid1` (flat index
`1 + 1*3 + 1*9 = 13`), zero elsewhere. -/
def qcLow : Int → ℚ := fun n => if n = 13 then 1 / 1000 else 0

/-- The sum of the four mass tendencies `qtt + qrt + qst + qgt` of a cell. -/
def Tend.mass {F : Type} [LinearOrderedField F] (t : Tend F) : F :=
  t.qtt + t.qrt + t.qst + t.qgt

/-- A cell at the temperature `T0` (in the rational instance) with rain, snow
and graupel of `1e-3` and no cloud water or ice, at unit density. -/
def cellWarm : Cell ℚ :=
  { qr := 1 / 1000, qs := 1 / 1000, qg := 1 / 1000, qt := 5 / 1000, thl := 273, ql := 0,
    qi := 0, rho := 1, rho0 := 1, exner := 1, p := 100000, dzi := 1 / 100 }

/-- The accumulation loop of `flux_sweep` with a record of its iterations: the
value of `ftot` at loop exit together with the levels `kc` at which the loop
body ran, in order.  At level `kc` the body reads `rho[kc]`, `qc[ijkc]`,
`slope_qc[ijkc]`, `dz[kc]`, `c_qc[ijkc]` and `dzi[kc+1]`. -/
def flux_sweep_trace {F : Type} [LinearOrderedField F] (qc slope_qc c_qc rho dzi dz : Int → F)
    (g : Grid) (i j : Int) (kc : Int) (ftot dzz cc : F) : F × List Int :=
  if cc > 0 ∧ kc < g.kend then
    let ijkc := i + j * g.jj + kc * g.kk
    let ftot := ftot + rho kc * (qc ijkc + 0.5 * slope_qc ijkc * (1 - cc)) * cc * dz kc
    let dzz := dzz + dz kc
    let kc1 := kc + 1
    let cc := min 1 (c_qc ijkc - dzz * dzi kc1)
    let r := flux_sweep_trace qc slope_qc c_qc rho dzi dz g i j kc1 ftot dzz cc
    (r.1, kc :: r.2)
  else
    (ftot, [])
termination_by (g.kend - kc).toNat
decreasing_by omega

/-! ## The buffer layer (`src/src/buffer.cxx`)

The three-dimensional fields and the height array are functions of the flat
index, as in the microphysics kernels.  A buffer profile `abuf` is an array
that `init` allocates with `bufferkcells` elements: an access `abuf[n]` outside
`0 <= n < bufferkcells` has no defined result and makes the kernel return
`none`. -/

/-- The loop `for (int k=lo; k<hi; k++) body(k)` with a body that can fail. -/
def forUpM {σ : Type} (lo hi : Int) (body : Int → σ → Option σ) (s : σ) : Option σ :=
  (lvls lo hi).foldlM (fun s k => body k s) s

/-- The members of `cgrid` that `cbuffer` uses. -/
structure cgrid (F : Type) where
  imax : Int
  jmax : Int
  kmax : Int
  icells : Int
  jcells : Int
  istart : Int
  jstart : Int
  kstart : Int
  iend : Int
  jend : Int
  kend : Int
  zsize : F

/-- The members of `cbuffer`.  `bufferprofs` maps the name of a field to the
number of elements of the profile allocated for it. -/
structure cbuffer (F : Type) where
  ibuffer : Int
  bufferkstart : Int
  buffersigma : F
  bufferbeta : F
  bufferkcells : Int
  bufferprofs : String → Option Int
  allocated : Bool

/-- The allocation `bufferprofs[name] = new double[bufferkcells]`, which fails
for a negative number of elements. -/
def cbuffer.alloc {F : Type} (this : cbuffer F) (name : String) : Option (cbuffer F) :=
  if 0 ≤ this.bufferkcells then
    some { this with bufferprofs := Function.update this.bufferprofs name (some this.bufferkcells) }
  else
    none

/-- `cbuffer::init`: the object after the call; `MomentumProg` and `ScalarProg`
are the names of the prognostic fields, in the order of the maps. -/
def cbuffer.init {F : Type} (this : cbuffer F) (grid : cgrid F)
    (MomentumProg ScalarProg : List String) : Option (cbuffer F) :=
  if this.ibuffer = 1 then
    -- allocate the buffer array
    let this := { this with bufferkcells := grid.kmax - this.bufferkstart - 1 }
    (MomentumProg.foldlM (fun (b : cbuffer F) name => b.alloc name) this).bind (fun this =>
    (ScalarProg.foldlM (fun (b : cbuffer F) name => b.alloc name) this).bind (fun this =>
    let this := { this with allocated := true }
    -- add the ghost cells to the starting point
    some { this with bufferkstart := this.bufferkstart + grid.kstart }))
  else
    some this

/-- The read `abuf[n]` of a buffer profile. -/
def cbuffer.read_prof {F : Type} (this : cbuffer F) (abuf : Int → F) (n : Int) : Option F :=
  if 0 ≤ n ∧ n < this.bufferkcells then some (abuf n) else none

/-- The update `abuf[n] = f(abuf[n])` of a buffer profile. -/
def cbuffer.update_prof {F : Type} (this : cbuffer F) (abuf : Int → F) (n : Int) (f : F → F) :
    Option (Int → F) :=
  if 0 ≤ n ∧ n < this.bufferkcells then some (Function.update abuf n (f (abuf n))) else none

/-- `cbuffer::buffer(at, a, abuf, z)`: the tendency array `at` after the call. -/
def cbuffer.buffer {F : Type} [LinearOrderedField F] (M : Env F) (this : cbuffer F)
    (grid : cgrid F) (at_ a abuf z : Int → F) : Option (Int → F) :=
  let jj := grid.icells
  let kk := grid.icells * grid.jcells
  let kloopstart := this.bufferkstart + 1
  let zsizebuf := grid.zsize - z this.bufferkstart
  forUpM kloopstart grid.kend (fun k at_ =>
    let sigma := this.buffersigma
      * M.pow ((z k - z this.bufferkstart) / zsizebuf) this.bufferbeta
    forUpM grid.jstart grid.jend (fun j at_ =>
      forUpM grid.istart grid.iend (fun i at_ =>
        let ijk := i + j * jj + k * kk
        (this.read_prof abuf (k - kloopstart)).map (fun b =>
          Function.update at_ ijk (at_ ijk - sigma * (a ijk - b)))) at_) at_) at_

/-- `cbuffer::setbuffer(a, abuf)`: the profile `abuf` after the call; `getprof`
is `cgrid::getprof`, which is not part of the sources. -/
def cbuffer.setbuffer {F : Type} [LinearOrderedField F] (this : cbuffer F) (grid : cgrid F)
    (getprof : (Int → F) → Int → (Int → F)) (a abuf : Int → F) : Option (Int → F) :=
  let jj := grid.icells
  let kk := grid.icells * grid.jcells
  let kloopstart := this.bufferkstart + 1
  (forUpM kloopstart grid.kend (fun k abuf =>
    (this.update_prof abuf (k - kloopstart) (fun _ => 0)).bind (fun abuf =>
    (forUpM grid.jstart grid.jend (fun j abuf =>
      forUpM grid.istart grid.iend (fun i abuf =>
        let ijk := i + j * jj + k * kk
        this.update_prof abuf (k - kloopstart) (fun v => v + a ijk)) abuf) abuf).bind
    (fun abuf =>
      this.update_prof abuf (k - kloopstart)
        (fun v => v / ((grid.imax * grid.jmax : Int) : F))))) abuf).map
    (fun abuf => getprof abuf this.bufferkcells)

/-- The bounds and strides of the loop nest of `buffer` and `setbuffer`: the
levels from `kloopstart = bufferkstart + 1`, `jj = icells`, `kk = icells*jcells`. -/
def cbuffer.loops {F : Type} (this : cbuffer F) (grid : cgrid F) : Grid :=
  { istart := grid.istart, jstart := grid.jstart, kstart := this.bufferkstart + 1,
    iend := grid.iend, jend := grid.jend, kend := grid.kend, jj := grid.icells,
    kk := grid.icells * grid.jcells }

/-- The factor `sigma` of `buffer` at level `k`. -/
def cbuffer.sigma {F : Type} [LinearOrderedField F] (M : Env F) (this : cbuffer F)
    (grid : cgrid F) (z : Int → F) (k : Int) : F :=
  this.buffersigma
    * M.pow ((z k - z this.bufferkstart) / (grid.zsize - z this.bufferkstart)) this.bufferbeta

/-- A grid with one interior column `(i, j) = (1, 1)` of two levels
`k = 1, 2` (`kmax = 2`), one ghost cell on every side, and a domain height of
200. -/
def gridBuf : cgrid ℚ :=
  { imax := 1, jmax := 1, kmax := 2, icells := 3, jcells := 3, istart := 1, jstart := 1,
    kstart := 1, iend := 2, jend := 2, kend := 3, zsize := 200 }

/-- A buffer object as read from the input, before `init`: switched on, with
`bufferkstart = 0` and the default `buffersigma = bufferbeta = 2`. -/
def bufInput : cbuffer ℚ :=
  { ibuffer := 1, bufferkstart := 0, buffersigma := 2, bufferbeta := 2, bufferkcells := 0,
    bufferprofs := fun _ => none, allocated := false }

/-- The buffer object `bufInput` after `init` on `gridBuf`, apart from the
allocations: `bufferkcells = 1` and `bufferkstart = 1`. -/
def bufReady : cbuffer ℚ :=
  { ibuffer := 1, bufferkstart := 1, buffersigma := 2, bufferbeta := 2, bufferkcells := 1,
    bufferprofs := fun _ => none, allocated := true }

/-- The heights of the full levels of `gridBuf`: 100 m levels, `z[k] = 100*k - 50`. -/
def zBuf : Int → ℚ := fun k => 100 * k - 50

/-! ## Double-precision arithmetic of `get_time_limit`

The members `cfl` and `cfl_max` and the expression `idt * cfl_max / cfl` are of
type `double` in the instantiation `Microphys_nsw6<double>`.  A `double` is
modelled by the rational number it represents; the result of an operation is
the exact result rounded to the nearest number with a significand of 53 bits. -/

/-- The nearest integer, the even one of the two at a tie. -/
def round_even (q : ℚ) : Int :=
  let f := ⌊q⌋
  if q - f < 1 / 2 then f
  else if 1 / 2 < q - f then f + 1
  else if f % 2 = 0 then f
  else f + 1

/-- The exponent `e` of the binade `2^e <= |x| < 2^(e+1)` of `x`, not below the
exponent `-1022` of the smallest normal number. -/
def binade (x : ℚ) : Int := max (Int.log 2 |x|) (-1022)

/-- The `double` nearest to `x` (binary64, round to nearest, ties to even,
with the subnormal numbers): the result of an operation with the exact result
`x`; `none` when the rounded result is not finite. -/
def fl64 (x : ℚ) : Option ℚ :=
  let ulp : ℚ := 2 ^ (binade x - 52)
  let y : ℚ := (round_even (x / ulp) : ℚ) * ulp
  if |y| < 2 ^ 1024 then some y else none

/-- The value of the literal `1.e-5`: the `double` nearest to `1/100000`. -/
def double_1em5 : ℚ := 5902958103587057 / 2 ^ 69

/-- `Microphys_nsw6<double>::get_time_limit(idt, dt)` with the rounding of the
`double` operations: the object after the call, the values written to
`std::cout` and the returned value.  `idt` is converted to `double`, the
product and the quotient are rounded, and the result is converted to
`unsigned long`. -/
def get_time_limit_double (this : Microphys_nsw6 ℚ) (idt : Nat) (_dt : ℚ) :
    Microphys_nsw6 ℚ × List ℚ × Option Nat :=
  -- Prevent zero division.
  let this := { this with cfl := max this.cfl double_1em5 }
  let cout := if this.cfl > this.cfl_max then [this.cfl] else []
  (this, cout,
    (fl64 (idt : ℚ)).bind (fun x =>
    (fl64 (x * this.cfl_max)).bind (fun p =>
    (fl64 (p / this.cfl)).bind (fun q => to_unsigned_long q))))

/-- The value of the `double` nearest to `1.2`. -/
def double_1p2 : ℚ := 5404319552844595 / 2 ^ 52

/-- An object whose observed `cfl` equals `cfl_max = 1.2`, as `double`. -/
def nsw6D : Microphys_nsw6 ℚ :=
  { cfl := double_1p2, cfl_max := double_1p2, N_d := 50000000, rr_bot := fun _ => 0,
    rs_bot := fun _ => 0, rg_bot := fun _ => 0 }

/-! ## Loop lemmas -/

theorem mem_lvls {lo hi k : Int} : k ∈ lvls lo hi ↔ lo ≤ k ∧ k < hi := by
  unfold lvls
  simp only [List.mem_map, List.mem_range]
  constructor
  · rintro ⟨n, hn, rfl⟩
    omega
  · rintro ⟨h1, h2⟩
    exact ⟨(k - lo).toNat, by omega, by omega⟩

theorem nodup_lvls (lo hi : Int) : (lvls lo hi).Nodup := by
  unfold lvls
  refine (List.nodup_range _).map ?_
  intro a b hab
  simpa using hab

theorem lvls_of_le {lo hi : Int} (h : hi ≤ lo) : lvls lo hi = [] := by
  unfold lvls
  have : (hi - lo).toNat = 0 := by omega
  simp [this]

theorem lvls_succ {lo hi : Int} (h : lo ≤ hi) : lvls lo (hi + 1) = lvls lo hi ++ [hi] := by
  unfold lvls
  have : (hi + 1 - lo).toNat = (hi - lo).toNat + 1 := by omega
  rw [this, List.range_succ, List.map_append]
  simp only [List.map_cons, List.map_nil]
  congr 2
  omega

theorem lvls_cons {lo hi : Int} (h : lo < hi) : lvls lo hi = lo :: lvls (lo + 1) hi := by
  unfold lvls
  have : (hi - lo).toNat = (hi - (lo + 1)).toNat + 1 := by omega
  rw [this, List.range_succ_eq_map]
  simp only [List.map_cons, List.map_map, Nat.cast_zero, add_zero]
  congr 1
  apply List.map_congr_left
  intro n _
  simp only [Function.comp_apply, Nat.cast_succ]
  ring

theorem foldl_flatMap {α β σ : Type} (f : σ → β → σ) (g : α → List β) (L : List α) (s : σ) :
    (L.flatMap g).foldl f s = L.foldl (fun s a => (g a).foldl f s) s := by
  induction L generalizing s with
  | nil => rfl
  | cons a L ih => simp [List.flatMap_cons, List.foldl_append, ih]


theorem loop2_eq_foldl {σ : Type} (g : Grid) (body : Int → Int → σ → σ) (s : σ) :
    loop2 g body s = (cells2 g).foldl (fun s c => body c.1 c.2 s) s := by
  unfold loop2 forUp cells2
  rw [foldl_flatMap]
  simp only [List.foldl_map]

theorem loop3_eq_foldl {σ : Type} (g : Grid) (body : Int → Int → Int → σ → σ) (s : σ) :
    loop3 g body s = (cells3 g).foldl (fun s c => body c.1 c.2.1 c.2.2 s) s := by
  unfold loop3 forUp cells3
  rw [foldl_flatMap]
  simp only [List.foldl_map, loop2_eq_foldl]

theorem mem_cells2 {g : Grid} {c : Int × Int} : c ∈ cells2 g ↔ g.inBox c.1 c.2 := by
  unfold cells2 Grid.inBox
  simp only [List.mem_flatMap, List.mem_map, mem_lvls]
  constructor
  · rintro ⟨j, hj, i, hi, rfl⟩
    exact ⟨hi.1, hi.2, hj.1, hj.2⟩
  · rintro ⟨h1, h2, h3, h4⟩
    exact ⟨c.2, ⟨h3, h4⟩, c.1, ⟨h1, h2⟩, rfl⟩

theorem mem_cells3 {g : Grid} {c : Int × Int × Int} :
    c ∈ cells3 g ↔ g.inBox c.1 c.2.1 ∧ g.kstart ≤ c.2.2 ∧ c.2.2 < g.kend := by
  unfold cells3
  simp only [List.mem_flatMap, List.mem_map, mem_lvls]
  constructor
  · rintro ⟨k, hk, d, hd, rfl⟩
    exact ⟨mem_cells2.1 hd, hk.1, hk.2⟩
  · rintro ⟨h1, h2, h3⟩
    exact ⟨c.2.2, ⟨h2, h3⟩, (c.1, c.2.1), mem_cells2.2 h1, rfl⟩

/-- A sequence of stores, each at the index of its own cell and each with a
value that does not depend on what the other stores of the sequence write:
every cell ends with the value computed from the initial state, and the
elements that are no cell's index keep their content. -/
theorem foldl_local_write {ι σ V : Type} (get : σ → Int → V) (idx : ι → Int)
    (body : ι → σ → σ) (h : ι → σ → V) (W : Set Int)
    (hbody : ∀ c s x, get (body c s) x = if x = idx c then h c s else get s x)
    (L : List ι)
    (hh : ∀ c ∈ L, ∀ s s', get s (idx c) = get s' (idx c) →
      (∀ y, y ∉ W → get s y = get s' y) → h c s = h c s')
    (hW : ∀ c ∈ L, idx c ∈ W) (hnd : (L.map idx).Nodup) (s : σ) :
    (∀ c ∈ L, get (L.foldl (fun s c => body c s) s) (idx c) = h c s) ∧
    (∀ x, x ∉ L.map idx → get (L.foldl (fun s c => body c s) s) x = get s x) := by
  induction L generalizing s with
  | nil => simp
  | cons a L ih =>
    rw [List.map_cons, List.nodup_cons] at hnd
    obtain ⟨ih1, ih2⟩ := ih (fun c hc => hh c (List.mem_cons_of_mem _ hc))
      (fun c hc => hW c (List.mem_cons_of_mem _ hc)) hnd.2 (body a s)
    have hne : ∀ c ∈ L, idx c ≠ idx a := by
      intro c hc heq
      exact hnd.1 (heq ▸ List.mem_map_of_mem idx hc)
    constructor
    · intro c hc
      rw [List.foldl_cons]
      rcases List.mem_cons.1 hc with rfl | hc
      · rw [ih2 _ hnd.1, hbody, if_pos rfl]
      · rw [ih1 c hc]
        apply hh c (List.mem_cons_of_mem _ hc)
        · rw [hbody, if_neg (hne c hc)]
        · intro y hy
          rw [hbody, if_neg]
          rintro rfl
          exact hy (hW a (List.mem_cons_self _ _))
    · intro x hx
      rw [List.map_cons, List.mem_cons, not_or] at hx
      rw [List.foldl_cons, ih2 x hx.2, hbody, if_neg hx.1]

theorem divmod_unique {r r' k k' m : Int} (h0 : 0 ≤ r) (h1 : r < m) (h0' : 0 ≤ r')
    (h1' : r' < m) (h : r + k * m = r' + k' * m) : r = r' ∧ k = k' := by
  have hm : m ≠ 0 := by omega
  have e1 : (r + k * m) / m = k := by
    rw [Int.add_mul_ediv_right _ _ hm, Int.ediv_eq_zero_of_lt h0 h1, zero_add]
  have e2 : (r' + k' * m) / m = k' := by
    rw [Int.add_mul_ediv_right _ _ hm, Int.ediv_eq_zero_of_lt h0' h1', zero_add]
  have hk : k = k' := by rw [← e1, ← e2, h]
  subst hk
  exact ⟨by linarith, rfl⟩

theorem Grid.WellFormed.ij_bounds {g : Grid} (hg : g.WellFormed) {i j : Int}
    (hb : g.inBox i j) : 0 ≤ i ∧ i < g.jj ∧ 0 ≤ i + j * g.jj ∧ i + j * g.jj < g.kk := by
  obtain ⟨h1, h2, h3, h4⟩ := hb
  have hi0 : 0 ≤ i := le_trans hg.istart_nonneg h1
  have hi1 : i < g.jj := lt_of_lt_of_le h2 hg.iend_le
  have hj0 : 0 ≤ j := le_trans hg.jstart_nonneg h3
  have hjj : 0 ≤ g.jj := by omega
  have e1 : 0 ≤ j * g.jj := mul_nonneg hj0 hjj
  have e2 : (j + 1) * g.jj ≤ g.jend * g.jj := mul_le_mul_of_nonneg_right (by omega) hjj
  have e3 := hg.jend_le
  refine ⟨hi0, hi1, by omega, ?_⟩
  have : (j + 1) * g.jj = j * g.jj + g.jj := by ring
  omega

theorem Grid.WellFormed.ij_inj {g : Grid} (hg : g.WellFormed) {i j i' j' : Int}
    (hb : g.inBox i j) (hb' : g.inBox i' j') (h : i + j * g.jj = i' + j' * g.jj) :
    i = i' ∧ j = j' := by
  obtain ⟨a0, a1, _, _⟩ := hg.ij_bounds hb
  obtain ⟨b0, b1, _, _⟩ := hg.ij_bounds hb'
  exact divmod_unique a0 a1 b0 b1 h

theorem Grid.WellFormed.ijk_inj {g : Grid} (hg : g.WellFormed) {i j k i' j' k' : Int}
    (hb : g.inBox i j) (hb' : g.inBox i' j')
    (h : i + j * g.jj + k * g.kk = i' + j' * g.jj + k' * g.kk) :
    i = i' ∧ j = j' ∧ k = k' := by
  obtain ⟨_, _, a0, a1⟩ := hg.ij_bounds hb
  obtain ⟨_, _, b0, b1⟩ := hg.ij_bounds hb'
  obtain ⟨e1, e2⟩ := divmod_unique a0 a1 b0 b1 h
  obtain ⟨e3, e4⟩ := hg.ij_inj hb hb' e1
  exact ⟨e3, e4, e2⟩

theorem nodup_cells2 (g : Grid) : (cells2 g).Nodup := by
  unfold cells2
  rw [List.nodup_flatMap]
  constructor
  · intro j _
    refine (nodup_lvls _ _).map ?_
    intro a b hab
    simpa using hab
  · refine (nodup_lvls g.jstart g.jend).pairwise_of_forall_ne ?_
    intro a _ b _ hab
    simp only [Function.onFun, List.disjoint_left, List.mem_map]
    rintro c ⟨i, _, rfl⟩ ⟨i', _, h⟩
    exact hab (by simpa using (congrArg Prod.snd h).symm)

theorem nodup_cells3 (g : Grid) : (cells3 g).Nodup := by
  unfold cells3
  rw [List.nodup_flatMap]
  constructor
  · intro k _
    refine (nodup_cells2 g).map ?_
    intro a b hab
    simp only [Prod.mk.injEq, and_true] at hab
    exact Prod.ext hab.1 hab.2
  · refine (nodup_lvls g.kstart g.kend).pairwise_of_forall_ne ?_
    intro a _ b _ hab
    simp only [Function.onFun, List.disjoint_left, List.mem_map]
    rintro c ⟨d, _, rfl⟩ ⟨d', _, h⟩
    exact hab (by simpa using (congrArg (fun x => x.2.2) h).symm)


theorem Grid.WellFormed.nodup_ij {g : Grid} (hg : g.WellFormed) :
    ((cells2 g).map (fun c => c.1 + c.2 * g.jj)).Nodup := by
  refine List.Nodup.map_on ?_ (nodup_cells2 g)
  intro a ha b hb hab
  obtain ⟨e1, e2⟩ := hg.ij_inj (mem_cells2.1 ha) (mem_cells2.1 hb) hab
  exact Prod.ext e1 e2

theorem Grid.WellFormed.nodup_ijk_level {g : Grid} (hg : g.WellFormed) (k : Int) :
    ((cells2 g).map (fun c => c.1 + c.2 * g.jj + k * g.kk)).Nodup := by
  refine List.Nodup.map_on ?_ (nodup_cells2 g)
  intro a ha b hb hab
  obtain ⟨e1, e2, _⟩ := hg.ijk_inj (mem_cells2.1 ha) (mem_cells2.1 hb) hab
  exact Prod.ext e1 e2

theorem Grid.WellFormed.nodup_ijk {g : Grid} (hg : g.WellFormed) :
    ((cells3 g).map (fun c => c.1 + c.2.1 * g.jj + c.2.2 * g.kk)).Nodup := by
  refine List.Nodup.map_on ?_ (nodup_cells3 g)
  intro a ha b hb hab
  obtain ⟨e1, e2, e3⟩ := hg.ijk_inj (mem_cells3.1 ha).1 (mem_cells3.1 hb).1 hab
  exact Prod.ext e1 (Prod.ext e2 e3)

/-- A loop nest over the interior cells that replaces the element of each cell
by a function `u i j k` of its old content. -/
theorem loop3_modify {V : Type} {g : Grid} (hg : g.WellFormed) (u : Int → Int → Int → V → V)
    (a : Int → V) :
    (∀ i j k, g.inBox i j → g.kstart ≤ k → k < g.kend →
      loop3 g (fun i j k a => Function.update a (i + j * g.jj + k * g.kk)
        (u i j k (a (i + j * g.jj + k * g.kk)))) a (i + j * g.jj + k * g.kk)
        = u i j k (a (i + j * g.jj + k * g.kk))) ∧
    (∀ x, (∀ i j k, g.inBox i j → g.kstart ≤ k → k < g.kend → x ≠ i + j * g.jj + k * g.kk) →
      loop3 g (fun i j k a => Function.update a (i + j * g.jj + k * g.kk)
        (u i j k (a (i + j * g.jj + k * g.kk)))) a x = a x) := by
  rw [loop3_eq_foldl]
  obtain ⟨h1, h2⟩ := foldl_local_write (fun (s : Int → V) => s)
    (fun (c : Int × Int × Int) => c.1 + c.2.1 * g.jj + c.2.2 * g.kk)
    (fun c a => Function.update a (c.1 + c.2.1 * g.jj + c.2.2 * g.kk)
      (u c.1 c.2.1 c.2.2 (a (c.1 + c.2.1 * g.jj + c.2.2 * g.kk))))
    (fun c a => u c.1 c.2.1 c.2.2 (a (c.1 + c.2.1 * g.jj + c.2.2 * g.kk))) Set.univ
    (fun c s x => by simp only [Function.update_apply])
    (cells3 g) (fun c _ s s' e _ => by simp only [e])
    (fun _ _ => Set.mem_univ _) hg.nodup_ijk a
  constructor
  · intro i j k hb hk1 hk2
    exact h1 (i, j, k) (mem_cells3.2 ⟨hb, hk1, hk2⟩)
  · intro x hx
    apply h2
    simp only [List.mem_map, not_exists, not_and]
    intro c hc heq
    obtain ⟨hb, hk1, hk2⟩ := mem_cells3.1 hc
    exact hx _ _ _ hb hk1 hk2 heq.symm

/-- A horizontal loop nest that stores at the element `i + j*jj + off` of each
position a value `h i j a` which depends on the array only through elements
that the nest does not write. -/
theorem loop2_store {V : Type} {g : Grid} (hg : g.WellFormed) (off : Int)
    (h : Int → Int → (Int → V) → V) (a : Int → V)
    (hh : ∀ i j, g.inBox i j → ∀ (s s' : Int → V),
      (∀ y, (∀ i' j', g.inBox i' j' → y ≠ i' + j' * g.jj + off) → s y = s' y) →
      h i j s = h i j s') :
    (∀ i j, g.inBox i j →
      loop2 g (fun i j a => Function.update a (i + j * g.jj + off) (h i j a)) a
        (i + j * g.jj + off) = h i j a) ∧
    (∀ x, (∀ i j, g.inBox i j → x ≠ i + j * g.jj + off) →
      loop2 g (fun i j a => Function.update a (i + j * g.jj + off) (h i j a)) a x = a x) := by
  rw [loop2_eq_foldl]
  have hnd : ((cells2 g).map (fun c => c.1 + c.2 * g.jj + off)).Nodup := by
    have e : (cells2 g).map (fun c => c.1 + c.2 * g.jj + off)
        = ((cells2 g).map (fun c => c.1 + c.2 * g.jj)).map (fun x => x + off) := by
      rw [List.map_map]
      rfl
    rw [e]
    exact hg.nodup_ij.map (fun x y hxy => by simpa using hxy)
  obtain ⟨h1, h2⟩ := foldl_local_write (fun (s : Int → V) => s)
    (fun (c : Int × Int) => c.1 + c.2 * g.jj + off)
    (fun c a => Function.update a (c.1 + c.2 * g.jj + off) (h c.1 c.2 a))
    (fun c a => h c.1 c.2 a)
    {y | ∃ i j, g.inBox i j ∧ y = i + j * g.jj + off}
    (fun c s x => by simp only [Function.update_apply])
    (cells2 g)
    (fun c hc s s' _ e => hh c.1 c.2 (mem_cells2.1 hc) s s' (fun y hy => e y (by
      simp only [Set.mem_setOf_eq, not_exists, not_and]
      exact fun i j hb => hy i j hb)))
    (fun c hc => ⟨c.1, c.2, mem_cells2.1 hc, rfl⟩) hnd a
  constructor
  · intro i j hb
    exact h1 (i, j) (mem_cells2.2 hb)
  · intro x hx
    apply h2
    simp only [List.mem_map, not_exists, not_and]
    intro c hc heq
    exact hx _ _ (mem_cells2.1 hc) heq.symm


theorem forDown_of_le {σ : Type} (hi lo : Int) (body : Int → σ → σ) (s : σ) (h : hi ≤ lo) :
    forDown hi lo body s = s := by
  unfold forDown
  rw [lvls_of_le (by omega)]
  rfl

theorem forDown_step {σ : Type} (hi lo : Int) (body : Int → σ → σ) (s : σ) (h : lo < hi) :
    forDown hi lo body s = body (lo + 1) (forDown hi (lo + 1) body s) := by
  unfold forDown
  rw [lvls_cons (by omega : lo + 1 < hi + 1), List.reverse_cons, List.foldl_append]
  rfl

/-- Invariant rule for the downward loop: `P k` is the state of affairs just
before the iteration `k - 1`. -/
theorem forDown_inv {σ : Type} (P : Int → σ → Prop) (body : Int → σ → σ) (hi lo : Int)
    (hle : lo ≤ hi) (s : σ) (h0 : P (hi + 1) s)
    (hstep : ∀ k s, lo < k → k ≤ hi → P (k + 1) s → P k (body k s)) :
    P (lo + 1) (forDown hi lo body s) := by
  obtain ⟨n, hn⟩ : ∃ n : Nat, hi = lo + n := ⟨(hi - lo).toNat, by omega⟩
  induction n generalizing lo with
  | zero =>
    have : hi = lo := by simpa using hn
    subst this
    rw [forDown_of_le _ _ _ _ le_rfl]
    exact h0
  | succ n ih =>
    have hlt : lo < hi := by rw [hn]; push_cast; omega
    rw [forDown_step _ _ _ _ hlt]
    apply hstep _ _ (by omega) (by omega)
    exact ih (lo + 1) (by omega) (fun k s h1 h2 => hstep k s (by omega) h2)
      (by rw [hn]; push_cast; ring)


section SedimentationLemmas

variable {F : Type} [LinearOrderedField F]

theorem sed_flux_congr (qc slope_qc c_qc rho dzi dz : Int → F) (dt : F) (g : Grid)
    (i j k : Int) (f f' : Int → F)
    (h : f (i + j * g.jj + k * g.kk + g.kk) = f' (i + j * g.jj + k * g.kk + g.kk)) :
    sed_flux qc slope_qc c_qc rho dzi dz dt g i j k f
      = sed_flux qc slope_qc c_qc rho dzi dz dt g i j k f' := by
  simp only [sed_flux, h]

/-- The flux sweep together with the top boundary: at every visited position
the flux at level `kend` is zero and the flux at an interior level is the
clipped cumulative flux computed from the final flux one level higher. -/
theorem flux_phase {g : Grid} (hg : g.WellFormed) (qc slope_qc c_qc rho dzi dz : Int → F)
    (dt : F) (f0 : Int → F) {i j : Int} (hb : g.inBox i j) :
    forDown (g.kend - 1) (g.kstart - 1) (fun k => loop2 g (fun i j flux_qc =>
      Function.update flux_qc (i + j * g.jj + k * g.kk)
        (sed_flux qc slope_qc c_qc rho dzi dz dt g i j k flux_qc)))
      (loop2 g (fun i j flux_qc => Function.update flux_qc (i + j * g.jj + g.kend * g.kk) 0) f0)
      (i + j * g.jj + g.kend * g.kk) = 0 ∧
    ∀ k, g.kstart ≤ k → k < g.kend →
      forDown (g.kend - 1) (g.kstart - 1) (fun k => loop2 g (fun i j flux_qc =>
        Function.update flux_qc (i + j * g.jj + k * g.kk)
          (sed_flux qc slope_qc c_qc rho dzi dz dt g i j k flux_qc)))
        (loop2 g (fun i j flux_qc => Function.update flux_qc (i + j * g.jj + g.kend * g.kk) 0) f0)
        (i + j * g.jj + k * g.kk)
      = sed_flux qc slope_qc c_qc rho dzi dz dt g i j k
        (forDown (g.kend - 1) (g.kstart - 1) (fun k => loop2 g (fun i j flux_qc =>
          Function.update flux_qc (i + j * g.jj + k * g.kk)
            (sed_flux qc slope_qc c_qc rho dzi dz dt g i j k flux_qc)))
          (loop2 g (fun i j flux_qc =>
            Function.update flux_qc (i + j * g.jj + g.kend * g.kk) 0) f0)) := by
  have key := forDown_inv
    (fun (k0 : Int) (f : Int → F) => ∀ i j, g.inBox i j →
      f (i + j * g.jj + g.kend * g.kk) = 0 ∧
      ∀ k, k0 ≤ k → k < g.kend →
        f (i + j * g.jj + k * g.kk) = sed_flux qc slope_qc c_qc rho dzi dz dt g i j k f)
    (fun k => loop2 g (fun i j flux_qc =>
      Function.update flux_qc (i + j * g.jj + k * g.kk)
        (sed_flux qc slope_qc c_qc rho dzi dz dt g i j k flux_qc)))
    (g.kend - 1) (g.kstart - 1) (by have := hg.kstart_le; omega)
    (loop2 g (fun i j flux_qc => Function.update flux_qc (i + j * g.jj + g.kend * g.kk) 0) f0)
    ?_ ?_
  · have := key i j hb
    simp only [sub_add_cancel] at this
    exact this
  · intro i j hb
    constructor
    · exact (loop2_store hg (g.kend * g.kk) (fun _ _ _ => (0 : F)) f0
        (fun _ _ _ _ _ _ => rfl)).1 i j hb
    · intro k h1 h2
      omega
  · intro k s hk1 hk2 hP
    obtain ⟨w1, w2⟩ := loop2_store hg (k * g.kk)
      (fun i j f => sed_flux qc slope_qc c_qc rho dzi dz dt g i j k f) s
      (by
        intro i j hb s1 s2 e
        have : s1 (i + j * g.jj + k * g.kk + g.kk) = s2 (i + j * g.jj + k * g.kk + g.kk) := by
          apply e
          intro i' j' hb' heq
          have h3 : i + j * g.jj + (k + 1) * g.kk = i' + j' * g.jj + k * g.kk := by
            rw [← heq]; ring
          have := (hg.ijk_inj hb hb' h3).2.2
          omega
        exact sed_flux_congr _ _ _ _ _ _ _ _ _ _ _ _ _ this)
    have frame : ∀ i j k', g.inBox i j → k' ≠ k →
        loop2 g (fun i j flux_qc => Function.update flux_qc (i + j * g.jj + k * g.kk)
          (sed_flux qc slope_qc c_qc rho dzi dz dt g i j k flux_qc)) s
          (i + j * g.jj + k' * g.kk) = s (i + j * g.jj + k' * g.kk) := by
      intro i j k' hb hne
      apply w2
      intro i' j' hb' heq
      exact hne (hg.ijk_inj hb hb' heq).2.2
    have above : ∀ i j k', g.inBox i j → k' + 1 ≠ k →
        loop2 g (fun i j flux_qc => Function.update flux_qc (i + j * g.jj + k * g.kk)
          (sed_flux qc slope_qc c_qc rho dzi dz dt g i j k flux_qc)) s
          (i + j * g.jj + k' * g.kk + g.kk) = s (i + j * g.jj + k' * g.kk + g.kk) := by
      intro i j k' hb hne
      have e : i + j * g.jj + k' * g.kk + g.kk = i + j * g.jj + (k' + 1) * g.kk := by ring
      rw [e]
      exact frame i j (k' + 1) hb hne
    intro i j hb
    obtain ⟨p1, p2⟩ := hP i j hb
    beta_reduce
    constructor
    · rw [frame i j g.kend hb (by omega)]
      exact p1
    · intro k' h1 h2
      rcases eq_or_lt_of_le h1 with rfl | hlt
      · rw [w1 i j hb]
        exact sed_flux_congr _ _ _ _ _ _ _ _ _ _ _ _ _ (above i j k hb (by omega)).symm
      · rw [frame i j k' hb (by omega), p2 k' (by omega) h2]
        exact sed_flux_congr _ _ _ _ _ _ _ _ _ _ _ _ _ (above i j k' hb (by omega)).symm

/-- Step 1.1 on a grid with at least one interior level: at every visited
position the ghost cell below holds the velocity of the lowest interior cell,
the ghost cell above holds zero and the interior cells are unchanged. -/
theorem ghost_phase {g : Grid} (hg : g.WellFormed) (hlt : g.kstart < g.kend) (w : Int → F)
    {i j : Int} (hb : g.inBox i j) :
    loop2 g (fun i j w_qc => sed_ghost g i j w_qc) w (i + j * g.jj + (g.kstart - 1) * g.kk)
      = w (i + j * g.jj + g.kstart * g.kk) ∧
    loop2 g (fun i j w_qc => sed_ghost g i j w_qc) w (i + j * g.jj + g.kend * g.kk) = 0 ∧
    ∀ k, g.kstart ≤ k → k < g.kend →
      loop2 g (fun i j w_qc => sed_ghost g i j w_qc) w (i + j * g.jj + k * g.kk)
        = w (i + j * g.jj + k * g.kk) := by
  have hfold : loop2 g (fun i j w_qc => sed_ghost g i j w_qc) w
      = ((cells2 g).flatMap (fun c => [(c, false), (c, true)])).foldl
        (fun (s : Int → F) (c : (Int × Int) × Bool) =>
          Function.update s
            (c.1.1 + c.1.2 * g.jj + (if c.2 then g.kend else g.kstart - 1) * g.kk)
            (if c.2 then 0 else s (c.1.1 + c.1.2 * g.jj + (g.kstart - 1) * g.kk + g.kk))) w := by
    rw [loop2_eq_foldl, foldl_flatMap]
    simp [sed_ghost]
  have hnd : (((cells2 g).flatMap (fun c => [(c, false), (c, true)])).map
      (fun (c : (Int × Int) × Bool) =>
        c.1.1 + c.1.2 * g.jj + (if c.2 then g.kend else g.kstart - 1) * g.kk)).Nodup := by
    refine List.Nodup.map_on ?_ ?_
    · intro a ha b hb' hab
      simp only [List.mem_flatMap, List.mem_cons, List.mem_singleton, List.not_mem_nil,
        or_false] at ha hb'
      obtain ⟨ca, hca, ea⟩ := ha
      obtain ⟨cb, hcb, eb⟩ := hb'
      have ia : g.inBox a.1.1 a.1.2 := by
        rcases ea with rfl | rfl <;> exact mem_cells2.1 hca
      have ib : g.inBox b.1.1 b.1.2 := by
        rcases eb with rfl | rfl <;> exact mem_cells2.1 hcb
      obtain ⟨e1, e2, e3⟩ := hg.ijk_inj ia ib hab
      have e4 : a.2 = b.2 := by
        rcases Bool.eq_false_or_eq_true a.2 with h1 | h1 <;>
          rcases Bool.eq_false_or_eq_true b.2 with h2 | h2 <;>
          simp only [h1, h2, if_true, if_false, Bool.false_eq_true] at e3 ⊢ <;> omega
      exact Prod.ext (Prod.ext e1 e2) e4
    · rw [List.nodup_flatMap]
      constructor
      · intro c _
        simp
      · refine (nodup_cells2 g).pairwise_of_forall_ne ?_
        intro a _ b _ hab
        simp only [Function.onFun, List.disjoint_left, List.mem_cons, List.mem_singleton,
          List.not_mem_nil, or_false]
        rintro c (rfl | rfl) (h | h)
        · exact hab (congrArg Prod.fst h)
        · exact hab (congrArg Prod.fst h)
        · exact hab (congrArg Prod.fst h)
        · exact hab (congrArg Prod.fst h)
  obtain ⟨h1, h2⟩ := foldl_local_write (fun (s : Int → F) => s)
    (fun (c : (Int × Int) × Bool) =>
      c.1.1 + c.1.2 * g.jj + (if c.2 then g.kend else g.kstart - 1) * g.kk)
    (fun c s => Function.update s
      (c.1.1 + c.1.2 * g.jj + (if c.2 then g.kend else g.kstart - 1) * g.kk)
      (if c.2 then 0 else s (c.1.1 + c.1.2 * g.jj + (g.kstart - 1) * g.kk + g.kk)))
    (fun c s => if c.2 then 0 else s (c.1.1 + c.1.2 * g.jj + (g.kstart - 1) * g.kk + g.kk))
    {y | ∃ i j, g.inBox i j ∧
      (y = i + j * g.jj + (g.kstart - 1) * g.kk ∨ y = i + j * g.jj + g.kend * g.kk)}
    (fun c s x => by simp only [Function.update_apply])
    ((cells2 g).flatMap (fun c => [(c, false), (c, true)]))
    (by
      intro c hc s s' _ e
      simp only [List.mem_flatMap, List.mem_cons, List.mem_singleton, List.not_mem_nil,
        or_false] at hc
      obtain ⟨d, hd, ed⟩ := hc
      have ic : g.inBox c.1.1 c.1.2 := by
        rcases ed with rfl | rfl <;> exact mem_cells2.1 hd
      have : s (c.1.1 + c.1.2 * g.jj + (g.kstart - 1) * g.kk + g.kk)
          = s' (c.1.1 + c.1.2 * g.jj + (g.kstart - 1) * g.kk + g.kk) := by
        apply e
        simp only [Set.mem_setOf_eq, not_exists, not_and, not_or]
        intro i' j' hb'
        have e0 : c.1.1 + c.1.2 * g.jj + (g.kstart - 1) * g.kk + g.kk
            = c.1.1 + c.1.2 * g.jj + g.kstart * g.kk := by ring
        rw [e0]
        constructor
        · intro heq
          have := (hg.ijk_inj ic hb' heq).2.2
          omega
        · intro heq
          have := (hg.ijk_inj ic hb' heq).2.2
          omega
      simp only [this])
    (by
      intro c hc
      simp only [List.mem_flatMap, List.mem_cons, List.mem_singleton, List.not_mem_nil,
        or_false] at hc
      obtain ⟨d, hd, ed⟩ := hc
      refine ⟨c.1.1, c.1.2, ?_, ?_⟩
      · rcases ed with rfl | rfl <;> exact mem_cells2.1 hd
      · rcases ed with rfl | rfl <;> simp)
    hnd w
  rw [hfold]
  refine ⟨?_, ?_, ?_⟩
  · have := h1 ((i, j), false) (by
      simp only [List.mem_flatMap, List.mem_cons, List.mem_singleton, List.not_mem_nil, or_false]
      exact ⟨(i, j), mem_cells2.2 hb, Or.inl rfl⟩)
    simp only [Bool.false_eq_true, if_false] at this
    rw [this]
    congr 1
    ring
  · have := h1 ((i, j), true) (by
      simp only [List.mem_flatMap, List.mem_cons, List.mem_singleton, List.not_mem_nil, or_false]
      exact ⟨(i, j), mem_cells2.2 hb, Or.inr rfl⟩)
    simpa using this
  · intro k hk1 hk2
    apply h2
    simp only [List.mem_map, List.mem_flatMap, List.mem_cons, List.mem_singleton,
      List.not_mem_nil, or_false, not_exists, not_and]
    rintro c ⟨d, hd, ed⟩ heq
    have ic : g.inBox c.1.1 c.1.2 := by
      rcases ed with rfl | rfl <;> exact mem_cells2.1 hd
    have e3 := (hg.ijk_inj ic hb heq).2.2
    rcases ed with rfl | rfl
    · simp only [Bool.false_eq_true, if_false] at e3
      omega
    · simp only [if_true] at e3
      omega

theorem colsum_succ (lo hi : Int) (f : Int → F) (h : lo ≤ hi) :
    colsum lo (hi + 1) f = colsum lo hi f + f hi := by
  unfold colsum
  rw [lvls_succ h, List.map_append, List.sum_append]
  simp

theorem colsum_congr (lo hi : Int) (f f' : Int → F)
    (h : ∀ k, lo ≤ k → k < hi → f k = f' k) : colsum lo hi f = colsum lo hi f' := by
  unfold colsum
  congr 1
  apply List.map_congr_left
  intro k hk
  exact h k (mem_lvls.1 hk).1 (mem_lvls.1 hk).2

theorem colsum_add (lo hi : Int) (f f' : Int → F) :
    colsum lo hi (fun k => f k + f' k) = colsum lo hi f + colsum lo hi f' := by
  unfold colsum
  induction lvls lo hi with
  | nil => simp
  | cons a L ih =>
    simp only [List.map_cons, List.sum_cons, ih]
    ring

theorem colsum_mul_right (lo hi : Int) (f : Int → F) (c : F) :
    colsum lo hi (fun k => f k * c) = colsum lo hi f * c := by
  unfold colsum
  induction lvls lo hi with
  | nil => simp
  | cons a L ih =>
    simp only [List.map_cons, List.sum_cons, ih]
    ring

/-- A sum of differences of consecutive levels telescopes. -/
theorem colsum_telescope (lo hi : Int) (f : Int → F) (h : lo ≤ hi) :
    colsum lo hi (fun k => f k - f (k + 1)) = f lo - f hi := by
  obtain ⟨n, rfl⟩ : ∃ n : Nat, hi = lo + n := ⟨(hi - lo).toNat, by omega⟩
  induction n with
  | zero => simp [colsum, lvls_of_le]
  | succ n ih =>
    have e : lo + ((n + 1 : Nat) : Int) = lo + (n : Int) + 1 := by push_cast; ring
    rw [e, colsum_succ _ _ _ (by omega), ih (by omega)]
    ring

theorem sed_flux_top {g : Grid} (hg : g.WellFormed) (M : Env F) (s : SedArrays F)
    (qc rho dzi dz : Int → F) (dt a_c b_c c_c d_c N_0c qc_min : F) {i j : Int}
    (hb : g.inBox i j) :
    (sedimentation_ss08 M s qc rho dzi dz dt a_c b_c c_c d_c N_0c qc_min g).flux_qc
      (i + j * g.jj + g.kend * g.kk) = 0 :=
  (flux_phase hg qc _ _ rho dzi dz dt s.flux_qc hb).1

theorem sed_flux_interior {g : Grid} (hg : g.WellFormed) (M : Env F) (s : SedArrays F)
    (qc rho dzi dz : Int → F) (dt a_c b_c c_c d_c N_0c qc_min : F) {i j k : Int}
    (hb : g.inBox i j) (hk1 : g.kstart ≤ k) (hk2 : k < g.kend) :
    (sedimentation_ss08 M s qc rho dzi dz dt a_c b_c c_c d_c N_0c qc_min g).flux_qc
      (i + j * g.jj + k * g.kk)
    = sed_flux qc
        (sedimentation_ss08 M s qc rho dzi dz dt a_c b_c c_c d_c N_0c qc_min g).slope_qc
        (sedimentation_ss08 M s qc rho dzi dz dt a_c b_c c_c d_c N_0c qc_min g).c_qc
        rho dzi dz dt g i j k
        (sedimentation_ss08 M s qc rho dzi dz dt a_c b_c c_c d_c N_0c qc_min g).flux_qc :=
  (flux_phase hg qc _ _ rho dzi dz dt s.flux_qc hb).2 k hk1 hk2

theorem sed_qct_interior {g : Grid} (hg : g.WellFormed) (M : Env F) (s : SedArrays F)
    (qc rho dzi dz : Int → F) (dt a_c b_c c_c d_c N_0c qc_min : F) {i j k : Int}
    (hb : g.inBox i j) (hk1 : g.kstart ≤ k) (hk2 : k < g.kend) :
    (sedimentation_ss08 M s qc rho dzi dz dt a_c b_c c_c d_c N_0c qc_min g).qct
      (i + j * g.jj + k * g.kk)
    = s.qct (i + j * g.jj + k * g.kk) + sed_tend
        (sedimentation_ss08 M s qc rho dzi dz dt a_c b_c c_c d_c N_0c qc_min g).flux_qc
        rho dzi g i j k :=
  (loop3_modify hg (fun i j k v => v + sed_tend
    (sedimentation_ss08 M s qc rho dzi dz dt a_c b_c c_c d_c N_0c qc_min g).flux_qc
    rho dzi g i j k) s.qct).1 i j k hb hk1 hk2

theorem sed_rc_bot {g : Grid} (hg : g.WellFormed) (M : Env F) (s : SedArrays F)
    (qc rho dzi dz : Int → F) (dt a_c b_c c_c d_c N_0c qc_min : F) {i j : Int}
    (hb : g.inBox i j) :
    (sedimentation_ss08 M s qc rho dzi dz dt a_c b_c c_c d_c N_0c qc_min g).rc_bot
      (i + j * g.jj)
    = -(sedimentation_ss08 M s qc rho dzi dz dt a_c b_c c_c d_c N_0c qc_min g).flux_qc
        (i + j * g.jj + g.kstart * g.kk) := by
  have h := (loop2_store hg 0 (fun i j _ =>
    -(sedimentation_ss08 M s qc rho dzi dz dt a_c b_c c_c d_c N_0c qc_min g).flux_qc
      (i + j * g.jj + g.kstart * g.kk)) s.rc_bot (fun _ _ _ _ _ _ => rfl)).1 i j hb
  simp only [add_zero] at h
  exact h

theorem sed_w_interior {g : Grid} (hg : g.WellFormed) (M : Env F) (s : SedArrays F)
    (qc rho dzi dz : Int → F) (dt a_c b_c c_c d_c N_0c qc_min : F) {i j k : Int}
    (hb : g.inBox i j) (hk1 : g.kstart ≤ k) (hk2 : k < g.kend) :
    (sedimentation_ss08 M s qc rho dzi dz dt a_c b_c c_c d_c N_0c qc_min g).w_qc
      (i + j * g.jj + k * g.kk)
    = sed_velocity M qc rho a_c b_c c_c d_c N_0c qc_min g i j k := by
  have h := (ghost_phase hg (by omega) (loop3 g (fun i j k w_qc =>
    Function.update w_qc (i + j * g.jj + k * g.kk)
      (sed_velocity M qc rho a_c b_c c_c d_c N_0c qc_min g i j k)) s.w_qc) hb).2.2 k hk1 hk2
  have h' := (loop3_modify hg (fun i j k _ =>
    sed_velocity M qc rho a_c b_c c_c d_c N_0c qc_min g i j k) s.w_qc).1 i j k hb hk1 hk2
  exact h.trans h'

theorem sed_w_bot {g : Grid} (hg : g.WellFormed) (M : Env F) (s : SedArrays F)
    (qc rho dzi dz : Int → F) (dt a_c b_c c_c d_c N_0c qc_min : F) {i j : Int}
    (hb : g.inBox i j) (hlt : g.kstart < g.kend) :
    (sedimentation_ss08 M s qc rho dzi dz dt a_c b_c c_c d_c N_0c qc_min g).w_qc
      (i + j * g.jj + (g.kstart - 1) * g.kk)
    = sed_velocity M qc rho a_c b_c c_c d_c N_0c qc_min g i j g.kstart := by
  have h := (ghost_phase hg hlt (loop3 g (fun i j k w_qc =>
    Function.update w_qc (i + j * g.jj + k * g.kk)
      (sed_velocity M qc rho a_c b_c c_c d_c N_0c qc_min g i j k)) s.w_qc) hb).1
  have h' := (loop3_modify hg (fun i j k _ =>
    sed_velocity M qc rho a_c b_c c_c d_c N_0c qc_min g i j k) s.w_qc).1 i j g.kstart hb
    le_rfl hlt
  exact h.trans h'

theorem sed_w_top {g : Grid} (hg : g.WellFormed) (M : Env F) (s : SedArrays F)
    (qc rho dzi dz : Int → F) (dt a_c b_c c_c d_c N_0c qc_min : F) {i j : Int}
    (hb : g.inBox i j) (hlt : g.kstart < g.kend) :
    (sedimentation_ss08 M s qc rho dzi dz dt a_c b_c c_c d_c N_0c qc_min g).w_qc
      (i + j * g.jj + g.kend * g.kk) = 0 :=
  (ghost_phase hg hlt (loop3 g (fun i j k w_qc =>
    Function.update w_qc (i + j * g.jj + k * g.kk)
      (sed_velocity M qc rho a_c b_c c_c d_c N_0c qc_min g i j k)) s.w_qc) hb).2.1

theorem sed_c_interior {g : Grid} (hg : g.WellFormed) (M : Env F) (s : SedArrays F)
    (qc rho dzi dz : Int → F) (dt a_c b_c c_c d_c N_0c qc_min : F) {i j k : Int}
    (hb : g.inBox i j) (hk1 : g.kstart ≤ k) (hk2 : k < g.kend) :
    (sedimentation_ss08 M s qc rho dzi dz dt a_c b_c c_c d_c N_0c qc_min g).c_qc
      (i + j * g.jj + k * g.kk)
    = sed_cfl (sedimentation_ss08 M s qc rho dzi dz dt a_c b_c c_c d_c N_0c qc_min g).w_qc
        dzi dt g i j k :=
  (loop3_modify hg (fun i j k _ => sed_cfl
    (sedimentation_ss08 M s qc rho dzi dz dt a_c b_c c_c d_c N_0c qc_min g).w_qc
    dzi dt g i j k) s.c_qc).1 i j k hb hk1 hk2

theorem sed_slope_interior {g : Grid} (hg : g.WellFormed) (M : Env F) (s : SedArrays F)
    (qc rho dzi dz : Int → F) (dt a_c b_c c_c d_c N_0c qc_min : F) {i j k : Int}
    (hb : g.inBox i j) (hk1 : g.kstart ≤ k) (hk2 : k < g.kend) :
    (sedimentation_ss08 M s qc rho dzi dz dt a_c b_c c_c d_c N_0c qc_min g).slope_qc
      (i + j * g.jj + k * g.kk) = sed_slope M qc g i j k :=
  (loop3_modify hg (fun i j k _ => sed_slope M qc g i j k) s.slope_qc).1 i j k hb hk1 hk2

/-- The Courant number of an interior cell in terms of the velocities of the
three cells of the stencil, ghost cells included. -/
theorem sed_c_stencil {g : Grid} (hg : g.WellFormed) (M : Env F) (s : SedArrays F)
    (qc rho dzi dz : Int → F) (dt a_c b_c c_c d_c N_0c qc_min : F) {i j k : Int}
    (hb : g.inBox i j) (hk1 : g.kstart ≤ k) (hk2 : k < g.kend) :
    (sedimentation_ss08 M s qc rho dzi dz dt a_c b_c c_c d_c N_0c qc_min g).c_qc
      (i + j * g.jj + k * g.kk)
    = 0.25 * (sed_velocity M qc rho a_c b_c c_c d_c N_0c qc_min g i j (max g.kstart (k - 1))
        + 2 * sed_velocity M qc rho a_c b_c c_c d_c N_0c qc_min g i j k
        + (if k + 1 < g.kend then
            sed_velocity M qc rho a_c b_c c_c d_c N_0c qc_min g i j (k + 1) else 0))
      * dzi k * dt := by
  rw [sed_c_interior hg M s qc rho dzi dz dt a_c b_c c_c d_c N_0c qc_min hb hk1 hk2]
  unfold sed_cfl
  simp only []
  have e1 : i + j * g.jj + k * g.kk - g.kk = i + j * g.jj + (k - 1) * g.kk := by ring
  have e2 : i + j * g.jj + k * g.kk + g.kk = i + j * g.jj + (k + 1) * g.kk := by ring
  rw [e1, e2, sed_w_interior hg M s qc rho dzi dz dt a_c b_c c_c d_c N_0c qc_min hb hk1 hk2]
  have hbelow : (sedimentation_ss08 M s qc rho dzi dz dt a_c b_c c_c d_c N_0c qc_min g).w_qc
      (i + j * g.jj + (k - 1) * g.kk)
      = sed_velocity M qc rho a_c b_c c_c d_c N_0c qc_min g i j (max g.kstart (k - 1)) := by
    rcases eq_or_lt_of_le hk1 with rfl | hlt
    · rw [sed_w_bot hg M s qc rho dzi dz dt a_c b_c c_c d_c N_0c qc_min hb hk2,
        max_eq_left (by omega)]
    · rw [sed_w_interior hg M s qc rho dzi dz dt a_c b_c c_c d_c N_0c qc_min hb
        (by omega) (by omega), max_eq_right (by omega)]
  have habove : (sedimentation_ss08 M s qc rho dzi dz dt a_c b_c c_c d_c N_0c qc_min g).w_qc
      (i + j * g.jj + (k + 1) * g.kk)
      = (if k + 1 < g.kend then
          sed_velocity M qc rho a_c b_c c_c d_c N_0c qc_min g i j (k + 1) else 0) := by
    split_ifs with h
    · exact sed_w_interior hg M s qc rho dzi dz dt a_c b_c c_c d_c N_0c qc_min hb
        (by omega) h
    · have : k + 1 = g.kend := by omega
      rw [this]
      exact sed_w_top hg M s qc rho dzi dz dt a_c b_c c_c d_c N_0c qc_min hb (by omega)
  rw [hbelow, habove]

theorem foldl_id {ι σ : Type} (body : ι → σ → σ) (L : List ι) (s : σ)
    (h : ∀ c ∈ L, body c s = s) : L.foldl (fun s c => body c s) s = s := by
  induction L with
  | nil => rfl
  | cons a L ih =>
    rw [List.foldl_cons, h a (List.mem_cons_self _ _)]
    exact ih (fun c hc => h c (List.mem_cons_of_mem _ hc))

/-- A loop nest whose body leaves the state as it is at every cell does nothing. -/
theorem loop3_id {σ : Type} (g : Grid) (body : Int → Int → Int → σ → σ) (s : σ)
    (h : ∀ i j k, body i j k s = s) : loop3 g body s = s := by
  rw [loop3_eq_foldl]
  exact foldl_id _ _ _ (fun c _ => h c.1 c.2.1 c.2.2)

omit [LinearOrderedField F] in
theorem TendArrays.set_get (t : TendArrays F) (n : Int) : t.set n (t.get n) = t := by
  cases t
  simp [TendArrays.set, TendArrays.get]

theorem flux_sweep_of_nonpos (qc slope_qc c_qc rho dzi dz : Int → F) (g : Grid) (i j kc : Int)
    (ftot dzz cc : F) (h : cc ≤ 0) :
    flux_sweep qc slope_qc c_qc rho dzi dz g i j kc ftot dzz cc = ftot := by
  rw [flux_sweep, if_neg]
  rintro ⟨h1, _⟩
  exact absurd h (not_le.2 h1)

theorem sed_velocity_of_le (M : Env F) (qc rho : Int → F) (a_c b_c c_c d_c N_0c qc_min : F)
    (g : Grid) (i j k : Int) (h : qc (i + j * g.jj + k * g.kk) ≤ qc_min) :
    sed_velocity M qc rho a_c b_c c_c d_c N_0c qc_min g i j k = 0 := by
  unfold sed_velocity
  simp only []
  rw [if_neg (not_lt.2 h)]

/-- Sedimentation of a species that is absent everywhere: every interface flux
of a visited column is zero, so the surface rate is zero and the tendency of
the interior cells is unchanged. -/
theorem sed_of_zero {g : Grid} (hg : g.WellFormed) (M : Env F) (s : SedArrays F)
    (qc rho dzi dz : Int → F) (dt a_c b_c c_c d_c N_0c qc_min : F)
    (hq : ∀ n, qc n = 0) (hmin : 0 ≤ qc_min) {i j : Int} (hb : g.inBox i j) :
    (sedimentation_ss08 M s qc rho dzi dz dt a_c b_c c_c d_c N_0c qc_min g).rc_bot
      (i + j * g.jj) = 0 ∧
    ∀ k, g.kstart ≤ k → k < g.kend →
      (sedimentation_ss08 M s qc rho dzi dz dt a_c b_c c_c d_c N_0c qc_min g).qct
        (i + j * g.jj + k * g.kk) = s.qct (i + j * g.jj + k * g.kk) := by
  have hv : ∀ k, sed_velocity M qc rho a_c b_c c_c d_c N_0c qc_min g i j k = 0 :=
    fun k => sed_velocity_of_le M qc rho a_c b_c c_c d_c N_0c qc_min g i j k
      (by rw [hq]; exact hmin)
  have hflux : ∀ n : Nat, (n : Int) ≤ g.kend - g.kstart →
      (sedimentation_ss08 M s qc rho dzi dz dt a_c b_c c_c d_c N_0c qc_min g).flux_qc
        (i + j * g.jj + (g.kend - n) * g.kk) = 0 := by
    intro n
    induction n with
    | zero =>
      intro _
      simp only [Nat.cast_zero, sub_zero]
      exact sed_flux_top hg M s qc rho dzi dz dt a_c b_c c_c d_c N_0c qc_min hb
    | succ n ih =>
      intro hn
      push_cast at hn
      have hk1 : g.kstart ≤ g.kend - ((n + 1 : Nat) : Int) := by push_cast; omega
      have hk2 : g.kend - ((n + 1 : Nat) : Int) < g.kend := by push_cast; omega
      rw [sed_flux_interior hg M s qc rho dzi dz dt a_c b_c c_c d_c N_0c qc_min hb hk1 hk2]
      unfold sed_flux sed_ftot
      simp only []
      have e : i + j * g.jj + (g.kend - ((n + 1 : Nat) : Int)) * g.kk + g.kk
          = i + j * g.jj + (g.kend - (n : Int)) * g.kk := by push_cast; ring
      rw [e, ih (by omega),
        sed_c_stencil hg M s qc rho dzi dz dt a_c b_c c_c d_c N_0c qc_min hb hk1 hk2]
      simp only [hv, ite_self, mul_zero, add_zero, zero_mul]
      rw [flux_sweep_of_nonpos _ _ _ _ _ _ _ _ _ _ _ _ _ (min_le_right _ _)]
      simp [hq]
  have hflux' : ∀ k, g.kstart ≤ k → k ≤ g.kend →
      (sedimentation_ss08 M s qc rho dzi dz dt a_c b_c c_c d_c N_0c qc_min g).flux_qc
        (i + j * g.jj + k * g.kk) = 0 := by
    intro k hk1 hk2
    have := hflux (g.kend - k).toNat (by omega)
    have e : g.kend - ((g.kend - k).toNat : Int) = k := by omega
    rwa [e] at this
  constructor
  · rw [sed_rc_bot hg M s qc rho dzi dz dt a_c b_c c_c d_c N_0c qc_min hb,
      hflux' g.kstart le_rfl hg.kstart_le, neg_zero]
  · intro k hk1 hk2
    rw [sed_qct_interior hg M s qc rho dzi dz dt a_c b_c c_c d_c N_0c qc_min hb hk1 hk2]
    unfold sed_tend
    simp only []
    have e : i + j * g.jj + k * g.kk + g.kk = i + j * g.jj + (k + 1) * g.kk := by ring
    rw [e, hflux' k hk1 (by omega), hflux' (k + 1) (by omega) (by omega)]
    simp

/-- With no category above its threshold no block of the cell body is taken. -/
theorem autoconversion_cell_of_absent (M : Env F) (N_d : F) (c : Cell F) (t : Tend F)
    (hl : ¬ c.has_liq) (hi : ¬ c.has_ice) (hs : ¬ c.has_snow) :
    autoconversion_cell M N_d c t = t := by
  simp only [autoconversion_cell, auto_cloud_to_rain, auto_ice_to_snow, auto_snow_to_graupel,
    if_neg hl, if_neg hi, if_neg hs]

theorem accretion_cell_of_absent (M : Env F) (c : Cell F) (t : Tend F)
    (hl : ¬ c.has_liq) (hi : ¬ c.has_ice) (hr : ¬ c.has_rain) (hs : ¬ c.has_snow)
    (hg : ¬ c.has_graupel) : accretion_cell M c t = t := by
  simp only [accretion_cell, cloud_to_rain, rain_to_vapor, cloud_to_graupel, cloud_to_snow,
    ice_to_snow, ice_to_graupel, rain_to_graupel, rain_to_snow, snow_to_rain, snow_to_graupel,
    snow_to_vapor, graupel_to_rain, graupel_to_vapor, if_neg hl, if_neg hi, if_neg hr,
    if_neg hs, if_neg hg]

theorem cfl_cell_of_absent (M : Env F) (dt : F) (c : Cell F) (cfl : F)
    (hr : ¬ c.has_rain) (hs : ¬ c.has_snow) (hg : ¬ c.has_graupel) :
    cfl_cell M dt c cfl = cfl := by
  simp only [cfl_cell, if_neg hr, if_neg hs, if_neg hg]

theorem autoconversion_of_zero (M : Env F) (t : TendArrays F) (f : Fields F) (N_d : F)
    (g : Grid) (hl : ∀ n, f.ql n = 0) (hi : ∀ n, f.qi n = 0) (hs : ∀ n, f.qs n = 0) :
    autoconversion M t f N_d g = t := by
  unfold autoconversion
  apply loop3_id
  intro i j k
  simp only []
  rw [autoconversion_cell_of_absent, TendArrays.set_get]
  · simp only [Cell.has_liq, Fields.cell, hl, ql_min, gt_iff_lt, not_lt]
    norm_num
  · simp only [Cell.has_ice, Fields.cell, hi, qi_min, gt_iff_lt, not_lt]
    norm_num
  · simp only [Cell.has_snow, Fields.cell, hs, qs_min, gt_iff_lt, not_lt]
    norm_num

theorem accretion_of_zero (M : Env F) (t : TendArrays F) (cfl_out : F) (f : Fields F) (dt : F)
    (g : Grid) (hl : ∀ n, f.ql n = 0) (hi : ∀ n, f.qi n = 0) (hr : ∀ n, f.qr n = 0)
    (hs : ∀ n, f.qs n = 0) (hgr : ∀ n, f.qg n = 0) :
    accretion_and_phase_changes M t cfl_out f dt g = (t, 0) := by
  unfold accretion_and_phase_changes
  apply loop3_id
  intro i j k
  have h1 : ¬ (f.cell g i j k).has_liq := by
    simp only [Cell.has_liq, Fields.cell, hl, ql_min, gt_iff_lt, not_lt]
    norm_num
  have h2 : ¬ (f.cell g i j k).has_ice := by
    simp only [Cell.has_ice, Fields.cell, hi, qi_min, gt_iff_lt, not_lt]
    norm_num
  have h3 : ¬ (f.cell g i j k).has_rain := by
    simp only [Cell.has_rain, Fields.cell, hr, qr_min, gt_iff_lt, not_lt]
    norm_num
  have h4 : ¬ (f.cell g i j k).has_snow := by
    simp only [Cell.has_snow, Fields.cell, hs, qs_min, gt_iff_lt, not_lt]
    norm_num
  have h5 : ¬ (f.cell g i j k).has_graupel := by
    simp only [Cell.has_graupel, Fields.cell, hgr, qg_min, gt_iff_lt, not_lt]
    norm_num
  simp only []
  rw [accretion_cell_of_absent M _ _ h1 h2 h3 h4 h5, TendArrays.set_get,
    cfl_cell_of_absent M dt _ _ h3 h4 h5]

end SedimentationLemmas


/-! ## Sedimentation: mass budget and positivity -/

section SedimentationClaims

variable {F : Type} [LinearOrderedField F]

theorem grid1_wellFormed : grid1.WellFormed :=
  ⟨by decide, by decide, by decide, by decide, by decide⟩

theorem grid1_inBox : grid1.inBox 1 1 := by
  unfold Grid.inBox grid1
  decide

/-- C1. For one call of `sedimentation_ss08`, at every horizontal position of a
well-formed grid, with `rho[k] != 0` and `dzi[k] = 1/dz[k]` on the interior
levels: the density-weighted column sum of the tendency increment equals minus
the recorded surface rate, and the column mass after a step of length `dt`
equals the mass before minus `rc_bot*dt`. -/
theorem sedimentation_mass_balance (M : Env F) (s : SedArrays F) (qc rho dzi dz : Int → F)
    (dt a_c b_c c_c d_c N_0c qc_min : F) (g : Grid) (hg : g.WellFormed) (i j : Int)
    (hb : g.inBox i j)
    (hrho : ∀ k, g.kstart ≤ k → k < g.kend → rho k ≠ 0)
    (hdz : ∀ k, g.kstart ≤ k → k < g.kend → dz k ≠ 0)
    (hdzi : ∀ k, g.kstart ≤ k → k < g.kend → dzi k = 1 / dz k) :
    colsum g.kstart g.kend (fun k => rho k * dz k *
        ((sedimentation_ss08 M s qc rho dzi dz dt a_c b_c c_c d_c N_0c qc_min g).qct
          (i + j * g.jj + k * g.kk) - s.qct (i + j * g.jj + k * g.kk)))
      = -(sedimentation_ss08 M s qc rho dzi dz dt a_c b_c c_c d_c N_0c qc_min g).rc_bot
          (i + j * g.jj)
    ∧ colsum g.kstart g.kend (fun k => rho k * (qc (i + j * g.jj + k * g.kk) + dt *
        ((sedimentation_ss08 M s qc rho dzi dz dt a_c b_c c_c d_c N_0c qc_min g).qct
          (i + j * g.jj + k * g.kk) - s.qct (i + j * g.jj + k * g.kk))) * dz k)
      = colsum g.kstart g.kend (fun k => rho k * qc (i + j * g.jj + k * g.kk) * dz k)
        - (sedimentation_ss08 M s qc rho dzi dz dt a_c b_c c_c d_c N_0c qc_min g).rc_bot
            (i + j * g.jj) * dt := by
  have hsum : colsum g.kstart g.kend (fun k => rho k * dz k *
        ((sedimentation_ss08 M s qc rho dzi dz dt a_c b_c c_c d_c N_0c qc_min g).qct
          (i + j * g.jj + k * g.kk) - s.qct (i + j * g.jj + k * g.kk)))
      = -(sedimentation_ss08 M s qc rho dzi dz dt a_c b_c c_c d_c N_0c qc_min g).rc_bot
          (i + j * g.jj) := by
    rw [sed_rc_bot hg M s qc rho dzi dz dt a_c b_c c_c d_c N_0c qc_min hb, neg_neg]
    have htel := colsum_telescope g.kstart g.kend (fun k =>
      (sedimentation_ss08 M s qc rho dzi dz dt a_c b_c c_c d_c N_0c qc_min g).flux_qc
        (i + j * g.jj + k * g.kk)) hg.kstart_le
    simp only [sed_flux_top hg M s qc rho dzi dz dt a_c b_c c_c d_c N_0c qc_min hb,
      sub_zero] at htel
    rw [← htel]
    apply colsum_congr
    intro k hk1 hk2
    rw [sed_qct_interior hg M s qc rho dzi dz dt a_c b_c c_c d_c N_0c qc_min hb hk1 hk2]
    have e : i + j * g.jj + k * g.kk + g.kk = i + j * g.jj + (k + 1) * g.kk := by ring
    simp only [sed_tend, e, hdzi k hk1 hk2, add_sub_cancel_left]
    have h1 := hrho k hk1 hk2
    have h2 := hdz k hk1 hk2
    field_simp
  refine ⟨hsum, ?_⟩
  rw [sub_eq_add_neg, ← neg_mul, ← hsum, ← colsum_mul_right, ← colsum_add]
  apply colsum_congr
  intro k _ _
  ring

/-- C1, at the column of `grid1` with unit density and 100 m levels. -/
theorem sedimentation_mass_balance_witness :
    colsum grid1.kstart grid1.kend (fun k => (1 : ℚ) * 100 *
        ((sedimentation_ss08 ratEnv sedZero qcTop (fun _ => 1) (fun _ => 1 / 100)
            (fun _ => 100) 1 500 3 130 (1 / 2) 8000000 (1 / 1000000000000) grid1).qct
          (1 + 1 * grid1.jj + k * grid1.kk) - sedZero.qct (1 + 1 * grid1.jj + k * grid1.kk)))
      = -(sedimentation_ss08 ratEnv sedZero qcTop (fun _ => 1) (fun _ => 1 / 100)
            (fun _ => 100) 1 500 3 130 (1 / 2) 8000000 (1 / 1000000000000) grid1).rc_bot
          (1 + 1 * grid1.jj) :=
  (sedimentation_mass_balance ratEnv sedZero qcTop (fun _ => 1) (fun _ => 1 / 100)
    (fun _ => 100) 1 500 3 130 (1 / 2) 8000000 (1 / 1000000000000) grid1 grid1_wellFormed 1 1
    grid1_inBox (fun _ _ _ => one_ne_zero) (fun _ _ _ => by norm_num)
    (fun _ _ _ => rfl)).1

/-- The clip of the flux sweep: the mass that leaves cell `k` through its lower
interface in one step is at most the content of the cell plus the mass that
enters through the upper interface. -/
theorem sed_updated_nonneg (M : Env F) (s : SedArrays F) (qc rho dzi dz : Int → F)
    (dt a_c b_c c_c d_c N_0c qc_min : F) (g : Grid) (hg : g.WellFormed) (i j k : Int)
    (hb : g.inBox i j) (hk1 : g.kstart ≤ k) (hk2 : k < g.kend)
    (hrho : 0 < rho k) (hdz : 0 < dz k) (hdzi : dzi k = 1 / dz k) (hdt : 0 < dt) :
    0 ≤ qc (i + j * g.jj + k * g.kk) + dt *
      ((sedimentation_ss08 M s qc rho dzi dz dt a_c b_c c_c d_c N_0c qc_min g).qct
        (i + j * g.jj + k * g.kk) - s.qct (i + j * g.jj + k * g.kk)) := by
  rw [sed_qct_interior hg M s qc rho dzi dz dt a_c b_c c_c d_c N_0c qc_min hb hk1 hk2,
    add_sub_cancel_left]
  unfold sed_tend
  simp only []
  rw [sed_flux_interior hg M s qc rho dzi dz dt a_c b_c c_c d_c N_0c qc_min hb hk1 hk2]
  unfold sed_flux
  simp only []
  generalize sed_ftot qc _ _ rho dzi dz g i j k = ft
  generalize (sedimentation_ss08 M s qc rho dzi dz dt a_c b_c c_c d_c N_0c qc_min g).flux_qc
    (i + j * g.jj + k * g.kk + g.kk) = fa
  have hm : min ft (rho k * dz k * qc (i + j * g.jj + k * g.kk) - fa * dt)
      ≤ rho k * dz k * qc (i + j * g.jj + k * g.kk) - fa * dt := min_le_right _ _
  generalize min ft (rho k * dz k * qc (i + j * g.jj + k * g.kk) - fa * dt) = m at hm
  generalize qc (i + j * g.jj + k * g.kk) = q at hm
  rw [hdzi]
  have e : q + dt * (-(fa - -m / dt) / rho k * (1 / dz k))
      = (rho k * dz k * q - fa * dt - m) / (rho k * dz k) := by
    field_simp
    ring
  rw [e]
  exact div_nonneg (by linarith) (le_of_lt (mul_pos hrho hdz))

/-- C2. With `rho[k] > 0`, `dz[k] > 0`, `dzi[k] = 1/dz[k]`, `dt > 0` and
non-negative mixing ratios on entry, if the Courant number `c_qc` is at most 1
on the interior levels of a column, then after one `sedimentation_ss08` call the
updated value `q[k] + dt*dqct[k]` is non-negative in every interior cell of the
column (`dqct` is the tendency increment of the call). -/
theorem sedimentation_nonneg_of_cfl_le_one (M : Env F) (s : SedArrays F)
    (qc rho dzi dz : Int → F) (dt a_c b_c c_c d_c N_0c qc_min : F) (g : Grid)
    (hg : g.WellFormed) (i j : Int) (hb : g.inBox i j)
    (hrho : ∀ k, g.kstart ≤ k → k < g.kend → 0 < rho k)
    (hdz : ∀ k, g.kstart ≤ k → k < g.kend → 0 < dz k)
    (hdzi : ∀ k, g.kstart ≤ k → k < g.kend → dzi k = 1 / dz k)
    (hdt : 0 < dt)
    (_hq : ∀ n, 0 ≤ qc n)
    (_hcfl : ∀ k, g.kstart ≤ k → k < g.kend →
      (sedimentation_ss08 M s qc rho dzi dz dt a_c b_c c_c d_c N_0c qc_min g).c_qc
        (i + j * g.jj + k * g.kk) ≤ 1) :
    ∀ k, g.kstart ≤ k → k < g.kend →
      0 ≤ qc (i + j * g.jj + k * g.kk) + dt *
        ((sedimentation_ss08 M s qc rho dzi dz dt a_c b_c c_c d_c N_0c qc_min g).qct
          (i + j * g.jj + k * g.kk) - s.qct (i + j * g.jj + k * g.kk)) :=
  fun k hk1 hk2 => sed_updated_nonneg M s qc rho dzi dz dt a_c b_c c_c d_c N_0c qc_min g hg
    i j k hb hk1 hk2 (hrho k hk1 hk2) (hdz k hk1 hk2) (hdzi k hk1 hk2) hdt

theorem qcTop_nonneg : ∀ n, 0 ≤ qcTop n := by
  intro n
  unfold qcTop
  split <;> norm_num

theorem grid1_cfl_le_one : ∀ k, grid1.kstart ≤ k → k < grid1.kend →
    (sedimentation_ss08 ratEnv sedZero qcTop (fun _ => 1) (fun _ => 1 / 100)
      (fun _ => 100) 1 500 0 130 1 8000000 (1 / 1000000000000) grid1).c_qc
      (1 + 1 * grid1.jj + k * grid1.kk) ≤ 1 := by
  intro k hk1 hk2
  rw [sed_c_stencil grid1_wellFormed _ _ _ _ _ _ _ _ _ _ _ _ _ grid1_inBox hk1 hk2]
  simp only [grid1] at hk1 hk2
  interval_cases k <;> norm_num [sed_velocity, ratEnv, qcTop, grid1]

/-- C2, at the upper cell `k = 2` of the column of `grid1`, with rain of `1e-3`
in that cell. -/
theorem sedimentation_nonneg_of_cfl_le_one_witness :
    0 ≤ qcTop (1 + 1 * grid1.jj + 2 * grid1.kk) + 1 *
      ((sedimentation_ss08 ratEnv sedZero qcTop (fun _ => 1) (fun _ => 1 / 100)
          (fun _ => 100) 1 500 0 130 1 8000000 (1 / 1000000000000) grid1).qct
        (1 + 1 * grid1.jj + 2 * grid1.kk) - sedZero.qct (1 + 1 * grid1.jj + 2 * grid1.kk)) :=
  sedimentation_nonneg_of_cfl_le_one ratEnv sedZero qcTop (fun _ => 1) (fun _ => 1 / 100)
    (fun _ => 100) 1 500 0 130 1 8000000 (1 / 1000000000000) grid1 grid1_wellFormed 1 1
    grid1_inBox (fun _ _ _ => one_pos) (fun _ _ _ => by norm_num) (fun _ _ _ => rfl) one_pos
    qcTop_nonneg grid1_cfl_le_one 2 (by decide) (by decide)

/-- C3. If `ql`, `qi`, `qr`, `qs` and `qg` are zero in every cell (ghost cells
included) and `dt != 0`, the kernels run by `exec` (`autoconversion`,
`accretion_and_phase_changes` and `sedimentation_ss08` for rain, snow and
graupel) leave the `qr`, `qs`, `qg`, `qt` and `thl` tendencies of every interior
cell as they were, and the three surface-flux buffers are zero at every visited
horizontal position. -/
theorem exec_zero_condensate (M : Env F) (this : Microphys_nsw6 F) (st : TendArrays F)
    (f : Fields F) (dz tmp1 tmp2 tmp3 tmp4 : Int → F) (dt : F) (g : Grid)
    (hg : g.WellFormed) (_hdt : dt ≠ 0)
    (hl : ∀ n, f.ql n = 0) (hi : ∀ n, f.qi n = 0) (hr : ∀ n, f.qr n = 0)
    (hs : ∀ n, f.qs n = 0) (hgr : ∀ n, f.qg n = 0) :
    (∀ i j k, g.inBox i j → g.kstart ≤ k → k < g.kend →
      (exec M this st f dz tmp1 tmp2 tmp3 tmp4 dt g).2.get (i + j * g.jj + k * g.kk)
        = st.get (i + j * g.jj + k * g.kk)) ∧
    (∀ i j, g.inBox i j →
      (exec M this st f dz tmp1 tmp2 tmp3 tmp4 dt g).1.rr_bot (i + j * g.jj) = 0 ∧
      (exec M this st f dz tmp1 tmp2 tmp3 tmp4 dt g).1.rs_bot (i + j * g.jj) = 0 ∧
      (exec M this st f dz tmp1 tmp2 tmp3 tmp4 dt g).1.rg_bot (i + j * g.jj) = 0) := by
  have hmin : (0 : F) ≤ 1e-12 := by norm_num
  unfold exec
  simp only [autoconversion_of_zero M st f this.N_d g hl hi hs,
    accretion_of_zero M st this.cfl f dt g hl hi hr hs hgr]
  constructor
  · intro i j k hb hk1 hk2
    simp only [TendArrays.get]
    rw [(sed_of_zero hg M _ f.qr f.rho f.dzi dz dt _ _ _ _ _ qr_min hr hmin hb).2 k hk1 hk2,
      (sed_of_zero hg M _ f.qs f.rho f.dzi dz dt _ _ _ _ _ qs_min hs hmin hb).2 k hk1 hk2,
      (sed_of_zero hg M _ f.qg f.rho f.dzi dz dt _ _ _ _ _ qg_min hgr hmin hb).2 k hk1 hk2]
  · intro i j hb
    exact ⟨(sed_of_zero hg M _ f.qr f.rho f.dzi dz dt _ _ _ _ _ qr_min hr hmin hb).1,
      (sed_of_zero hg M _ f.qs f.rho f.dzi dz dt _ _ _ _ _ qs_min hs hmin hb).1,
      (sed_of_zero hg M _ f.qg f.rho f.dzi dz dt _ _ _ _ _ qg_min hgr hmin hb).1⟩

/-- C3, at the cell `(1, 1, 1)` of `grid1` with fields without condensate. -/
theorem exec_zero_condensate_witness :
    (exec ratEnv nsw6A tendOnes fieldsZero (fun _ => 100) (fun _ => 7) (fun _ => 7)
        (fun _ => 7) (fun _ => 7) 1 grid1).2.get (1 + 1 * grid1.jj + 1 * grid1.kk)
      = tendOnes.get (1 + 1 * grid1.jj + 1 * grid1.kk) ∧
    (exec ratEnv nsw6A tendOnes fieldsZero (fun _ => 100) (fun _ => 7) (fun _ => 7)
        (fun _ => 7) (fun _ => 7) 1 grid1).1.rr_bot (1 + 1 * grid1.jj) = 0 ∧
    (exec ratEnv nsw6A tendOnes fieldsZero (fun _ => 100) (fun _ => 7) (fun _ => 7)
        (fun _ => 7) (fun _ => 7) 1 grid1).1.rs_bot (1 + 1 * grid1.jj) = 0 ∧
    (exec ratEnv nsw6A tendOnes fieldsZero (fun _ => 100) (fun _ => 7) (fun _ => 7)
        (fun _ => 7) (fun _ => 7) 1 grid1).1.rg_bot (1 + 1 * grid1.jj) = 0 :=
  ⟨(exec_zero_condensate ratEnv nsw6A tendOnes fieldsZero (fun _ => 100) (fun _ => 7)
      (fun _ => 7) (fun _ => 7) (fun _ => 7) 1 grid1 grid1_wellFormed one_ne_zero
      (fun _ => rfl) (fun _ => rfl) (fun _ => rfl) (fun _ => rfl) (fun _ => rfl)).1
      1 1 1 grid1_inBox (by decide) (by decide),
    (exec_zero_condensate ratEnv nsw6A tendOnes fieldsZero (fun _ => 100) (fun _ => 7)
      (fun _ => 7) (fun _ => 7) (fun _ => 7) 1 grid1 grid1_wellFormed one_ne_zero
      (fun _ => rfl) (fun _ => rfl) (fun _ => rfl) (fun _ => rfl) (fun _ => rfl)).2
      1 1 grid1_inBox⟩

end SedimentationClaims


/-! ## Process rates -/

section RateClaims

variable {F : Type} [LinearOrderedField F]

omit [LinearOrderedField F] in
theorem TendArrays.get_set (t : TendArrays F) (n x : Int) (v : Tend F) :
    (t.set n v).get x = if x = n then v else t.get x := by
  by_cases h : x = n
  · subst h
    simp [TendArrays.set, TendArrays.get]
  · simp [TendArrays.set, TendArrays.get, Function.update_noteq h, h]

omit [LinearOrderedField F] in
/-- A loop nest over the interior cells that replaces the five tendencies of
each cell by a function `u i j k` of their old values. -/
theorem loop3_tend {g : Grid} (hg : g.WellFormed) (u : Int → Int → Int → Tend F → Tend F)
    (t : TendArrays F) :
    (∀ i j k, g.inBox i j → g.kstart ≤ k → k < g.kend →
      (loop3 g (fun i j k (t : TendArrays F) => t.set (i + j * g.jj + k * g.kk)
        (u i j k (t.get (i + j * g.jj + k * g.kk)))) t).get (i + j * g.jj + k * g.kk)
        = u i j k (t.get (i + j * g.jj + k * g.kk))) ∧
    (∀ x, (∀ i j k, g.inBox i j → g.kstart ≤ k → k < g.kend → x ≠ i + j * g.jj + k * g.kk) →
      (loop3 g (fun i j k (t : TendArrays F) => t.set (i + j * g.jj + k * g.kk)
        (u i j k (t.get (i + j * g.jj + k * g.kk)))) t).get x = t.get x) := by
  rw [loop3_eq_foldl]
  obtain ⟨h1, h2⟩ := foldl_local_write (fun (s : TendArrays F) => s.get)
    (fun (c : Int × Int × Int) => c.1 + c.2.1 * g.jj + c.2.2 * g.kk)
    (fun c (a : TendArrays F) => a.set (c.1 + c.2.1 * g.jj + c.2.2 * g.kk)
      (u c.1 c.2.1 c.2.2 (a.get (c.1 + c.2.1 * g.jj + c.2.2 * g.kk))))
    (fun c a => u c.1 c.2.1 c.2.2 (a.get (c.1 + c.2.1 * g.jj + c.2.2 * g.kk))) Set.univ
    (fun c s x => TendArrays.get_set _ _ _ _)
    (cells3 g) (fun c _ s s' e _ => by simp only [e])
    (fun _ _ => Set.mem_univ _) hg.nodup_ijk t
  constructor
  · intro i j k hb hk1 hk2
    exact h1 (i, j, k) (mem_cells3.2 ⟨hb, hk1, hk2⟩)
  · intro x hx
    apply h2
    simp only [List.mem_map, not_exists, not_and]
    intro c hc heq
    obtain ⟨hb, hk1, hk2⟩ := mem_cells3.1 hc
    exact hx _ _ _ hb hk1 hk2 heq.symm

/-- The kernel `autoconversion` applies the cell body to the tendencies of
every interior cell. -/
theorem autoconversion_get {g : Grid} (hg : g.WellFormed) (M : Env F) (t : TendArrays F)
    (f : Fields F) (N_d : F) {i j k : Int} (hb : g.inBox i j) (hk1 : g.kstart ≤ k)
    (hk2 : k < g.kend) :
    (autoconversion M t f N_d g).get (i + j * g.jj + k * g.kk)
      = autoconversion_cell M N_d (f.cell g i j k) (t.get (i + j * g.jj + k * g.kk)) :=
  (loop3_tend hg (fun i j k v => autoconversion_cell M N_d (f.cell g i j k) v) t).1
    i j k hb hk1 hk2

theorem autoconversion_cell_qrt (M : Env F) (N_d : F) (c : Cell F) (t : Tend F) :
    (autoconversion_cell M N_d c t).qrt - t.qrt = if c.has_liq then P_raut M N_d c else 0 := by
  unfold autoconversion_cell auto_snow_to_graupel auto_ice_to_snow auto_cloud_to_rain
  by_cases h1 : c.has_liq <;> by_cases h2 : c.has_ice <;> by_cases h3 : c.has_snow <;>
    simp [h1, h2, h3]

theorem P_raut_nonneg (M : Env F) (N_d : F) (c : Cell F) (hpow2 : ∀ z, M.pow2 z = z * z)
    (hrho : 0 < c.rho) (hN : 0 ≤ N_d) (hD : 0 < D_d M N_d) (hq : 0 < c.ql) :
    0 ≤ P_raut M N_d c := by
  unfold P_raut
  rw [hpow2]
  have h1 : 0 < D_d M N_d * c.rho * c.ql := mul_pos (mul_pos hD hrho) hq
  have h2 : (0 : F) ≤ 3.6e-5 * N_d / (D_d M N_d * c.rho * c.ql) :=
    div_nonneg (mul_nonneg (by norm_num) hN) h1.le
  have h3 : (0 : F) ≤ 16.7 / c.rho := div_nonneg (by norm_num) hrho.le
  exact div_nonneg (mul_nonneg h3 (mul_self_nonneg _)) (by linarith)

theorem P_raut_mono (M : Env F) (N_d : F) (c : Cell F) (x y : F)
    (hpow2 : ∀ z, M.pow2 z = z * z) (hrho : 0 < c.rho) (hN : 0 ≤ N_d) (hD : 0 < D_d M N_d)
    (hx : 0 < x) (hxy : x ≤ y) :
    P_raut M N_d { c with ql := x } ≤ P_raut M N_d { c with ql := y } := by
  unfold P_raut
  simp only [hpow2]
  have hy : 0 < y := lt_of_lt_of_le hx hxy
  have hDr : 0 < D_d M N_d * c.rho := mul_pos hD hrho
  have d1 : 0 < D_d M N_d * c.rho * x := mul_pos hDr hx
  have d2 : 0 < D_d M N_d * c.rho * y := mul_pos hDr hy
  have hk : (0 : F) ≤ 3.6e-5 * N_d := mul_nonneg (by norm_num) hN
  have hden : (3.6e-5 : F) * N_d / (D_d M N_d * c.rho * y)
      ≤ 3.6e-5 * N_d / (D_d M N_d * c.rho * x) :=
    div_le_div_of_nonneg_left hk d1 (mul_le_mul_of_nonneg_left hxy hDr.le)
  have hpos : (0 : F) < 5 + 3.6e-5 * N_d / (D_d M N_d * c.rho * y) := by
    have := div_nonneg hk d2.le
    linarith
  have h3 : (0 : F) ≤ 16.7 / c.rho := div_nonneg (by norm_num) hrho.le
  have hrx : 0 ≤ c.rho * x := (mul_pos hrho hx).le
  have hrxy : c.rho * x ≤ c.rho * y := mul_le_mul_of_nonneg_left hxy hrho.le
  have hnum : 16.7 / c.rho * (c.rho * x * (c.rho * x))
      ≤ 16.7 / c.rho * (c.rho * y * (c.rho * y)) :=
    mul_le_mul_of_nonneg_left (mul_le_mul hrxy hrxy hrx (le_trans hrx hrxy)) h3
  exact div_le_div (mul_nonneg h3 (mul_self_nonneg _)) hnum hpos (by linarith)

/-- C9. For fixed `rho[k] > 0` and a droplet number `N_d >= 0` with `D_d > 0`,
the amount that the cell body of `autoconversion` adds to the rain tendency is
a non-decreasing function of `ql` on `ql >= 0`, and it is zero at `ql = 0`
(`pow2` is the square). -/
theorem autoconversion_rain_monotone (M : Env F) (N_d : F) (c : Cell F) (t : Tend F) (x y : F)
    (hpow2 : ∀ z, M.pow2 z = z * z) (hrho : 0 < c.rho) (hN : 0 ≤ N_d) (hD : 0 < D_d M N_d)
    (_hx : 0 ≤ x) (hxy : x ≤ y) :
    (autoconversion_cell M N_d { c with ql := x } t).qrt - t.qrt
      ≤ (autoconversion_cell M N_d { c with ql := y } t).qrt - t.qrt ∧
    (autoconversion_cell M N_d { c with ql := 0 } t).qrt - t.qrt = 0 := by
  have hmin : (0 : F) < 1e-7 := by norm_num
  simp only [autoconversion_cell_qrt, Cell.has_liq, ql_min]
  constructor
  · by_cases h1 : x > 1e-7
    · have h2 : y > 1e-7 := lt_of_lt_of_le h1 hxy
      rw [if_pos h1, if_pos h2]
      exact P_raut_mono M N_d c x y hpow2 hrho hN hD (lt_trans hmin h1) hxy
    · rw [if_neg h1]
      by_cases h2 : y > 1e-7
      · rw [if_pos h2]
        exact P_raut_nonneg M N_d _ hpow2 hrho hN hD (lt_trans hmin h2)
      · rw [if_neg h2]
  · rw [if_neg]
    exact not_lt.2 hmin.le

/-- C10 fails on the code. In a cell with rain the block "rain to snow" moves
the mass rate `P_sacr_s*T_neg + P_iacr_s` from `qr` to `qs`, but the amount it
adds to `thlt` is `Lf/(cp*exner[k])` times the mass rate of the block "rain to
graupel", `P_gacr + P_iacr_g + P_sacr_g*T_neg + P_gfrz*T_neg`; whenever the two
rates differ the latent-heat term is not that of the block's own mass rate. -/
theorem rain_to_snow_thl_mismatch (M : Env F) (c : Cell F) (t : Tend F)
    (hrain : c.has_rain) (hcoef : M.Lf / (M.cp * c.exner) ≠ 0)
    (hrate : P_gacr M c + P_iacr_g M c + P_sacr_g M c * T_neg M c + P_gfrz M c * T_neg M c
      ≠ P_sacr_s M c * T_neg M c + P_iacr_s M c) :
    t.qrt - (rain_to_snow M c t).qrt = P_sacr_s M c * T_neg M c + P_iacr_s M c ∧
    (rain_to_snow M c t).qst - t.qst = P_sacr_s M c * T_neg M c + P_iacr_s M c ∧
    (rain_to_snow M c t).thlt - t.thlt
      = (rain_to_graupel M c t).thlt - t.thlt ∧
    (rain_to_snow M c t).thlt - t.thlt
      ≠ M.Lf / (M.cp * c.exner) * (P_sacr_s M c * T_neg M c + P_iacr_s M c) := by
  unfold rain_to_snow rain_to_graupel
  simp only [if_pos hrain, sub_sub_cancel, add_sub_cancel_left]
  refine ⟨trivial, trivial, trivial, ?_⟩
  intro h
  exact hrate (mul_left_cancel₀ hcoef h)

/-- C9, for the cold cell at unit density and `N_d = 50e6`, between `ql = 1e-4`
and `ql = 2e-4`. -/
theorem autoconversion_rain_monotone_witness :
    (autoconversion_cell ratEnv 50000000 { cellCold with ql := 1 / 10000 } tendZero).qrt
        - tendZero.qrt
      ≤ (autoconversion_cell ratEnv 50000000 { cellCold with ql := 2 / 10000 } tendZero).qrt
        - tendZero.qrt ∧
    (autoconversion_cell ratEnv 50000000 { cellCold with ql := 0 } tendZero).qrt
      - tendZero.qrt = 0 :=
  autoconversion_rain_monotone ratEnv 50000000 cellCold tendZero (1 / 10000) (2 / 10000)
    (fun _ => rfl) (by norm_num [cellCold]) (by norm_num) (by norm_num [D_d, ratEnv])
    (by norm_num) (by norm_num)

set_option maxHeartbeats 1000000 in
/-- C10, the divergence in the cold cell: there `qr >= 1e-4`, so the block moves
no mass from rain to snow, and the code still adds the latent heat of the rain
to graupel rate to `thlt`. -/
theorem rain_to_snow_thl_mismatch_witness :
    tendZero.qrt - (rain_to_snow ratEnv cellCold tendZero).qrt
      = P_sacr_s ratEnv cellCold * T_neg ratEnv cellCold + P_iacr_s ratEnv cellCold ∧
    (rain_to_snow ratEnv cellCold tendZero).qst - tendZero.qst
      = P_sacr_s ratEnv cellCold * T_neg ratEnv cellCold + P_iacr_s ratEnv cellCold ∧
    (rain_to_snow ratEnv cellCold tendZero).thlt - tendZero.thlt
      = (rain_to_graupel ratEnv cellCold tendZero).thlt - tendZero.thlt ∧
    (rain_to_snow ratEnv cellCold tendZero).thlt - tendZero.thlt
      ≠ ratEnv.Lf / (ratEnv.cp * cellCold.exner)
        * (P_sacr_s ratEnv cellCold * T_neg ratEnv cellCold + P_iacr_s ratEnv cellCold) :=
  rain_to_snow_thl_mismatch ratEnv cellCold tendZero
    (by norm_num [Cell.has_rain, cellCold, qr_min])
    (by norm_num [ratEnv, cellCold])
    (by
      norm_num [P_gacr, P_iacr_g, P_sacr_g, T_neg, T_pos, P_gfrz, P_sacr_s, P_iacr_s, P_iacr,
        P_sacr, delta_1, delta_2, ratEnv, cellCold, Cell.T, lambda_r, lambda_s, lambda_g, V_Tr,
        V_Ts, V_Tg, rho0_rho_sqrt, fac_iacr, pi, pi_2, a_r, a_s, a_g, b_r, b_s, b_g, c_r, c_s,
        c_g, d_r, d_s, d_g, N_0r, N_0s, N_0g, rho_w, rho_s, rho_g, E_ri, E_sr, E_gr, M_i,
        A_prime, B_prime, abs_of_pos, abs_of_neg])

end RateClaims

/-! ## Masks -/

/-- C8. For every mask name, `get_mask` fails with a `runtime_error` whose
message is `NSW6 microphysics scheme can not provide mask: "<name>"`, with the
requested name between the quotes, and never returns normally; `has_mask`
returns false for every name. -/
theorem get_mask_throws {Stats : Type} (stats : Stats) (name : String) :
    get_mask stats name
      = Except.error ("NSW6 microphysics scheme can not provide mask: \"" ++ name ++ "\"") ∧
    (∀ r : Stats, get_mask stats name ≠ Except.ok r) ∧
    has_mask name = false := by
  refine ⟨rfl, ?_, rfl⟩
  intro r h
  cases h

/-! ## The reported Courant number -/

section CflClaims

variable {F : Type} [LinearOrderedField F]

theorem cfl_step_spec (b : Prop) [Decidable b] (v x : F) :
    x ≤ (if b then max v x else x) ∧ (b → v ≤ (if b then max v x else x)) ∧
    ((if b then max v x else x) = x ∨ (b ∧ (if b then max v x else x) = v)) := by
  by_cases h : b
  · simp only [h, if_true, true_and, forall_const]
    refine ⟨le_max_right _ _, le_max_left _ _, ?_⟩
    rcases max_choice v x with e | e
    · exact Or.inr e
    · exact Or.inl e
  · simp only [h, if_false, false_and, or_false]
    exact ⟨le_rfl, fun hb => absurd hb (not_false), trivial⟩

theorem cfl_cell_spec (M : Env F) (dt : F) (c : Cell F) (x : F) :
    x ≤ cfl_cell M dt c x ∧ (∀ v, IsCflTerm M dt c v → v ≤ cfl_cell M dt c x) ∧
    (cfl_cell M dt c x = x ∨ IsCflTerm M dt c (cfl_cell M dt c x)) := by
  unfold cfl_cell IsCflTerm
  simp only []
  obtain ⟨a1, a2, a3⟩ := cfl_step_spec c.has_rain (V_Tr M c * dt * c.dzi) x
  generalize (if c.has_rain then max (V_Tr M c * dt * c.dzi) x else x) = s1 at a1 a2 a3 ⊢
  obtain ⟨b1, b2, b3⟩ := cfl_step_spec c.has_snow (V_Ts M c * dt * c.dzi) s1
  generalize (if c.has_snow then max (V_Ts M c * dt * c.dzi) s1 else s1) = s2 at b1 b2 b3 ⊢
  obtain ⟨c1, c2, c3⟩ := cfl_step_spec c.has_graupel (V_Tg M c * dt * c.dzi) s2
  generalize (if c.has_graupel then max (V_Tg M c * dt * c.dzi) s2 else s2) = s3
    at c1 c2 c3 ⊢
  refine ⟨le_trans a1 (le_trans b1 c1), ?_, ?_⟩
  · rintro v (⟨h, rfl⟩ | ⟨h, rfl⟩ | ⟨h, rfl⟩)
    · exact le_trans (a2 h) (le_trans b1 c1)
    · exact le_trans (b2 h) c1
    · exact c2 h
  · rcases c3 with e3 | ⟨h3, e3⟩
    · rcases b3 with e2 | ⟨h2, e2⟩
      · rcases a3 with e1 | ⟨h1, e1⟩
        · exact Or.inl (by rw [e3, e2, e1])
        · exact Or.inr (Or.inl ⟨h1, by rw [e3, e2, e1]⟩)
      · exact Or.inr (Or.inr (Or.inl ⟨h2, by rw [e3, e2]⟩))
    · exact Or.inr (Or.inr (Or.inr ⟨h3, e3⟩))

/-- The running maximum over a sequence of cells, from the start value `x`. -/
theorem cfl_fold_spec (M : Env F) (dt : F) (cell : Int × Int × Int → Cell F)
    (L : List (Int × Int × Int)) (x : F) :
    x ≤ L.foldl (fun cfl c => cfl_cell M dt (cell c) cfl) x ∧
    (∀ c ∈ L, ∀ v, IsCflTerm M dt (cell c) v →
      v ≤ L.foldl (fun cfl c => cfl_cell M dt (cell c) cfl) x) ∧
    (L.foldl (fun cfl c => cfl_cell M dt (cell c) cfl) x = x ∨
      ∃ c ∈ L, IsCflTerm M dt (cell c) (L.foldl (fun cfl c => cfl_cell M dt (cell c) cfl) x)) := by
  induction L generalizing x with
  | nil => simp
  | cons a L ih =>
    obtain ⟨s1, s2, s3⟩ := cfl_cell_spec M dt (cell a) x
    obtain ⟨i1, i2, i3⟩ := ih (cfl_cell M dt (cell a) x)
    simp only [List.foldl_cons]
    refine ⟨le_trans s1 i1, ?_, ?_⟩
    · intro c hc v hv
      rcases List.mem_cons.1 hc with rfl | hc
      · exact le_trans (s2 v hv) i1
      · exact i2 c hc v hv
    · rcases i3 with h | ⟨c, hc, h⟩
      · rcases s3 with h' | h'
        · left
          rw [h, h']
        · right
          exact ⟨a, List.mem_cons_self _ _, by rw [h]; exact h'⟩
      · right
        exact ⟨c, List.mem_cons_of_mem _ hc, h⟩

theorem foldl_snd {ι α β : Type} (fa : ι → α → α) (fb : ι → β → β) (L : List ι) (s : α × β) :
    (L.foldl (fun s c => (fa c s.1, fb c s.2)) s).2 = L.foldl (fun b c => fb c b) s.2 := by
  induction L generalizing s with
  | nil => rfl
  | cons a L ih => simp only [List.foldl_cons, ih]

theorem accretion_cfl_eq_foldl (M : Env F) (t : TendArrays F) (cfl_out : F) (f : Fields F)
    (dt : F) (g : Grid) :
    (accretion_and_phase_changes M t cfl_out f dt g).2
      = (cells3 g).foldl (fun cfl c => cfl_cell M dt (f.cell g c.1 c.2.1 c.2.2) cfl) 0 := by
  unfold accretion_and_phase_changes
  simp only []
  rw [loop3_eq_foldl]
  exact foldl_snd (fun (c : Int × Int × Int) (t : TendArrays F) =>
      t.set (c.1 + c.2.1 * g.jj + c.2.2 * g.kk)
        (accretion_cell M (f.cell g c.1 c.2.1 c.2.2) (t.get (c.1 + c.2.1 * g.jj + c.2.2 * g.kk))))
    (fun c cfl => cfl_cell M dt (f.cell g c.1 c.2.1 c.2.2) cfl) (cells3 g) (t, 0)

/-- C7. After `accretion_and_phase_changes` the value of `cfl` is the maximum of
0 and of `V_T*dt*dzi[k]` over the interior cells and the species rain, snow and
graupel whose mixing ratio exceeds its threshold in the cell: it is
non-negative, it bounds every such term, and it is 0 or one of the terms.  It
does not depend on the value `cfl` held before the call, and it is the value
that `exec` stores in the object. -/
theorem accretion_cfl_is_max (M : Env F) (t : TendArrays F) (cfl_out : F) (f : Fields F)
    (dt : F) (g : Grid) :
    0 ≤ (accretion_and_phase_changes M t cfl_out f dt g).2 ∧
    (∀ i j k, g.inBox i j → g.kstart ≤ k → k < g.kend →
      ∀ v, IsCflTerm M dt (f.cell g i j k) v →
        v ≤ (accretion_and_phase_changes M t cfl_out f dt g).2) ∧
    ((accretion_and_phase_changes M t cfl_out f dt g).2 = 0 ∨
      ∃ i j k, g.inBox i j ∧ g.kstart ≤ k ∧ k < g.kend ∧
        IsCflTerm M dt (f.cell g i j k) (accretion_and_phase_changes M t cfl_out f dt g).2) ∧
    (∀ cfl_before : F, (accretion_and_phase_changes M t cfl_before f dt g).2
      = (accretion_and_phase_changes M t cfl_out f dt g).2) ∧
    (∀ (this : Microphys_nsw6 F) (st : TendArrays F) (dz tmp1 tmp2 tmp3 tmp4 : Int → F),
      (exec M this st f dz tmp1 tmp2 tmp3 tmp4 dt g).1.cfl
        = (accretion_and_phase_changes M (autoconversion M st f this.N_d g) 0 f dt g).2) := by
  obtain ⟨h1, h2, h3⟩ := cfl_fold_spec M dt (fun c => f.cell g c.1 c.2.1 c.2.2) (cells3 g) 0
  rw [accretion_cfl_eq_foldl]
  refine ⟨h1, ?_, ?_, ?_, ?_⟩
  · intro i j k hb hk1 hk2 v hv
    exact h2 (i, j, k) (mem_cells3.2 ⟨hb, hk1, hk2⟩) v hv
  · rcases h3 with h | ⟨c, hc, h⟩
    · exact Or.inl h
    · obtain ⟨hb, hk1, hk2⟩ := mem_cells3.1 hc
      exact Or.inr ⟨c.1, c.2.1, c.2.2, hb, hk1, hk2, h⟩
  · intro cfl_before
    rw [accretion_cfl_eq_foldl]
  · intro this st dz tmp1 tmp2 tmp3 tmp4
    rfl

end CflClaims

/-! ## Stability controller -/

section StabilityClaims

variable {F : Type} [LinearOrderedField F] [FloorRing F]

theorem to_unsigned_long_of_mem (x : F) (h1 : -1 < x) (h2 : x < 2 ^ 64) :
    to_unsigned_long x = some ⌊x⌋₊ := by
  unfold to_unsigned_long
  rw [if_pos ⟨h1, h2⟩]

theorem get_time_limit_ret (this : Microphys_nsw6 F) (idt : Nat) (dt : F) :
    (get_time_limit this idt dt).2.2
      = to_unsigned_long ((idt : F) * this.cfl_max / max this.cfl 1e-5) := rfl

/-- In exact arithmetic: when the observed `cfl` equals the configured
`cfl_max` (with `cfl_max >= 1e-5`), the quotient `idt * cfl_max / cfl` is `idt`
and `get_time_limit` returns `idt`.  The `double` operations of the source
round the product and the quotient; see `get_time_limit_double`. -/
theorem get_time_limit_eq_of_cfl_eq (this : Microphys_nsw6 F) (idt : Nat) (dt : F)
    (hcfl : this.cfl = this.cfl_max) (hmax : 1e-5 ≤ this.cfl_max) (hidt : idt < 2 ^ 64) :
    (get_time_limit this idt dt).2.2 = some idt := by
  have hpos : (0 : F) < this.cfl_max := lt_of_lt_of_le (by norm_num) hmax
  have hv : (idt : F) * this.cfl_max / max this.cfl 1e-5 = (idt : F) := by
    rw [hcfl, max_eq_left hmax, mul_div_assoc, div_self hpos.ne', mul_one]
  rw [get_time_limit_ret, hv, to_unsigned_long_of_mem]
  · rw [Nat.floor_natCast]
  · exact lt_of_lt_of_le (by norm_num) (Nat.cast_nonneg idt)
  · exact_mod_cast hidt

/-- The exact quotient for `cfl = cfl_max = 2` and `idt = 1000`. -/
theorem get_time_limit_eq_of_cfl_eq_witness : (get_time_limit nsw6C 1000 1).2.2 = some 1000 :=
  get_time_limit_eq_of_cfl_eq nsw6C 1000 1 rfl (by norm_num [nsw6C]) (by norm_num)

end StabilityClaims

/-! ## The flux sweep -/

section SweepLemmas

variable {F : Type} [LinearOrderedField F]

theorem flux_sweep_step (qc slope_qc c_qc rho dzi dz : Int → F) (g : Grid) (i j kc : Int)
    (ftot dzz cc : F) (h1 : 0 < cc) (h2 : kc < g.kend) :
    flux_sweep qc slope_qc c_qc rho dzi dz g i j kc ftot dzz cc
      = flux_sweep qc slope_qc c_qc rho dzi dz g i j (kc + 1)
          (ftot + rho kc * (qc (i + j * g.jj + kc * g.kk)
            + 0.5 * slope_qc (i + j * g.jj + kc * g.kk) * (1 - cc)) * cc * dz kc)
          (dzz + dz kc)
          (min 1 (c_qc (i + j * g.jj + kc * g.kk) - (dzz + dz kc) * dzi (kc + 1))) := by
  rw [flux_sweep, if_pos ⟨h1, h2⟩]

theorem flux_sweep_of_top (qc slope_qc c_qc rho dzi dz : Int → F) (g : Grid) (i j kc : Int)
    (ftot dzz cc : F) (h : g.kend ≤ kc) :
    flux_sweep qc slope_qc c_qc rho dzi dz g i j kc ftot dzz cc = ftot := by
  rw [flux_sweep, if_neg]
  rintro ⟨_, h2⟩
  omega

/-- Invariant rule for the accumulation loop: a property of `ftot` that every
contribution of a level `kc >= k0` with `0 < cc <= 1` preserves holds at exit. -/
theorem flux_sweep_inv (P : F → Prop) (qc slope_qc c_qc rho dzi dz : Int → F) (g : Grid)
    (i j k0 : Int)
    (hstep : ∀ kc, k0 ≤ kc → kc < g.kend → ∀ cc x : F, 0 < cc → cc ≤ 1 → P x →
      P (x + rho kc * (qc (i + j * g.jj + kc * g.kk)
        + 0.5 * slope_qc (i + j * g.jj + kc * g.kk) * (1 - cc)) * cc * dz kc))
    (kc : Int) (ftot dzz cc : F) (hk : k0 ≤ kc) (hcc : cc ≤ 1) (h0 : P ftot) :
    P (flux_sweep qc slope_qc c_qc rho dzi dz g i j kc ftot dzz cc) := by
  obtain ⟨n, hn⟩ : ∃ n : Nat, n = (g.kend - kc).toNat := ⟨_, rfl⟩
  induction n generalizing kc ftot dzz cc with
  | zero =>
    rw [flux_sweep_of_top _ _ _ _ _ _ _ _ _ _ _ _ _ (by omega)]
    exact h0
  | succ n ih =>
    by_cases h1 : 0 < cc
    · rw [flux_sweep_step _ _ _ _ _ _ _ _ _ _ _ _ _ h1 (by omega)]
      exact ih (kc + 1) _ _ _ (by omega) (min_le_left _ _)
        (hstep kc hk (by omega) cc ftot h1 hcc h0) (by omega)
    · rw [flux_sweep_of_nonpos _ _ _ _ _ _ _ _ _ _ _ _ _ (not_lt.1 h1)]
      exact h0

/-- The accumulation loop reads `slope_qc` and `c_qc` only at the levels
`kc, ..., kend-1` of its own column. -/
theorem flux_sweep_congr (qc slope_qc c_qc slope_qc' c_qc' rho dzi dz : Int → F) (g : Grid)
    (i j : Int) (kc : Int) (ftot dzz cc : F)
    (hs : ∀ k, kc ≤ k → k < g.kend →
      slope_qc (i + j * g.jj + k * g.kk) = slope_qc' (i + j * g.jj + k * g.kk))
    (hc : ∀ k, kc ≤ k → k < g.kend →
      c_qc (i + j * g.jj + k * g.kk) = c_qc' (i + j * g.jj + k * g.kk)) :
    flux_sweep qc slope_qc c_qc rho dzi dz g i j kc ftot dzz cc
      = flux_sweep qc slope_qc' c_qc' rho dzi dz g i j kc ftot dzz cc := by
  obtain ⟨n, hn⟩ : ∃ n : Nat, n = (g.kend - kc).toNat := ⟨_, rfl⟩
  induction n generalizing kc ftot dzz cc with
  | zero =>
    rw [flux_sweep_of_top _ _ _ _ _ _ _ _ _ _ _ _ _ (by omega),
      flux_sweep_of_top _ _ _ _ _ _ _ _ _ _ _ _ _ (by omega)]
  | succ n ih =>
    by_cases h1 : 0 < cc
    · have h2 : kc < g.kend := by omega
      rw [flux_sweep_step _ _ _ _ _ _ _ _ _ _ _ _ _ h1 h2,
        flux_sweep_step _ _ _ _ _ _ _ _ _ _ _ _ _ h1 h2, hs kc le_rfl h2, hc kc le_rfl h2]
      exact ih (kc + 1) _ _ _ (fun k h3 h4 => hs k (by omega) h4)
        (fun k h3 h4 => hc k (by omega) h4) (by omega)
    · rw [flux_sweep_of_nonpos _ _ _ _ _ _ _ _ _ _ _ _ _ (not_lt.1 h1),
        flux_sweep_of_nonpos _ _ _ _ _ _ _ _ _ _ _ _ _ (not_lt.1 h1)]

/-- The cumulative flux when the loop stops after the donor cell:
`0 < c_qc[ijk] <= 1` and the remaining Courant number is used up. -/
theorem sed_ftot_single (qc slope_qc c_qc rho dzi dz : Int → F) (g : Grid) (i j k : Int)
    (hk : k < g.kend) (hc0 : 0 < c_qc (i + j * g.jj + k * g.kk))
    (hc1 : c_qc (i + j * g.jj + k * g.kk) ≤ 1)
    (hrest : c_qc (i + j * g.jj + k * g.kk) - dz k * dzi (k + 1) ≤ 0) :
    sed_ftot qc slope_qc c_qc rho dzi dz g i j k
      = rho k * (qc (i + j * g.jj + k * g.kk) + 0.5 * slope_qc (i + j * g.jj + k * g.kk)
          * (1 - c_qc (i + j * g.jj + k * g.kk))) * c_qc (i + j * g.jj + k * g.kk) * dz k := by
  unfold sed_ftot
  simp only []
  rw [min_eq_right hc1, flux_sweep_step _ _ _ _ _ _ _ _ _ _ _ _ _ hc0 hk,
    flux_sweep_of_nonpos]
  · rw [zero_add]
  · rw [zero_add]
    exact le_trans (min_le_right _ _) hrest

end SweepLemmas

/-! ## Sedimentation: the clip and the accumulated flux -/

section FluxClaims

variable {F : Type} [LinearOrderedField F]

/-- C19. The non-negativity clip alone bounds the outflow: with `rho`, `dz`,
`dt > 0`, `dzi = 1/dz` and `q >= 0`, for every Courant number, the mass that
leaves cell `k` through its lower interface in one step, `-flux[k]*dt`, is at
most `rho[k]*dz[k]*q[k]` plus the mass entering from above, `-flux[k+1]*dt`,
and `q[k] + dt*dqct[k] >= 0`. -/
theorem sedimentation_clip_bounds_outflow (M : Env F) (s : SedArrays F)
    (qc rho dzi dz : Int → F) (dt a_c b_c c_c d_c N_0c qc_min : F) (g : Grid)
    (hg : g.WellFormed) (i j k : Int) (hb : g.inBox i j) (hk1 : g.kstart ≤ k)
    (hk2 : k < g.kend) (hrho : 0 < rho k) (hdz : 0 < dz k) (hdzi : dzi k = 1 / dz k)
    (hdt : 0 < dt) (_hq : 0 ≤ qc (i + j * g.jj + k * g.kk)) :
    -(sedimentation_ss08 M s qc rho dzi dz dt a_c b_c c_c d_c N_0c qc_min g).flux_qc
        (i + j * g.jj + k * g.kk) * dt
      ≤ rho k * dz k * qc (i + j * g.jj + k * g.kk)
        + -(sedimentation_ss08 M s qc rho dzi dz dt a_c b_c c_c d_c N_0c qc_min g).flux_qc
            (i + j * g.jj + k * g.kk + g.kk) * dt ∧
    0 ≤ qc (i + j * g.jj + k * g.kk) + dt *
      ((sedimentation_ss08 M s qc rho dzi dz dt a_c b_c c_c d_c N_0c qc_min g).qct
        (i + j * g.jj + k * g.kk) - s.qct (i + j * g.jj + k * g.kk)) := by
  refine ⟨?_, sed_updated_nonneg M s qc rho dzi dz dt a_c b_c c_c d_c N_0c qc_min g hg i j k
    hb hk1 hk2 hrho hdz hdzi hdt⟩
  rw [sed_flux_interior hg M s qc rho dzi dz dt a_c b_c c_c d_c N_0c qc_min hb hk1 hk2]
  unfold sed_flux
  simp only []
  generalize sed_ftot qc _ _ rho dzi dz g i j k = ft
  generalize (sedimentation_ss08 M s qc rho dzi dz dt a_c b_c c_c d_c N_0c qc_min g).flux_qc
    (i + j * g.jj + k * g.kk + g.kk) = fa
  have hm : min ft (rho k * dz k * qc (i + j * g.jj + k * g.kk) - fa * dt)
      ≤ rho k * dz k * qc (i + j * g.jj + k * g.kk) - fa * dt := min_le_right _ _
  have e : -(-min ft (rho k * dz k * qc (i + j * g.jj + k * g.kk) - fa * dt) / dt) * dt
      = min ft (rho k * dz k * qc (i + j * g.jj + k * g.kk) - fa * dt) := by
    field_simp
  rw [e]
  linarith

/-- C19, at the upper cell of the column of `grid1`. -/
theorem sedimentation_clip_bounds_outflow_witness :
    -(sedimentation_ss08 ratEnv sedZero qcTop (fun _ => 1) (fun _ => 1 / 100)
        (fun _ => 100) 1 500 0 130 1 8000000 (1 / 1000000000000) grid1).flux_qc
        (1 + 1 * grid1.jj + 2 * grid1.kk) * 1
      ≤ (1 : ℚ) * 100 * qcTop (1 + 1 * grid1.jj + 2 * grid1.kk)
        + -(sedimentation_ss08 ratEnv sedZero qcTop (fun _ => 1) (fun _ => 1 / 100)
            (fun _ => 100) 1 500 0 130 1 8000000 (1 / 1000000000000) grid1).flux_qc
            (1 + 1 * grid1.jj + 2 * grid1.kk + grid1.kk) * 1 ∧
    0 ≤ qcTop (1 + 1 * grid1.jj + 2 * grid1.kk) + 1 *
      ((sedimentation_ss08 ratEnv sedZero qcTop (fun _ => 1) (fun _ => 1 / 100)
          (fun _ => 100) 1 500 0 130 1 8000000 (1 / 1000000000000) grid1).qct
        (1 + 1 * grid1.jj + 2 * grid1.kk) - sedZero.qct (1 + 1 * grid1.jj + 2 * grid1.kk)) :=
  sedimentation_clip_bounds_outflow ratEnv sedZero qcTop (fun _ => 1) (fun _ => 1 / 100)
    (fun _ => 100) 1 500 0 130 1 8000000 (1 / 1000000000000) grid1 grid1_wellFormed 1 1 2
    grid1_inBox (by decide) (by decide) one_pos (by norm_num) rfl one_pos (qcTop_nonneg _)

/-- C20. On a uniformly spaced grid (`dz[k]*dzi[k+1] = 1`), if the Courant
number `c = c_qc[ijk]` of an interior cell satisfies `0 < c <= 1`, the cumulative
flux before the clip comes from the donor cell only and is
`rho[k]*(q[k] + 0.5*slope[k]*(1 - c))*c*dz[k]`; if `c <= 0` it is 0. -/
theorem sed_ftot_of_cfl_le_one (M : Env F) (s : SedArrays F) (qc rho dzi dz : Int → F)
    (dt a_c b_c c_c d_c N_0c qc_min : F) (g : Grid) (i j k : Int) (hk2 : k < g.kend)
    (huni : dz k * dzi (k + 1) = 1) :
    (0 < (sedimentation_ss08 M s qc rho dzi dz dt a_c b_c c_c d_c N_0c qc_min g).c_qc
        (i + j * g.jj + k * g.kk) →
      (sedimentation_ss08 M s qc rho dzi dz dt a_c b_c c_c d_c N_0c qc_min g).c_qc
        (i + j * g.jj + k * g.kk) ≤ 1 →
      sed_ftot qc
        (sedimentation_ss08 M s qc rho dzi dz dt a_c b_c c_c d_c N_0c qc_min g).slope_qc
        (sedimentation_ss08 M s qc rho dzi dz dt a_c b_c c_c d_c N_0c qc_min g).c_qc
        rho dzi dz g i j k
      = rho k * (qc (i + j * g.jj + k * g.kk) + 0.5 *
          (sedimentation_ss08 M s qc rho dzi dz dt a_c b_c c_c d_c N_0c qc_min g).slope_qc
            (i + j * g.jj + k * g.kk) *
          (1 - (sedimentation_ss08 M s qc rho dzi dz dt a_c b_c c_c d_c N_0c qc_min g).c_qc
            (i + j * g.jj + k * g.kk))) *
          (sedimentation_ss08 M s qc rho dzi dz dt a_c b_c c_c d_c N_0c qc_min g).c_qc
            (i + j * g.jj + k * g.kk) * dz k) ∧
    ((sedimentation_ss08 M s qc rho dzi dz dt a_c b_c c_c d_c N_0c qc_min g).c_qc
        (i + j * g.jj + k * g.kk) ≤ 0 →
      sed_ftot qc
        (sedimentation_ss08 M s qc rho dzi dz dt a_c b_c c_c d_c N_0c qc_min g).slope_qc
        (sedimentation_ss08 M s qc rho dzi dz dt a_c b_c c_c d_c N_0c qc_min g).c_qc
        rho dzi dz g i j k = 0) := by
  constructor
  · intro h0 h1
    exact sed_ftot_single qc _ _ rho dzi dz g i j k hk2 h0 h1 (by rw [huni]; linarith)
  · intro h0
    unfold sed_ftot
    simp only []
    exact flux_sweep_of_nonpos _ _ _ _ _ _ _ _ _ _ _ _ _ (le_trans (min_le_right _ _) h0)

theorem grid1_cfl_pos :
    0 < (sedimentation_ss08 ratEnv sedZero qcTop (fun _ => 1) (fun _ => 1 / 100)
      (fun _ => 100) 1 500 0 130 1 8000000 (1 / 1000000000000) grid1).c_qc
      (1 + 1 * grid1.jj + 2 * grid1.kk) := by
  rw [sed_c_stencil grid1_wellFormed _ _ _ _ _ _ _ _ _ _ _ _ _ grid1_inBox
    (by decide : grid1.kstart ≤ 2) (by decide : (2 : Int) < grid1.kend)]
  norm_num [sed_velocity, ratEnv, qcTop, grid1]

/-- C20, at the upper cell of the column of `grid1`, where `0 < c_qc <= 1`. -/
theorem sed_ftot_of_cfl_le_one_witness :
    sed_ftot qcTop
        (sedimentation_ss08 ratEnv sedZero qcTop (fun _ => 1) (fun _ => 1 / 100)
          (fun _ => 100) 1 500 0 130 1 8000000 (1 / 1000000000000) grid1).slope_qc
        (sedimentation_ss08 ratEnv sedZero qcTop (fun _ => 1) (fun _ => 1 / 100)
          (fun _ => 100) 1 500 0 130 1 8000000 (1 / 1000000000000) grid1).c_qc
        (fun _ => 1) (fun _ => 1 / 100) (fun _ => 100) grid1 1 1 2
      = 1 * (qcTop (1 + 1 * grid1.jj + 2 * grid1.kk) + 0.5 *
          (sedimentation_ss08 ratEnv sedZero qcTop (fun _ => 1) (fun _ => 1 / 100)
            (fun _ => 100) 1 500 0 130 1 8000000 (1 / 1000000000000) grid1).slope_qc
            (1 + 1 * grid1.jj + 2 * grid1.kk) *
          (1 - (sedimentation_ss08 ratEnv sedZero qcTop (fun _ => 1) (fun _ => 1 / 100)
            (fun _ => 100) 1 500 0 130 1 8000000 (1 / 1000000000000) grid1).c_qc
            (1 + 1 * grid1.jj + 2 * grid1.kk))) *
          (sedimentation_ss08 ratEnv sedZero qcTop (fun _ => 1) (fun _ => 1 / 100)
            (fun _ => 100) 1 500 0 130 1 8000000 (1 / 1000000000000) grid1).c_qc
            (1 + 1 * grid1.jj + 2 * grid1.kk) * 100 :=
  (sed_ftot_of_cfl_le_one ratEnv sedZero qcTop (fun _ => 1) (fun _ => 1 / 100)
    (fun _ => 100) 1 500 0 130 1 8000000 (1 / 1000000000000) grid1 1 1 2 (by decide)
    (by norm_num)).1 grid1_cfl_pos (grid1_cfl_le_one 2 (by decide) (by decide))

end FluxClaims

/-! ## Sedimentation: direction of the fluxes -/

section FluxSignLemmas

variable {F : Type} [LinearOrderedField F]

theorem int_down_induction (P : Int → Prop) (lo hi : Int) (htop : P hi)
    (hstep : ∀ k, lo ≤ k → k < hi → P (k + 1) → P k) : ∀ k, lo ≤ k → k ≤ hi → P k := by
  have h : ∀ n : Nat, lo ≤ hi - n → P (hi - n) := by
    intro n
    induction n with
    | zero =>
      intro _
      simpa using htop
    | succ n ih =>
      intro hn
      push_cast at hn ⊢
      apply hstep _ (by omega) (by omega)
      have e : hi - ((n : Int) + 1) + 1 = hi - (n : Int) := by ring
      rw [e]
      exact ih (by omega)
  intro k hk1 hk2
  have := h (hi - k).toNat (by omega)
  have e : hi - ((hi - k).toNat : Int) = k := by omega
  rwa [e] at this

theorem minmod_std_zero_right (a : F) : minmod_std a 0 = 0 := by
  unfold minmod_std
  simp

theorem minmod_std_ge (a b : F) : min 0 b ≤ minmod_std a b := by
  unfold minmod_std
  split_ifs with h1 h2
  · exact min_le_left _ _
  · rcases le_or_lt 0 a with ha | ha
    · exact le_trans (min_le_left _ _) ha
    · have hb : b < 0 := by
        by_contra hb
        exact h1 (mul_nonpos_of_nonpos_of_nonneg ha.le (not_lt.1 hb))
      rw [abs_of_neg ha, abs_of_neg hb] at h2
      exact le_trans (min_le_right _ _) (by linarith)
  · exact min_le_right _ _

/-- With non-negative mixing ratios the limited profile of a donor cell is at
least half the cell mean. -/
theorem slope_term_ge (q qm qp cc : F) (hq : 0 ≤ q) (hqp : 0 ≤ qp) (h0 : 0 < cc)
    (h1 : cc ≤ 1) : 0.5 * q ≤ q + 0.5 * minmod_std (q - qm) (qp - q) * (1 - cc) := by
  have h5 : (0.5 : F) = 1 / 2 := by norm_num
  have hs : -q ≤ minmod_std (q - qm) (qp - q) :=
    le_trans (le_min (by linarith) (by linarith)) (minmod_std_ge _ _)
  rw [h5]
  nlinarith [mul_nonneg (sub_nonneg.2 h1) (by linarith : 0 ≤ minmod_std (q - qm) (qp - q) + q),
    mul_nonneg hq h0.le]

theorem byLevel_ijk {V : Type} {g : Grid} (hg : g.WellFormed) (q : Int → V) {i j : Int}
    (hb : g.inBox i j) (k : Int) : byLevel g q (i + j * g.jj + k * g.kk) = q k := by
  obtain ⟨_, _, h0, h1⟩ := hg.ij_bounds hb
  unfold byLevel
  rw [Int.add_mul_ediv_right _ _ (by omega), Int.ediv_eq_zero_of_lt h0 h1, zero_add]

/-- The limited profile of an interior donor cell, as `sedimentation_ss08`
computes it with the standard limiter, is at least half the cell mean. -/
theorem sed_profile_ge {g : Grid} (hg : g.WellFormed) (M : Env F) (s : SedArrays F)
    (qc rho dzi dz : Int → F) (dt a_c b_c c_c d_c N_0c qc_min : F) {i j : Int}
    (hb : g.inBox i j) (hmm : ∀ a b, M.minmod a b = minmod_std a b)
    (hq : ∀ k, g.kstart ≤ k → k ≤ g.kend → 0 ≤ qc (i + j * g.jj + k * g.kk))
    (kc : Int) (hk1 : g.kstart ≤ kc) (hk2 : kc < g.kend) (cc : F) (h0 : 0 < cc) (h1 : cc ≤ 1) :
    0.5 * qc (i + j * g.jj + kc * g.kk) ≤ qc (i + j * g.jj + kc * g.kk) + 0.5 *
      (sedimentation_ss08 M s qc rho dzi dz dt a_c b_c c_c d_c N_0c qc_min g).slope_qc
        (i + j * g.jj + kc * g.kk) * (1 - cc) := by
  rw [sed_slope_interior hg M s qc rho dzi dz dt a_c b_c c_c d_c N_0c qc_min hb hk1 hk2]
  unfold sed_slope
  simp only []
  rw [hmm]
  have e : i + j * g.jj + kc * g.kk + g.kk = i + j * g.jj + (kc + 1) * g.kk := by ring
  rw [e]
  exact slope_term_ge _ _ _ _ (hq kc hk1 hk2.le) (hq (kc + 1) (by omega) (by omega)) h0 h1

/-- With non-negative mixing ratios, density and level depth, the cumulative
flux before the clip only grows in the accumulation loop. -/
theorem flux_sweep_ge {g : Grid} (hg : g.WellFormed) (M : Env F) (s : SedArrays F)
    (qc rho dzi dz : Int → F) (dt a_c b_c c_c d_c N_0c qc_min : F) {i j : Int}
    (hb : g.inBox i j) (hmm : ∀ a b, M.minmod a b = minmod_std a b)
    (hrho : ∀ k, g.kstart ≤ k → k < g.kend → 0 ≤ rho k)
    (hdz : ∀ k, g.kstart ≤ k → k < g.kend → 0 ≤ dz k)
    (hq : ∀ k, g.kstart ≤ k → k ≤ g.kend → 0 ≤ qc (i + j * g.jj + k * g.kk))
    (kc : Int) (hk : g.kstart ≤ kc) (ftot dzz cc : F) (hcc : cc ≤ 1) :
    ftot ≤ flux_sweep qc
      (sedimentation_ss08 M s qc rho dzi dz dt a_c b_c c_c d_c N_0c qc_min g).slope_qc
      (sedimentation_ss08 M s qc rho dzi dz dt a_c b_c c_c d_c N_0c qc_min g).c_qc
      rho dzi dz g i j kc ftot dzz cc := by
  apply flux_sweep_inv (fun x => ftot ≤ x) qc _ _ rho dzi dz g i j g.kstart _ kc ftot dzz cc hk
    hcc le_rfl
  intro k hk1 hk2 c x h0 h1 hx
  have hp := sed_profile_ge hg M s qc rho dzi dz dt a_c b_c c_c d_c N_0c qc_min hb hmm hq
    k hk1 hk2 c h0 h1
  have hq0 := hq k hk1 hk2.le
  have h5 : (0 : F) ≤ 0.5 * qc (i + j * g.jj + k * g.kk) := mul_nonneg (by norm_num) hq0
  have := mul_nonneg (mul_nonneg (mul_nonneg (hrho k hk1 hk2) (le_trans h5 hp)) h0.le)
    (hdz k hk1 hk2)
  linarith

/-- With `dt > 0`, non-negative mixing ratios, density and level depth and the
standard limiter, every interface flux of a visited column is directed
downward. -/
theorem sed_flux_nonpos {g : Grid} (hg : g.WellFormed) (M : Env F) (s : SedArrays F)
    (qc rho dzi dz : Int → F) (dt a_c b_c c_c d_c N_0c qc_min : F) {i j : Int}
    (hb : g.inBox i j) (hmm : ∀ a b, M.minmod a b = minmod_std a b) (hdt : 0 < dt)
    (hrho : ∀ k, g.kstart ≤ k → k < g.kend → 0 ≤ rho k)
    (hdz : ∀ k, g.kstart ≤ k → k < g.kend → 0 ≤ dz k)
    (hq : ∀ k, g.kstart ≤ k → k ≤ g.kend → 0 ≤ qc (i + j * g.jj + k * g.kk)) :
    ∀ k, g.kstart ≤ k → k ≤ g.kend →
      (sedimentation_ss08 M s qc rho dzi dz dt a_c b_c c_c d_c N_0c qc_min g).flux_qc
        (i + j * g.jj + k * g.kk) ≤ 0 := by
  refine int_down_induction (fun k =>
    (sedimentation_ss08 M s qc rho dzi dz dt a_c b_c c_c d_c N_0c qc_min g).flux_qc
      (i + j * g.jj + k * g.kk) ≤ 0) g.kstart g.kend ?_ ?_
  · exact (sed_flux_top hg M s qc rho dzi dz dt a_c b_c c_c d_c N_0c qc_min hb).le
  · intro k hk1 hk2 ih
    beta_reduce at ih ⊢
    rw [sed_flux_interior hg M s qc rho dzi dz dt a_c b_c c_c d_c N_0c qc_min hb hk1 hk2]
    unfold sed_flux sed_ftot
    simp only []
    have e : i + j * g.jj + k * g.kk + g.kk = i + j * g.jj + (k + 1) * g.kk := by ring
    rw [e]
    have h1 := flux_sweep_ge hg M s qc rho dzi dz dt a_c b_c c_c d_c N_0c qc_min hb hmm hrho
      hdz hq k hk1 0 0 (min 1 ((sedimentation_ss08 M s qc rho dzi dz dt a_c b_c c_c d_c N_0c
        qc_min g).c_qc (i + j * g.jj + k * g.kk))) (min_le_left _ _)
    have h2 : 0 ≤ rho k * dz k * qc (i + j * g.jj + k * g.kk)
        - (sedimentation_ss08 M s qc rho dzi dz dt a_c b_c c_c d_c N_0c qc_min g).flux_qc
          (i + j * g.jj + (k + 1) * g.kk) * dt := by
      have := mul_nonneg (mul_nonneg (hrho k hk1 hk2) (hdz k hk1 hk2)) (hq k hk1 hk2.le)
      have := mul_nonneg (neg_nonneg.2 ih) hdt.le
      linarith
    rw [neg_div]
    exact neg_nonpos.2 (div_nonneg (le_min h1 h2) hdt.le)

/-- If the mixing ratio of a visited column is zero from level `k0` up to the
ghost level `kend` and `minmod(x, 0) = 0`, every interface flux of the column
from level `k0` upward is zero. -/
theorem sed_flux_zero_above {g : Grid} (hg : g.WellFormed) (M : Env F) (s : SedArrays F)
    (qc rho dzi dz : Int → F) (dt a_c b_c c_c d_c N_0c qc_min : F) {i j : Int}
    (hb : g.inBox i j) (hmm : ∀ x, M.minmod x 0 = 0) (k0 : Int)
    (hq : ∀ k, k0 ≤ k → k ≤ g.kend → qc (i + j * g.jj + k * g.kk) = 0) :
    ∀ k, max k0 g.kstart ≤ k → k ≤ g.kend →
      (sedimentation_ss08 M s qc rho dzi dz dt a_c b_c c_c d_c N_0c qc_min g).flux_qc
        (i + j * g.jj + k * g.kk) = 0 := by
  refine int_down_induction (fun k =>
    (sedimentation_ss08 M s qc rho dzi dz dt a_c b_c c_c d_c N_0c qc_min g).flux_qc
      (i + j * g.jj + k * g.kk) = 0) (max k0 g.kstart) g.kend ?_ ?_
  · exact sed_flux_top hg M s qc rho dzi dz dt a_c b_c c_c d_c N_0c qc_min hb
  · intro k hk1 hk2 ih
    beta_reduce at ih ⊢
    have hk0 : k0 ≤ k := le_trans (le_max_left _ _) hk1
    have hks : g.kstart ≤ k := le_trans (le_max_right _ _) hk1
    rw [sed_flux_interior hg M s qc rho dzi dz dt a_c b_c c_c d_c N_0c qc_min hb hks hk2]
    unfold sed_flux sed_ftot
    simp only []
    have e : i + j * g.jj + k * g.kk + g.kk = i + j * g.jj + (k + 1) * g.kk := by ring
    rw [e, ih, hq k hk0 hk2.le]
    have hft : flux_sweep qc
        (sedimentation_ss08 M s qc rho dzi dz dt a_c b_c c_c d_c N_0c qc_min g).slope_qc
        (sedimentation_ss08 M s qc rho dzi dz dt a_c b_c c_c d_c N_0c qc_min g).c_qc
        rho dzi dz g i j k 0 0
        (min 1 ((sedimentation_ss08 M s qc rho dzi dz dt a_c b_c c_c d_c N_0c qc_min g).c_qc
          (i + j * g.jj + k * g.kk))) = 0 := by
      apply flux_sweep_inv (fun x => x = 0) qc _ _ rho dzi dz g i j k _ k 0 0 _ le_rfl
        (min_le_left _ _) rfl
      intro kc hkc1 hkc2 cc x _ _ hx
      have e' : i + j * g.jj + kc * g.kk + g.kk = i + j * g.jj + (kc + 1) * g.kk := by ring
      rw [hx, sed_slope_interior hg M s qc rho dzi dz dt a_c b_c c_c d_c N_0c qc_min hb
        (by omega) hkc2]
      unfold sed_slope
      simp only []
      rw [e', hq kc (by omega) hkc2.le, hq (kc + 1) (by omega) (by omega), sub_self, hmm]
      simp
    rw [hft]
    simp

/-- The surface rate of a visited column is positive when its lowest interior
cell holds mass and has a positive Courant number. -/
theorem sed_rc_bot_pos {g : Grid} (hg : g.WellFormed) (M : Env F) (s : SedArrays F)
    (qc rho dzi dz : Int → F) (dt a_c b_c c_c d_c N_0c qc_min : F) {i j : Int}
    (hb : g.inBox i j) (hmm : ∀ a b, M.minmod a b = minmod_std a b) (hdt : 0 < dt)
    (hrho : ∀ k, g.kstart ≤ k → k < g.kend → 0 < rho k)
    (hdz : ∀ k, g.kstart ≤ k → k < g.kend → 0 < dz k)
    (hq : ∀ k, g.kstart ≤ k → k ≤ g.kend → 0 ≤ qc (i + j * g.jj + k * g.kk))
    (hlt : g.kstart < g.kend) (hq0 : 0 < qc (i + j * g.jj + g.kstart * g.kk))
    (hc : 0 < (sedimentation_ss08 M s qc rho dzi dz dt a_c b_c c_c d_c N_0c qc_min g).c_qc
      (i + j * g.jj + g.kstart * g.kk)) :
    0 < (sedimentation_ss08 M s qc rho dzi dz dt a_c b_c c_c d_c N_0c qc_min g).rc_bot
      (i + j * g.jj) := by
  have hrho' : ∀ k, g.kstart ≤ k → k < g.kend → 0 ≤ rho k := fun k h1 h2 => (hrho k h1 h2).le
  have hdz' : ∀ k, g.kstart ≤ k → k < g.kend → 0 ≤ dz k := fun k h1 h2 => (hdz k h1 h2).le
  rw [sed_rc_bot hg M s qc rho dzi dz dt a_c b_c c_c d_c N_0c qc_min hb,
    sed_flux_interior hg M s qc rho dzi dz dt a_c b_c c_c d_c N_0c qc_min hb le_rfl hlt]
  unfold sed_flux sed_ftot
  simp only []
  have e : i + j * g.jj + g.kstart * g.kk + g.kk = i + j * g.jj + (g.kstart + 1) * g.kk := by
    ring
  rw [e]
  have hfa := sed_flux_nonpos hg M s qc rho dzi dz dt a_c b_c c_c d_c N_0c qc_min hb hmm hdt
    hrho' hdz' hq (g.kstart + 1) (by omega) (by omega)
  have hr0 := hrho g.kstart le_rfl hlt
  have hd0 := hdz g.kstart le_rfl hlt
  have hB : 0 < rho g.kstart * dz g.kstart * qc (i + j * g.jj + g.kstart * g.kk)
      - (sedimentation_ss08 M s qc rho dzi dz dt a_c b_c c_c d_c N_0c qc_min g).flux_qc
        (i + j * g.jj + (g.kstart + 1) * g.kk) * dt := by
    have := mul_pos (mul_pos hr0 hd0) hq0
    have := mul_nonneg (neg_nonneg.2 hfa) hdt.le
    linarith
  have hcc : 0 < min 1 ((sedimentation_ss08 M s qc rho dzi dz dt a_c b_c c_c d_c N_0c
      qc_min g).c_qc (i + j * g.jj + g.kstart * g.kk)) := lt_min one_pos hc
  have hft : 0 < flux_sweep qc
      (sedimentation_ss08 M s qc rho dzi dz dt a_c b_c c_c d_c N_0c qc_min g).slope_qc
      (sedimentation_ss08 M s qc rho dzi dz dt a_c b_c c_c d_c N_0c qc_min g).c_qc
      rho dzi dz g i j g.kstart 0 0
      (min 1 ((sedimentation_ss08 M s qc rho dzi dz dt a_c b_c c_c d_c N_0c qc_min g).c_qc
        (i + j * g.jj + g.kstart * g.kk))) := by
    rw [flux_sweep_step _ _ _ _ _ _ _ _ _ _ _ _ _ hcc hlt]
    refine lt_of_lt_of_le ?_ (flux_sweep_ge hg M s qc rho dzi dz dt a_c b_c c_c d_c N_0c
      qc_min hb hmm hrho' hdz' hq (g.kstart + 1) (by omega) _ _ _ (min_le_left _ _))
    have hp := sed_profile_ge hg M s qc rho dzi dz dt a_c b_c c_c d_c N_0c qc_min hb hmm hq
      g.kstart le_rfl hlt _ hcc (min_le_left _ _)
    have h5 : (0 : F) < 0.5 * qc (i + j * g.jj + g.kstart * g.kk) :=
      mul_pos (by norm_num) hq0
    rw [zero_add]
    exact mul_pos (mul_pos (mul_pos hr0 (lt_of_lt_of_le h5 hp)) hcc) hd0
  rw [neg_div, neg_neg]
  exact div_pos (lt_min hft hB) hdt

/-- The surface rate of a visited column is zero when its two lowest interior
cells are at or below the threshold of the species. -/
theorem sed_rc_bot_zero {g : Grid} (hg : g.WellFormed) (M : Env F) (s : SedArrays F)
    (qc rho dzi dz : Int → F) (dt a_c b_c c_c d_c N_0c qc_min : F) {i j : Int}
    (hb : g.inBox i j) (hmm : ∀ a b, M.minmod a b = minmod_std a b) (hdt : 0 < dt)
    (hrho : ∀ k, g.kstart ≤ k → k < g.kend → 0 ≤ rho k)
    (hdz : ∀ k, g.kstart ≤ k → k < g.kend → 0 ≤ dz k)
    (hq : ∀ k, g.kstart ≤ k → k ≤ g.kend → 0 ≤ qc (i + j * g.jj + k * g.kk))
    (hq0 : qc (i + j * g.jj + g.kstart * g.kk) ≤ qc_min)
    (hq1 : qc (i + j * g.jj + (g.kstart + 1) * g.kk) ≤ qc_min) :
    (sedimentation_ss08 M s qc rho dzi dz dt a_c b_c c_c d_c N_0c qc_min g).rc_bot
      (i + j * g.jj) = 0 := by
  rw [sed_rc_bot hg M s qc rho dzi dz dt a_c b_c c_c d_c N_0c qc_min hb, neg_eq_zero]
  rcases eq_or_lt_of_le hg.kstart_le with heq | hlt
  · rw [heq]
    exact sed_flux_top hg M s qc rho dzi dz dt a_c b_c c_c d_c N_0c qc_min hb
  · rw [sed_flux_interior hg M s qc rho dzi dz dt a_c b_c c_c d_c N_0c qc_min hb le_rfl hlt]
    unfold sed_flux sed_ftot
    simp only []
    have e : i + j * g.jj + g.kstart * g.kk + g.kk
        = i + j * g.jj + (g.kstart + 1) * g.kk := by ring
    rw [e]
    have hfa := sed_flux_nonpos hg M s qc rho dzi dz dt a_c b_c c_c d_c N_0c qc_min hb hmm
      hdt hrho hdz hq (g.kstart + 1) (by omega) (by omega)
    have hB : 0 ≤ rho g.kstart * dz g.kstart * qc (i + j * g.jj + g.kstart * g.kk)
        - (sedimentation_ss08 M s qc rho dzi dz dt a_c b_c c_c d_c N_0c qc_min g).flux_qc
          (i + j * g.jj + (g.kstart + 1) * g.kk) * dt := by
      have := mul_nonneg (mul_nonneg (hrho _ le_rfl hlt) (hdz _ le_rfl hlt)) (hq _ le_rfl hlt.le)
      have := mul_nonneg (neg_nonneg.2 hfa) hdt.le
      linarith
    have hc : (sedimentation_ss08 M s qc rho dzi dz dt a_c b_c c_c d_c N_0c qc_min g).c_qc
        (i + j * g.jj + g.kstart * g.kk) = 0 := by
      rw [sed_c_stencil hg M s qc rho dzi dz dt a_c b_c c_c d_c N_0c qc_min hb le_rfl hlt,
        max_eq_left (by omega), sed_velocity_of_le _ _ _ _ _ _ _ _ _ _ _ _ _ hq0,
        sed_velocity_of_le _ _ _ _ _ _ _ _ _ _ _ _ _ hq1]
      simp
    rw [hc, flux_sweep_of_nonpos _ _ _ _ _ _ _ _ _ _ _ _ _ (min_le_right _ _),
      min_eq_left hB]
    simp

end FluxSignLemmas

/-! ## Sedimentation: the end-to-end column -/

section ColumnClaims

variable {F : Type} [LinearOrderedField F]

/-- C13. If the mixing ratio of a visited column is zero at level `k0` and at
every level above it up to and including the ghost level `kend`, then
`sedimentation_ss08` (`dt != 0`, `minmod(x, 0) = 0` as for the standard limiter)
adds exactly zero tendency at every interior level `k >= k0` of the column; in
the column with rain only on levels 10 to 20 the tendency above level 20 is
unchanged. -/
theorem sedimentation_zero_above (M : Env F) (s : SedArrays F) (qc rho dzi dz : Int → F)
    (dt a_c b_c c_c d_c N_0c qc_min : F) (g : Grid) (hg : g.WellFormed) (i j : Int)
    (hb : g.inBox i j) (_hdt : dt ≠ 0) (hmm : ∀ x, M.minmod x 0 = 0) (k0 : Int)
    (hq : ∀ k, k0 ≤ k → k ≤ g.kend → qc (i + j * g.jj + k * g.kk) = 0) :
    (∀ k, k0 ≤ k → g.kstart ≤ k → k < g.kend →
      (sedimentation_ss08 M s qc rho dzi dz dt a_c b_c c_c d_c N_0c qc_min g).qct
        (i + j * g.jj + k * g.kk) = s.qct (i + j * g.jj + k * g.kk)) ∧
    (∀ k, 20 < k → g.kstart ≤ k → k < g.kend →
      (sedimentation_ss08 M s (byLevel g rainLayer) rho dzi dz dt a_c b_c c_c d_c N_0c
        qc_min g).qct (i + j * g.jj + k * g.kk) = s.qct (i + j * g.jj + k * g.kk)) := by
  have key : ∀ (q : Int → F) (k1 : Int),
      (∀ k, k1 ≤ k → k ≤ g.kend → q (i + j * g.jj + k * g.kk) = 0) →
      ∀ k, k1 ≤ k → g.kstart ≤ k → k < g.kend →
        (sedimentation_ss08 M s q rho dzi dz dt a_c b_c c_c d_c N_0c qc_min g).qct
          (i + j * g.jj + k * g.kk) = s.qct (i + j * g.jj + k * g.kk) := by
    intro q k1 hq1 k hk0 hk1 hk2
    have hf := sed_flux_zero_above hg M s q rho dzi dz dt a_c b_c c_c d_c N_0c qc_min hb hmm
      k1 hq1
    rw [sed_qct_interior hg M s q rho dzi dz dt a_c b_c c_c d_c N_0c qc_min hb hk1 hk2]
    unfold sed_tend
    simp only []
    have e : i + j * g.jj + k * g.kk + g.kk = i + j * g.jj + (k + 1) * g.kk := by ring
    rw [e, hf k (max_le hk0 hk1) hk2.le, hf (k + 1) (max_le (by omega) (by omega)) (by omega)]
    simp
  refine ⟨key qc k0 hq, fun k hk => key (byLevel g rainLayer) 21 ?_ k (by omega)⟩
  intro k hk1 _
  rw [byLevel_ijk hg _ hb]
  unfold rainLayer
  rw [if_neg]
  omega

theorem gridCol_wellFormed : gridCol.WellFormed :=
  ⟨by decide, by decide, by decide, by decide, by decide⟩

theorem gridCol_inBox : gridCol.inBox 1 1 := by
  unfold Grid.inBox gridCol
  decide

theorem gridRain_wellFormed : gridRain.WellFormed :=
  ⟨by decide, by decide, by decide, by decide, by decide⟩

theorem gridRain_inBox : gridRain.inBox 1 1 := by
  unfold Grid.inBox gridRain
  decide

theorem rainLayer_nonneg (k : Int) : (0 : F) ≤ rainLayer k := by
  unfold rainLayer
  split_ifs <;> norm_num

/-- C13, at level 25 of the column of `gridCol` with rain on the levels 10 to 20. -/
theorem sedimentation_zero_above_witness :
    (sedimentation_ss08 ratEnv sedZero (byLevel gridCol rainLayer) (fun _ => 1)
        (fun _ => 1 / 100) (fun _ => 100) 1 (a_r ratEnv) b_r c_r d_r N_0r qr_min gridCol).qct
        (1 + 1 * gridCol.jj + 25 * gridCol.kk)
      = sedZero.qct (1 + 1 * gridCol.jj + 25 * gridCol.kk) :=
  (sedimentation_zero_above ratEnv sedZero (byLevel gridCol rainLayer) (fun _ => 1)
    (fun _ => 1 / 100) (fun _ => 100) 1 (a_r ratEnv) b_r c_r d_r N_0r qr_min gridCol
    gridCol_wellFormed 1 1 gridCol_inBox one_ne_zero minmod_std_zero_right 21
    (fun k hk _ => by
      rw [byLevel_ijk gridCol_wellFormed _ gridCol_inBox]
      unfold rainLayer
      rw [if_neg]
      omega)).1 25 (by decide) (by decide) (by decide)

/-- The fall speed of rain in the end-to-end column, in the rational instance
of the library. -/
theorem rat_rain_velocity {g : Grid} (hg : g.WellFormed) {i j : Int} (hb : g.inBox i j)
    (k : Int) :
    sed_velocity ratEnv (byLevel g rainLayer) (fun _ => 1) (a_r ratEnv) b_r c_r d_r N_0r qr_min
      g i j k = if 10 ≤ k ∧ k ≤ 20 then 65 / 3 else 0 := by
  unfold sed_velocity
  simp only []
  rw [byLevel_ijk hg _ hb]
  unfold rainLayer
  by_cases h : 10 ≤ k ∧ k ≤ 20
  · rw [if_pos h, if_pos h]
    norm_num [ratEnv, a_r, b_r, c_r, d_r, N_0r, qr_min, rho_w]
  · rw [if_neg h, if_neg h]
    norm_num [qr_min]

theorem rat_rain_cfl_lt_one {g : Grid} (hg : g.WellFormed) {i j : Int} (hb : g.inBox i j)
    (s : SedArrays ℚ) (k : Int) (hk1 : g.kstart ≤ k) (hk2 : k < g.kend) :
    (sedimentation_ss08 ratEnv s (byLevel g rainLayer) (fun _ => 1) (fun _ => 1 / 100)
      (fun _ => 100) 1 (a_r ratEnv) b_r c_r d_r N_0r qr_min g).c_qc
      (i + j * g.jj + k * g.kk) < 1 := by
  rw [sed_c_stencil hg _ _ _ _ _ _ _ _ _ _ _ _ _ hb hk1 hk2, rat_rain_velocity hg hb,
    rat_rain_velocity hg hb, rat_rain_velocity hg hb]
  split_ifs <;> norm_num

/-- C12 as stated fails. In the column of `gridCol` (levels 1 to 30, unit
density, 100 m levels, `dt = 1`) with rain of `1e-3` on the levels 10 to 20,
every Courant number is below 1 and the recorded surface rate `rc_bot` is zero:
in one step the rain does not reach the lowest interface. -/
theorem sedimentation_column_no_surface_flux :
    (∀ k, gridCol.kstart ≤ k → k < gridCol.kend →
      (sedimentation_ss08 ratEnv sedZero (byLevel gridCol rainLayer) (fun _ => 1)
        (fun _ => 1 / 100) (fun _ => 100) 1 (a_r ratEnv) b_r c_r d_r N_0r qr_min gridCol).c_qc
        (1 + 1 * gridCol.jj + k * gridCol.kk) < 1) ∧
    (sedimentation_ss08 ratEnv sedZero (byLevel gridCol rainLayer) (fun _ => 1)
      (fun _ => 1 / 100) (fun _ => 100) 1 (a_r ratEnv) b_r c_r d_r N_0r qr_min gridCol).rc_bot
      (1 + 1 * gridCol.jj) = 0 ∧
    ¬ 0 < (sedimentation_ss08 ratEnv sedZero (byLevel gridCol rainLayer) (fun _ => 1)
      (fun _ => 1 / 100) (fun _ => 100) 1 (a_r ratEnv) b_r c_r d_r N_0r qr_min gridCol).rc_bot
      (1 + 1 * gridCol.jj) := by
  have h0 : (sedimentation_ss08 ratEnv sedZero (byLevel gridCol rainLayer) (fun _ => 1)
      (fun _ => 1 / 100) (fun _ => 100) 1 (a_r ratEnv) b_r c_r d_r N_0r qr_min gridCol).rc_bot
      (1 + 1 * gridCol.jj) = 0 := by
    apply sed_rc_bot_zero gridCol_wellFormed ratEnv sedZero _ _ _ _ _ _ _ _ _ _ _
      gridCol_inBox (fun _ _ => rfl) one_pos (fun _ _ _ => zero_le_one)
      (fun _ _ _ => by norm_num)
      (fun k _ _ => by
        rw [byLevel_ijk gridCol_wellFormed _ gridCol_inBox]
        exact rainLayer_nonneg k)
    · rw [byLevel_ijk gridCol_wellFormed _ gridCol_inBox]
      norm_num [rainLayer, gridCol, qr_min]
    · rw [byLevel_ijk gridCol_wellFormed _ gridCol_inBox]
      norm_num [rainLayer, gridCol, qr_min]
  refine ⟨fun k hk1 hk2 => rat_rain_cfl_lt_one gridCol_wellFormed gridCol_inBox _ k hk1 hk2,
    h0, ?_⟩
  rw [h0]
  exact lt_irrefl 0

/-- In the end-to-end column at unit density the fall speed is the same at
every level that holds rain and zero at the other levels. -/
theorem rain_velocity_nonneg {g : Grid} (hg : g.WellFormed) (M : Env F)
    (a_c b_c c_c d_c N_0c qc_min : F) {i j : Int} (hb : g.inBox i j) (hmin0 : 0 ≤ qc_min)
    (k0 : Int) (h10 : 10 ≤ k0) (h20 : k0 ≤ 20)
    (hV : 0 < sed_velocity M (byLevel g rainLayer) (fun _ => 1) a_c b_c c_c d_c N_0c qc_min
      g i j k0) (k : Int) :
    0 ≤ sed_velocity M (byLevel g rainLayer) (fun _ => 1) a_c b_c c_c d_c N_0c qc_min
      g i j k := by
  unfold sed_velocity at hV ⊢
  simp only [] at hV ⊢
  rw [byLevel_ijk hg _ hb] at hV ⊢
  by_cases hk : 10 ≤ k ∧ k ≤ 20
  · have e : (rainLayer k : F) = rainLayer k0 := by
      unfold rainLayer
      rw [if_pos hk, if_pos ⟨h10, h20⟩]
    rw [e]
    exact hV.le
  · have e : (rainLayer k : F) = 0 := by
      unfold rainLayer
      rw [if_neg hk]
    rw [e, if_neg (not_lt.2 hmin0)]

/-- C12, amended. For a column with unit density and rain of `1e-3` on the
levels 10 to 20 and zero elsewhere (`dt > 0`, `dz > 0`, `dzi = 1/dz`, the
standard limiter, a threshold below `1e-3`, Courant numbers below 1), one
`sedimentation_ss08` call records a strictly positive surface rate `rc_bot` when
the lowest interior level `kstart` is one of the levels 10 to 20 and the fall
speed there is positive; it records `rc_bot = 0` when the two lowest interior
levels lie below level 10. -/
theorem sedimentation_column_surface_flux (M : Env F) (s : SedArrays F) (dzi dz : Int → F)
    (dt a_c b_c c_c d_c N_0c qc_min : F) (g : Grid) (hg : g.WellFormed) (i j : Int)
    (hb : g.inBox i j) (hmm : ∀ a b, M.minmod a b = minmod_std a b) (hdt : 0 < dt)
    (hdz : ∀ k, g.kstart ≤ k → k < g.kend → 0 < dz k)
    (hdzi : ∀ k, g.kstart ≤ k → k < g.kend → dzi k = 1 / dz k)
    (hmin0 : 0 ≤ qc_min) (_hmin : qc_min < 1e-3)
    (_hcfl : ∀ k, g.kstart ≤ k → k < g.kend →
      (sedimentation_ss08 M s (byLevel g rainLayer) (fun _ => 1) dzi dz dt a_c b_c c_c d_c
        N_0c qc_min g).c_qc (i + j * g.jj + k * g.kk) < 1) :
    (10 ≤ g.kstart → g.kstart ≤ 20 → g.kstart < g.kend →
      0 < sed_velocity M (byLevel g rainLayer) (fun _ => 1) a_c b_c c_c d_c N_0c qc_min
        g i j g.kstart →
      0 < (sedimentation_ss08 M s (byLevel g rainLayer) (fun _ => 1) dzi dz dt a_c b_c c_c
        d_c N_0c qc_min g).rc_bot (i + j * g.jj)) ∧
    (g.kstart + 1 < 10 →
      (sedimentation_ss08 M s (byLevel g rainLayer) (fun _ => 1) dzi dz dt a_c b_c c_c d_c
        N_0c qc_min g).rc_bot (i + j * g.jj) = 0) := by
  have hq : ∀ k, g.kstart ≤ k → k ≤ g.kend →
      (0 : F) ≤ byLevel g rainLayer (i + j * g.jj + k * g.kk) := by
    intro k _ _
    rw [byLevel_ijk hg _ hb]
    exact rainLayer_nonneg k
  constructor
  · intro h10 h20 hlt hV
    apply sed_rc_bot_pos hg M s _ _ dzi dz dt a_c b_c c_c d_c N_0c qc_min hb hmm hdt
      (fun _ _ _ => one_pos) hdz hq hlt
    · rw [byLevel_ijk hg _ hb]
      unfold rainLayer
      rw [if_pos ⟨h10, h20⟩]
      norm_num
    · rw [sed_c_stencil hg M s _ _ dzi dz dt a_c b_c c_c d_c N_0c qc_min hb le_rfl hlt,
        max_eq_left (by omega)]
      have hdzi0 : 0 < dzi g.kstart := by
        rw [hdzi _ le_rfl hlt]
        exact one_div_pos.2 (hdz _ le_rfl hlt)
      have hV1 : 0 ≤ (if g.kstart + 1 < g.kend then
          sed_velocity M (byLevel g rainLayer) (fun _ => 1) a_c b_c c_c d_c N_0c qc_min
            g i j (g.kstart + 1) else 0) := by
        split_ifs
        · exact rain_velocity_nonneg hg M a_c b_c c_c d_c N_0c qc_min hb hmin0 g.kstart h10 h20
            hV _
        · exact le_rfl
      have h25 : (0 : F) < 0.25 := by norm_num
      exact mul_pos (mul_pos (mul_pos h25 (by linarith)) hdzi0) hdt
  · intro hlow
    apply sed_rc_bot_zero hg M s _ _ dzi dz dt a_c b_c c_c d_c N_0c qc_min hb hmm hdt
      (fun _ _ _ => zero_le_one) (fun k h1 h2 => (hdz k h1 h2).le) hq
    · rw [byLevel_ijk hg _ hb]
      unfold rainLayer
      rw [if_neg (by omega)]
      exact hmin0
    · rw [byLevel_ijk hg _ hb]
      unfold rainLayer
      rw [if_neg (by omega)]
      exact hmin0

/-- C12 amended, in the column of `gridRain`, whose lowest interior level is
level 10: the surface rate is positive. -/
theorem sedimentation_column_surface_flux_witness :
    0 < (sedimentation_ss08 ratEnv sedZero (byLevel gridRain rainLayer) (fun _ => 1)
      (fun _ => 1 / 100) (fun _ => 100) 1 (a_r ratEnv) b_r c_r d_r N_0r qr_min gridRain).rc_bot
      (1 + 1 * gridRain.jj) :=
  (sedimentation_column_surface_flux ratEnv sedZero (fun _ => 1 / 100) (fun _ => 100) 1
    (a_r ratEnv) b_r c_r d_r N_0r qr_min gridRain gridRain_wellFormed 1 1 gridRain_inBox
    (fun _ _ => rfl) one_pos (fun _ _ _ => by norm_num) (fun _ _ _ => rfl)
    (by norm_num [qr_min]) (by norm_num [qr_min])
    (fun k hk1 hk2 => rat_rain_cfl_lt_one gridRain_wellFormed gridRain_inBox _ k hk1 hk2)).1
    (by decide) (by decide) (by decide)
    (by
      rw [rat_rain_velocity gridRain_wellFormed gridRain_inBox]
      norm_num [gridRain])

end ColumnClaims

/-! ## Statistics -/

section StatsClaims

variable {F : Type} [LinearOrderedField F]

/-- C18 fails on the code. `create` registers the three time series `rr`, `rs`
and `rg`, and `exec_stats` makes a single call, `calc_stats_2d("rr", rr_bot, 0)`:
no call pushes `rs_bot` or `rg_bot`, under any name. -/
theorem exec_stats_pushes_only_rr (this : Microphys_nsw6 F) (dt : F)
    (tend_name tend_longname : String) :
    registered_series (create true tend_name tend_longname : List (StatsCall F))
      = ["rr", "rs", "rg"] ∧
    exec_stats this dt = [StatsCall.calc_stats_2d "rr" this.rr_bot 0] ∧
    (∀ (values : Int → F) (offset : F),
      StatsCall.calc_stats_2d "rs" values offset ∉ exec_stats this dt ∧
      StatsCall.calc_stats_2d "rg" values offset ∉ exec_stats this dt) := by
  refine ⟨rfl, rfl, ?_⟩
  intro values offset
  simp [exec_stats]

end StatsClaims

/-! ## Gating by the source category -/

section GateClaims

variable {F : Type} [LinearOrderedField F]

/-- C15. Rates are gated by the source flag only: there is a cell state with
graupel at or below its threshold (`qg <= 1e-12`) and snow present with
`qs > 6e-4` for which the cell body of `autoconversion` adds a strictly positive
amount to the graupel tendency and subtracts the same amount from the snow
tendency (`exp(0) > 0`). -/
theorem autoconversion_feeds_absent_graupel (M : Env F) (N_d : F) (t : Tend F)
    (hexp : 0 < M.exp 0) :
    ∃ c : Cell F, c.qg ≤ qg_min ∧ c.qs > q_scrt ∧ ¬ c.has_graupel ∧
      0 < (autoconversion_cell M N_d c t).qgt - t.qgt ∧
      (autoconversion_cell M N_d c t).qst - t.qst
        = -((autoconversion_cell M N_d c t).qgt - t.qgt) := by
  refine ⟨cellSnowOnly M, ?_, ?_, ?_, ?_, ?_⟩
  · norm_num [cellSnowOnly, qg_min]
  · norm_num [cellSnowOnly, q_scrt]
  · norm_num [cellSnowOnly, Cell.has_graupel, qg_min]
  · have hb : (0 : F) < min 1e-3 (1e-3 * M.exp 0) := lt_min (by norm_num) (mul_pos (by norm_num) hexp)
    have hp : (0 : F) < min 1e-3 (1e-3 * M.exp 0) * (1e-3 - 6e-4) := mul_pos hb (by norm_num)
    simp only [autoconversion_cell, auto_snow_to_graupel, auto_ice_to_snow, auto_cloud_to_rain,
      Cell.has_liq, Cell.has_ice, Cell.has_snow, ql_min, qi_min, qs_min, P_gaut, beta_2, Cell.T,
      q_scrt, gamma_gaut, cellSnowOnly]
    norm_num
    exact hexp
  · simp only [autoconversion_cell, auto_snow_to_graupel, auto_ice_to_snow, auto_cloud_to_rain,
      Cell.has_liq, Cell.has_ice, Cell.has_snow, ql_min, qi_min, qs_min, cellSnowOnly]
    norm_num

/-- C15, in the rational instance of the library. -/
theorem autoconversion_feeds_absent_graupel_witness :
    ∃ c : Cell ℚ, c.qg ≤ qg_min ∧ c.qs > q_scrt ∧ ¬ c.has_graupel ∧
      0 < (autoconversion_cell ratEnv 50000000 c tendZero).qgt - tendZero.qgt ∧
      (autoconversion_cell ratEnv 50000000 c tendZero).qst - tendZero.qst
        = -((autoconversion_cell ratEnv 50000000 c tendZero).qgt - tendZero.qgt) :=
  autoconversion_feeds_absent_graupel ratEnv 50000000 tendZero (by norm_num [ratEnv])

end GateClaims

/-! ## Additivity of the kernels -/

section FrameLemmas

variable {F : Type} [LinearOrderedField F]

theorem Tend.sub_add_cancel_right (a b u : Tend F) :
    Tend.sub (Tend.add a u) (Tend.add b u) = Tend.sub a b := by
  simp only [Tend.sub, Tend.add, Tend.mk.injEq]
  refine ⟨?_, ?_, ?_, ?_, ?_⟩ <;> ring_nf

theorem Tend.add_sub_self (a b : Tend F) : Tend.add a (Tend.sub b a) = b := by
  cases a
  cases b
  simp only [Tend.sub, Tend.add, Tend.mk.injEq]
  refine ⟨?_, ?_, ?_, ?_, ?_⟩ <;> ring_nf

theorem auto_cloud_to_rain_add (M : Env F) (N_d : F) (c : Cell F) (t u : Tend F) :
    auto_cloud_to_rain M N_d c (Tend.add t u) = Tend.add (auto_cloud_to_rain M N_d c t) u := by
  unfold auto_cloud_to_rain Tend.add
  split_ifs
  · simp only [Tend.mk.injEq]
    refine ⟨?_, ?_, ?_, ?_, ?_⟩ <;> ring_nf
  · rfl

theorem auto_ice_to_snow_add (M : Env F) (c : Cell F) (t u : Tend F) :
    auto_ice_to_snow M c (Tend.add t u) = Tend.add (auto_ice_to_snow M c t) u := by
  unfold auto_ice_to_snow Tend.add
  split_ifs
  · simp only [Tend.mk.injEq]
    refine ⟨?_, ?_, ?_, ?_, ?_⟩ <;> ring_nf
  · rfl

theorem auto_snow_to_graupel_add (M : Env F) (c : Cell F) (t u : Tend F) :
    auto_snow_to_graupel M c (Tend.add t u) = Tend.add (auto_snow_to_graupel M c t) u := by
  unfold auto_snow_to_graupel Tend.add
  split_ifs
  · simp only [Tend.mk.injEq]
    refine ⟨?_, ?_, ?_, ?_, ?_⟩ <;> ring_nf
  · rfl

theorem cloud_to_rain_add (M : Env F) (c : Cell F) (t u : Tend F) :
    cloud_to_rain M c (Tend.add t u) = Tend.add (cloud_to_rain M c t) u := by
  unfold cloud_to_rain Tend.add
  split_ifs
  · simp only [Tend.mk.injEq]
    refine ⟨?_, ?_, ?_, ?_, ?_⟩ <;> ring_nf
  · rfl

theorem rain_to_vapor_add (M : Env F) (c : Cell F) (t u : Tend F) :
    rain_to_vapor M c (Tend.add t u) = Tend.add (rain_to_vapor M c t) u := by
  unfold rain_to_vapor Tend.add
  split_ifs
  · simp only [Tend.mk.injEq]
    refine ⟨?_, ?_, ?_, ?_, ?_⟩ <;> ring_nf
  · rfl

theorem cloud_to_graupel_add (M : Env F) (c : Cell F) (t u : Tend F) :
    cloud_to_graupel M c (Tend.add t u) = Tend.add (cloud_to_graupel M c t) u := by
  unfold cloud_to_graupel Tend.add
  split_ifs
  · simp only [Tend.mk.injEq]
    refine ⟨?_, ?_, ?_, ?_, ?_⟩ <;> ring_nf
  · rfl

theorem cloud_to_snow_add (M : Env F) (c : Cell F) (t u : Tend F) :
    cloud_to_snow M c (Tend.add t u) = Tend.add (cloud_to_snow M c t) u := by
  unfold cloud_to_snow Tend.add
  split_ifs
  · simp only [Tend.mk.injEq]
    refine ⟨?_, ?_, ?_, ?_, ?_⟩ <;> ring_nf
  · rfl

theorem ice_to_snow_add (M : Env F) (c : Cell F) (t u : Tend F) :
    ice_to_snow M c (Tend.add t u) = Tend.add (ice_to_snow M c t) u := by
  unfold ice_to_snow Tend.add
  split_ifs
  · simp only [Tend.mk.injEq]
    refine ⟨?_, ?_, ?_, ?_, ?_⟩ <;> ring_nf
  · rfl

theorem ice_to_graupel_add (M : Env F) (c : Cell F) (t u : Tend F) :
    ice_to_graupel M c (Tend.add t u) = Tend.add (ice_to_graupel M c t) u := by
  unfold ice_to_graupel Tend.add
  split_ifs
  · simp only [Tend.mk.injEq]
    refine ⟨?_, ?_, ?_, ?_, ?_⟩ <;> ring_nf
  · rfl

theorem rain_to_graupel_add (M : Env F) (c : Cell F) (t u : Tend F) :
    rain_to_graupel M c (Tend.add t u) = Tend.add (rain_to_graupel M c t) u := by
  unfold rain_to_graupel Tend.add
  split_ifs
  · simp only [Tend.mk.injEq]
    refine ⟨?_, ?_, ?_, ?_, ?_⟩ <;> ring_nf
  · rfl

theorem rain_to_snow_add (M : Env F) (c : Cell F) (t u : Tend F) :
    rain_to_snow M c (Tend.add t u) = Tend.add (rain_to_snow M c t) u := by
  unfold rain_to_snow Tend.add
  split_ifs
  · simp only [Tend.mk.injEq]
    refine ⟨?_, ?_, ?_, ?_, ?_⟩ <;> ring_nf
  · rfl

theorem snow_to_rain_add (M : Env F) (c : Cell F) (t u : Tend F) :
    snow_to_rain M c (Tend.add t u) = Tend.add (snow_to_rain M c t) u := by
  unfold snow_to_rain Tend.add
  split_ifs
  · simp only [Tend.mk.injEq]
    refine ⟨?_, ?_, ?_, ?_, ?_⟩ <;> ring_nf
  · rfl

theorem snow_to_graupel_add (M : Env F) (c : Cell F) (t u : Tend F) :
    snow_to_graupel M c (Tend.add t u) = Tend.add (snow_to_graupel M c t) u := by
  unfold snow_to_graupel Tend.add
  split_ifs
  · simp only [Tend.mk.injEq]
    refine ⟨?_, ?_, ?_, ?_, ?_⟩ <;> ring_nf
  · rfl

theorem snow_to_vapor_add (M : Env F) (c : Cell F) (t u : Tend F) :
    snow_to_vapor M c (Tend.add t u) = Tend.add (snow_to_vapor M c t) u := by
  unfold snow_to_vapor Tend.add
  split_ifs
  · simp only [Tend.mk.injEq]
    refine ⟨?_, ?_, ?_, ?_, ?_⟩ <;> ring_nf
  · rfl

theorem graupel_to_rain_add (M : Env F) (c : Cell F) (t u : Tend F) :
    graupel_to_rain M c (Tend.add t u) = Tend.add (graupel_to_rain M c t) u := by
  unfold graupel_to_rain Tend.add
  split_ifs
  · simp only [Tend.mk.injEq]
    refine ⟨?_, ?_, ?_, ?_, ?_⟩ <;> ring_nf
  · rfl

theorem graupel_to_vapor_add (M : Env F) (c : Cell F) (t u : Tend F) :
    graupel_to_vapor M c (Tend.add t u) = Tend.add (graupel_to_vapor M c t) u := by
  unfold graupel_to_vapor Tend.add
  split_ifs
  · simp only [Tend.mk.injEq]
    refine ⟨?_, ?_, ?_, ?_, ?_⟩ <;> ring_nf
  · rfl

/-- The cell body of `autoconversion` adds an amount that does not depend on
the tendencies it finds. -/
theorem autoconversion_cell_add (M : Env F) (N_d : F) (c : Cell F) (t u : Tend F) :
    autoconversion_cell M N_d c (Tend.add t u) = Tend.add (autoconversion_cell M N_d c t) u := by
  simp only [autoconversion_cell, auto_cloud_to_rain_add, auto_ice_to_snow_add,
    auto_snow_to_graupel_add]

/-- The cell body of `accretion_and_phase_changes` adds an amount that does not
depend on the tendencies it finds. -/
theorem accretion_cell_add (M : Env F) (c : Cell F) (t u : Tend F) :
    accretion_cell M c (Tend.add t u) = Tend.add (accretion_cell M c t) u := by
  simp only [accretion_cell, cloud_to_rain_add, rain_to_vapor_add, cloud_to_graupel_add,
    cloud_to_snow_add, ice_to_snow_add, ice_to_graupel_add, rain_to_graupel_add,
    rain_to_snow_add, snow_to_rain_add, snow_to_graupel_add, snow_to_vapor_add,
    graupel_to_rain_add, graupel_to_vapor_add]

theorem autoconversion_cell_incr (M : Env F) (N_d : F) (c : Cell F) (t t' : Tend F) :
    Tend.sub (autoconversion_cell M N_d c t) t = Tend.sub (autoconversion_cell M N_d c t') t' := by
  conv_rhs => rw [← Tend.add_sub_self t t', autoconversion_cell_add]
  rw [Tend.add_sub_self, ← Tend.sub_add_cancel_right _ _ (Tend.sub t' t), Tend.add_sub_self]

theorem accretion_cell_incr (M : Env F) (c : Cell F) (t t' : Tend F) :
    Tend.sub (accretion_cell M c t) t = Tend.sub (accretion_cell M c t') t' := by
  conv_rhs => rw [← Tend.add_sub_self t t', accretion_cell_add]
  rw [Tend.add_sub_self, ← Tend.sub_add_cancel_right _ _ (Tend.sub t' t), Tend.add_sub_self]

/-- The kernel `autoconversion` leaves the tendencies of the elements that are
not interior cells as they are. -/
theorem autoconversion_outside {g : Grid} (hg : g.WellFormed) (M : Env F) (t : TendArrays F)
    (f : Fields F) (N_d : F) (n : Int) (hn : ¬ g.interior n) :
    (autoconversion M t f N_d g).get n = t.get n :=
  (loop3_tend hg (fun i j k v => autoconversion_cell M N_d (f.cell g i j k) v) t).2 n
    (fun i j k hb h1 h2 heq => hn ⟨i, j, k, hb, h1, h2, heq⟩)

/-- The kernel `accretion_and_phase_changes` applies the cell body to the
tendencies of every interior cell and leaves the other elements as they are. -/
theorem accretion_get {g : Grid} (hg : g.WellFormed) (M : Env F) (t : TendArrays F)
    (cfl_out : F) (f : Fields F) (dt : F) :
    (∀ i j k, g.inBox i j → g.kstart ≤ k → k < g.kend →
      (accretion_and_phase_changes M t cfl_out f dt g).1.get (i + j * g.jj + k * g.kk)
        = accretion_cell M (f.cell g i j k) (t.get (i + j * g.jj + k * g.kk))) ∧
    (∀ n, ¬ g.interior n → (accretion_and_phase_changes M t cfl_out f dt g).1.get n = t.get n) := by
  unfold accretion_and_phase_changes
  simp only []
  rw [loop3_eq_foldl]
  obtain ⟨h1, h2⟩ := foldl_local_write (fun (s : TendArrays F × F) => s.1.get)
    (fun (c : Int × Int × Int) => c.1 + c.2.1 * g.jj + c.2.2 * g.kk)
    (fun c (s : TendArrays F × F) => (s.1.set (c.1 + c.2.1 * g.jj + c.2.2 * g.kk)
      (accretion_cell M (f.cell g c.1 c.2.1 c.2.2)
        (s.1.get (c.1 + c.2.1 * g.jj + c.2.2 * g.kk))),
      cfl_cell M dt (f.cell g c.1 c.2.1 c.2.2) s.2))
    (fun c s => accretion_cell M (f.cell g c.1 c.2.1 c.2.2)
      (s.1.get (c.1 + c.2.1 * g.jj + c.2.2 * g.kk))) Set.univ
    (fun c s x => TendArrays.get_set _ _ _ _)
    (cells3 g) (fun c _ s s' e _ => by simp only [e])
    (fun _ _ => Set.mem_univ _) hg.nodup_ijk (t, 0)
  constructor
  · intro i j k hb hk1 hk2
    exact h1 (i, j, k) (mem_cells3.2 ⟨hb, hk1, hk2⟩)
  · intro n hn
    apply h2
    simp only [List.mem_map, not_exists, not_and]
    intro c hc heq
    obtain ⟨hb, hk1, hk2⟩ := mem_cells3.1 hc
    exact hn ⟨_, _, _, hb, hk1, hk2, heq.symm⟩

theorem sed_qct_outside {g : Grid} (hg : g.WellFormed) (M : Env F) (s : SedArrays F)
    (qc rho dzi dz : Int → F) (dt a_c b_c c_c d_c N_0c qc_min : F) (n : Int)
    (hn : ¬ g.interior n) :
    (sedimentation_ss08 M s qc rho dzi dz dt a_c b_c c_c d_c N_0c qc_min g).qct n = s.qct n :=
  (loop3_modify hg (fun i j k v => v + sed_tend
    (sedimentation_ss08 M s qc rho dzi dz dt a_c b_c c_c d_c N_0c qc_min g).flux_qc
    rho dzi g i j k) s.qct).2 n (fun i j k hb h1 h2 heq => hn ⟨i, j, k, hb, h1, h2, heq⟩)

theorem sed_rc_bot_outside {g : Grid} (hg : g.WellFormed) (M : Env F) (s : SedArrays F)
    (qc rho dzi dz : Int → F) (dt a_c b_c c_c d_c N_0c qc_min : F) (n : Int)
    (hn : ∀ i j, g.inBox i j → n ≠ i + j * g.jj) :
    (sedimentation_ss08 M s qc rho dzi dz dt a_c b_c c_c d_c N_0c qc_min g).rc_bot n
      = s.rc_bot n := by
  have h := (loop2_store hg 0 (fun i j _ =>
    -(sedimentation_ss08 M s qc rho dzi dz dt a_c b_c c_c d_c N_0c qc_min g).flux_qc
      (i + j * g.jj + g.kstart * g.kk)) s.rc_bot (fun _ _ _ _ _ _ => rfl)).2 n
    (fun i j hb => by simpa using hn i j hb)
  simp only [add_zero] at h
  exact h

end FrameLemmas

/-! ## Frame conditions -/

section FrameClaims

variable {F : Type} [LinearOrderedField F]

/-- C14. The kernels only add to the tendency arrays. For two initial contents
of the tendency arrays and the same inputs, the increments (final minus
initial) of `autoconversion`, of `accretion_and_phase_changes` and of
`sedimentation_ss08` are the same in every element, and the elements that are
not interior cells are unchanged.  The prognostic inputs are parameters of the
kernels and not part of what they return. -/
theorem kernels_only_add (M : Env F) (f : Fields F) (N_d dt : F) (g : Grid)
    (hg : g.WellFormed) (t t' : TendArrays F) (cfl_out cfl_out' : F) (s : SedArrays F)
    (qct' qc rho dzi dz : Int → F) (a_c b_c c_c d_c N_0c qc_min : F) :
    (∀ n, Tend.sub ((autoconversion M t f N_d g).get n) (t.get n)
      = Tend.sub ((autoconversion M t' f N_d g).get n) (t'.get n)) ∧
    (∀ n, ¬ g.interior n → (autoconversion M t f N_d g).get n = t.get n) ∧
    (∀ n, Tend.sub ((accretion_and_phase_changes M t cfl_out f dt g).1.get n) (t.get n)
      = Tend.sub ((accretion_and_phase_changes M t' cfl_out' f dt g).1.get n) (t'.get n)) ∧
    (∀ n, ¬ g.interior n →
      (accretion_and_phase_changes M t cfl_out f dt g).1.get n = t.get n) ∧
    (∀ n, (sedimentation_ss08 M s qc rho dzi dz dt a_c b_c c_c d_c N_0c qc_min g).qct n
        - s.qct n
      = (sedimentation_ss08 M { s with qct := qct' } qc rho dzi dz dt a_c b_c c_c d_c N_0c
          qc_min g).qct n - qct' n) ∧
    (∀ n, ¬ g.interior n →
      (sedimentation_ss08 M s qc rho dzi dz dt a_c b_c c_c d_c N_0c qc_min g).qct n
        = s.qct n) := by
  refine ⟨?_, autoconversion_outside hg M t f N_d, ?_,
    (accretion_get hg M t cfl_out f dt).2, ?_,
    sed_qct_outside hg M s qc rho dzi dz dt a_c b_c c_c d_c N_0c qc_min⟩
  · intro n
    by_cases hn : g.interior n
    · obtain ⟨i, j, k, hb, hk1, hk2, rfl⟩ := hn
      rw [autoconversion_get hg M t f N_d hb hk1 hk2,
        autoconversion_get hg M t' f N_d hb hk1 hk2]
      exact autoconversion_cell_incr M N_d _ _ _
    · rw [autoconversion_outside hg M t f N_d n hn, autoconversion_outside hg M t' f N_d n hn]
      simp [Tend.sub]
  · intro n
    by_cases hn : g.interior n
    · obtain ⟨i, j, k, hb, hk1, hk2, rfl⟩ := hn
      rw [(accretion_get hg M t cfl_out f dt).1 i j k hb hk1 hk2,
        (accretion_get hg M t' cfl_out' f dt).1 i j k hb hk1 hk2]
      exact accretion_cell_incr M _ _ _
    · rw [(accretion_get hg M t cfl_out f dt).2 n hn,
        (accretion_get hg M t' cfl_out' f dt).2 n hn]
      simp [Tend.sub]
  · intro n
    by_cases hn : g.interior n
    · obtain ⟨i, j, k, hb, hk1, hk2, rfl⟩ := hn
      rw [sed_qct_interior hg M s qc rho dzi dz dt a_c b_c c_c d_c N_0c qc_min hb hk1 hk2,
        sed_qct_interior hg M _ qc rho dzi dz dt a_c b_c c_c d_c N_0c qc_min hb hk1 hk2]
      simp only [add_sub_cancel_left]
      rfl
    · rw [sed_qct_outside hg M s qc rho dzi dz dt a_c b_c c_c d_c N_0c qc_min n hn,
        sed_qct_outside hg M _ qc rho dzi dz dt a_c b_c c_c d_c N_0c qc_min n hn]
      simp

/-- C14, for the increments of `accretion_and_phase_changes` in the cell
`(1, 1, 1)` of `grid1`, from tendencies of 1 and of 2. -/
theorem kernels_only_add_witness :
    Tend.sub ((accretion_and_phase_changes ratEnv tendOnes 0 fieldsMixed 1 grid1).1.get 13)
        (tendOnes.get 13)
      = Tend.sub ((accretion_and_phase_changes ratEnv tendTwos 5 fieldsMixed 1 grid1).1.get 13)
        (tendTwos.get 13) :=
  (kernels_only_add ratEnv fieldsMixed 50000000 1 grid1 grid1_wellFormed tendOnes tendTwos 0 5
    sedZero (fun _ => 3) qcTop (fun _ => 1) (fun _ => 1 / 100) (fun _ => 100) 500 0 130 1
    8000000 (1 / 1000000000000)).2.2.1 13

/-- C16. Presence flags are strict comparisons with the species thresholds
(`ql, qi > 1e-7`; `qr, qs, qg > 1e-12`): in an interior cell where all five
mixing ratios are at or below their thresholds, `autoconversion` and
`accretion_and_phase_changes` leave the five tendencies of the cell unchanged,
whatever the computed rates are. -/
theorem absent_cell_unchanged (M : Env F) (t : TendArrays F) (cfl_out : F) (f : Fields F)
    (N_d dt : F) (g : Grid) (hg : g.WellFormed) (i j k : Int) (hb : g.inBox i j)
    (hk1 : g.kstart ≤ k) (hk2 : k < g.kend)
    (hl : f.ql (i + j * g.jj + k * g.kk) ≤ 1e-7)
    (hi : f.qi (i + j * g.jj + k * g.kk) ≤ 1e-7)
    (hr : f.qr (i + j * g.jj + k * g.kk) ≤ 1e-12)
    (hs : f.qs (i + j * g.jj + k * g.kk) ≤ 1e-12)
    (hgr : f.qg (i + j * g.jj + k * g.kk) ≤ 1e-12) :
    (autoconversion M t f N_d g).get (i + j * g.jj + k * g.kk)
      = t.get (i + j * g.jj + k * g.kk) ∧
    (accretion_and_phase_changes M t cfl_out f dt g).1.get (i + j * g.jj + k * g.kk)
      = t.get (i + j * g.jj + k * g.kk) ∧
    (((f.cell g i j k).has_liq ↔ f.ql (i + j * g.jj + k * g.kk) > 1e-7) ∧
      ((f.cell g i j k).has_ice ↔ f.qi (i + j * g.jj + k * g.kk) > 1e-7) ∧
      ((f.cell g i j k).has_rain ↔ f.qr (i + j * g.jj + k * g.kk) > 1e-12) ∧
      ((f.cell g i j k).has_snow ↔ f.qs (i + j * g.jj + k * g.kk) > 1e-12) ∧
      ((f.cell g i j k).has_graupel ↔ f.qg (i + j * g.jj + k * g.kk) > 1e-12)) := by
  have h1 : ¬ (f.cell g i j k).has_liq := not_lt.2 hl
  have h2 : ¬ (f.cell g i j k).has_ice := not_lt.2 hi
  have h3 : ¬ (f.cell g i j k).has_rain := not_lt.2 hr
  have h4 : ¬ (f.cell g i j k).has_snow := not_lt.2 hs
  have h5 : ¬ (f.cell g i j k).has_graupel := not_lt.2 hgr
  refine ⟨?_, ?_, Iff.rfl, Iff.rfl, Iff.rfl, Iff.rfl, Iff.rfl⟩
  · rw [autoconversion_get hg M t f N_d hb hk1 hk2,
      autoconversion_cell_of_absent M N_d _ _ h1 h2 h4]
  · rw [(accretion_get hg M t cfl_out f dt).1 i j k hb hk1 hk2,
      accretion_cell_of_absent M _ _ h1 h2 h3 h4 h5]

/-- C16, at the cell `(1, 1, 1)` of `grid1` with every mixing ratio exactly at
its threshold. -/
theorem absent_cell_unchanged_witness :
    (autoconversion ratEnv tendOnes fieldsThreshold 50000000 grid1).get
        (1 + 1 * grid1.jj + 1 * grid1.kk)
      = tendOnes.get (1 + 1 * grid1.jj + 1 * grid1.kk) ∧
    (accretion_and_phase_changes ratEnv tendOnes 0 fieldsThreshold 1 grid1).1.get
        (1 + 1 * grid1.jj + 1 * grid1.kk)
      = tendOnes.get (1 + 1 * grid1.jj + 1 * grid1.kk) :=
  ⟨(absent_cell_unchanged ratEnv tendOnes 0 fieldsThreshold 50000000 1 grid1 grid1_wellFormed
      1 1 1 grid1_inBox (by decide) (by decide) (by norm_num [fieldsThreshold])
      (by norm_num [fieldsThreshold]) (by norm_num [fieldsThreshold])
      (by norm_num [fieldsThreshold]) (by norm_num [fieldsThreshold])).1,
    (absent_cell_unchanged ratEnv tendOnes 0 fieldsThreshold 50000000 1 grid1 grid1_wellFormed
      1 1 1 grid1_inBox (by decide) (by decide) (by norm_num [fieldsThreshold])
      (by norm_num [fieldsThreshold]) (by norm_num [fieldsThreshold])
      (by norm_num [fieldsThreshold]) (by norm_num [fieldsThreshold])).2.1⟩

/-- The interface fluxes of a visited column do not depend on the initial
contents of the arrays that `sedimentation_ss08` writes. -/
theorem sed_flux_scratch_independent {g : Grid} (hg : g.WellFormed) (M : Env F)
    (s s' : SedArrays F) (qc rho dzi dz : Int → F) (dt a_c b_c c_c d_c N_0c qc_min : F)
    {i j : Int} (hb : g.inBox i j) :
    ∀ k, g.kstart ≤ k → k ≤ g.kend →
      (sedimentation_ss08 M s qc rho dzi dz dt a_c b_c c_c d_c N_0c qc_min g).flux_qc
        (i + j * g.jj + k * g.kk)
      = (sedimentation_ss08 M s' qc rho dzi dz dt a_c b_c c_c d_c N_0c qc_min g).flux_qc
        (i + j * g.jj + k * g.kk) := by
  refine int_down_induction (fun k =>
    (sedimentation_ss08 M s qc rho dzi dz dt a_c b_c c_c d_c N_0c qc_min g).flux_qc
      (i + j * g.jj + k * g.kk)
    = (sedimentation_ss08 M s' qc rho dzi dz dt a_c b_c c_c d_c N_0c qc_min g).flux_qc
      (i + j * g.jj + k * g.kk)) g.kstart g.kend ?_ ?_
  · beta_reduce
    rw [sed_flux_top hg M s qc rho dzi dz dt a_c b_c c_c d_c N_0c qc_min hb,
      sed_flux_top hg M s' qc rho dzi dz dt a_c b_c c_c d_c N_0c qc_min hb]
  · intro k hk1 hk2 ih
    beta_reduce at ih ⊢
    have hc : ∀ k', k ≤ k' → k' < g.kend →
        (sedimentation_ss08 M s qc rho dzi dz dt a_c b_c c_c d_c N_0c qc_min g).c_qc
          (i + j * g.jj + k' * g.kk)
        = (sedimentation_ss08 M s' qc rho dzi dz dt a_c b_c c_c d_c N_0c qc_min g).c_qc
          (i + j * g.jj + k' * g.kk) := by
      intro k' h1 h2
      rw [sed_c_stencil hg M s qc rho dzi dz dt a_c b_c c_c d_c N_0c qc_min hb (by omega) h2,
        sed_c_stencil hg M s' qc rho dzi dz dt a_c b_c c_c d_c N_0c qc_min hb (by omega) h2]
    have hsl : ∀ k', k ≤ k' → k' < g.kend →
        (sedimentation_ss08 M s qc rho dzi dz dt a_c b_c c_c d_c N_0c qc_min g).slope_qc
          (i + j * g.jj + k' * g.kk)
        = (sedimentation_ss08 M s' qc rho dzi dz dt a_c b_c c_c d_c N_0c qc_min g).slope_qc
          (i + j * g.jj + k' * g.kk) := by
      intro k' h1 h2
      rw [sed_slope_interior hg M s qc rho dzi dz dt a_c b_c c_c d_c N_0c qc_min hb
          (by omega) h2,
        sed_slope_interior hg M s' qc rho dzi dz dt a_c b_c c_c d_c N_0c qc_min hb
          (by omega) h2]
    rw [sed_flux_interior hg M s qc rho dzi dz dt a_c b_c c_c d_c N_0c qc_min hb hk1 hk2,
      sed_flux_interior hg M s' qc rho dzi dz dt a_c b_c c_c d_c N_0c qc_min hb hk1 hk2]
    unfold sed_flux sed_ftot
    simp only []
    have e : i + j * g.jj + k * g.kk + g.kk = i + j * g.jj + (k + 1) * g.kk := by ring
    rw [e, ih, hc k le_rfl hk2, flux_sweep_congr qc _ _ _ _ rho dzi dz g i j k 0 0 _ hsl hc]

/-- C17. The tendency and the surface rate that `sedimentation_ss08` returns
do not depend on the initial contents of the four scratch buffers `w_qc`,
`c_qc`, `slope_qc` and `flux_qc`; therefore what `exec` returns does not depend
on the contents of the scratch fields `tmp1 .. tmp4`, and the snow and graupel
calls are unaffected by what the previous species left in them. -/
theorem sedimentation_scratch_independent (M : Env F) (g : Grid) (hg : g.WellFormed)
    (s s' : SedArrays F) (hqct : s.qct = s'.qct) (hrc : s.rc_bot = s'.rc_bot)
    (qc rho dzi dz : Int → F) (dt a_c b_c c_c d_c N_0c qc_min : F) :
    (sedimentation_ss08 M s qc rho dzi dz dt a_c b_c c_c d_c N_0c qc_min g).qct
      = (sedimentation_ss08 M s' qc rho dzi dz dt a_c b_c c_c d_c N_0c qc_min g).qct ∧
    (sedimentation_ss08 M s qc rho dzi dz dt a_c b_c c_c d_c N_0c qc_min g).rc_bot
      = (sedimentation_ss08 M s' qc rho dzi dz dt a_c b_c c_c d_c N_0c qc_min g).rc_bot ∧
    (∀ (this : Microphys_nsw6 F) (st : TendArrays F) (f : Fields F)
      (tmp1 tmp2 tmp3 tmp4 tmp1' tmp2' tmp3' tmp4' : Int → F),
      exec M this st f dz tmp1 tmp2 tmp3 tmp4 dt g
        = exec M this st f dz tmp1' tmp2' tmp3' tmp4' dt g) := by
  have key : ∀ (u u' : SedArrays F) (q r z zi : Int → F) (a b c d n0 qm : F),
      u.qct = u'.qct → u.rc_bot = u'.rc_bot →
      (sedimentation_ss08 M u q r zi z dt a b c d n0 qm g).qct
        = (sedimentation_ss08 M u' q r zi z dt a b c d n0 qm g).qct ∧
      (sedimentation_ss08 M u q r zi z dt a b c d n0 qm g).rc_bot
        = (sedimentation_ss08 M u' q r zi z dt a b c d n0 qm g).rc_bot := by
    intro u u' q r z zi a b c d n0 qm h1 h2
    constructor
    · funext n
      by_cases hn : g.interior n
      · obtain ⟨i, j, k, hb, hk1, hk2, rfl⟩ := hn
        rw [sed_qct_interior hg M u q r zi z dt a b c d n0 qm hb hk1 hk2,
          sed_qct_interior hg M u' q r zi z dt a b c d n0 qm hb hk1 hk2, h1]
        unfold sed_tend
        simp only []
        have e : i + j * g.jj + k * g.kk + g.kk = i + j * g.jj + (k + 1) * g.kk := by ring
        rw [e, sed_flux_scratch_independent hg M u u' q r zi z dt a b c d n0 qm hb k hk1 hk2.le,
          sed_flux_scratch_independent hg M u u' q r zi z dt a b c d n0 qm hb (k + 1)
            (by omega) (by omega)]
      · rw [sed_qct_outside hg M u q r zi z dt a b c d n0 qm n hn,
          sed_qct_outside hg M u' q r zi z dt a b c d n0 qm n hn, h1]
    · funext n
      by_cases hn : ∃ i j, g.inBox i j ∧ n = i + j * g.jj
      · obtain ⟨i, j, hb, rfl⟩ := hn
        rw [sed_rc_bot hg M u q r zi z dt a b c d n0 qm hb,
          sed_rc_bot hg M u' q r zi z dt a b c d n0 qm hb,
          sed_flux_scratch_independent hg M u u' q r zi z dt a b c d n0 qm hb g.kstart le_rfl
            hg.kstart_le]
      · rw [sed_rc_bot_outside hg M u q r zi z dt a b c d n0 qm n
            (fun i j hb heq => hn ⟨i, j, hb, heq⟩),
          sed_rc_bot_outside hg M u' q r zi z dt a b c d n0 qm n
            (fun i j hb heq => hn ⟨i, j, hb, heq⟩), h2]
  refine ⟨(key s s' qc rho dz dzi a_c b_c c_c d_c N_0c qc_min hqct hrc).1,
    (key s s' qc rho dz dzi a_c b_c c_c d_c N_0c qc_min hqct hrc).2, ?_⟩
  intro this st f tmp1 tmp2 tmp3 tmp4 tmp1' tmp2' tmp3' tmp4'
  simp only [exec, Prod.mk.injEq, Microphys_nsw6.mk.injEq, TendArrays.mk.injEq, true_and,
    and_true]
  exact ⟨⟨(key _ _ _ _ _ _ _ _ _ _ _ _ (by rfl) (by rfl)).2,
      (key _ _ _ _ _ _ _ _ _ _ _ _ (by rfl) (by rfl)).2,
      (key _ _ _ _ _ _ _ _ _ _ _ _ (by rfl) (by rfl)).2⟩,
    (key _ _ _ _ _ _ _ _ _ _ _ _ (by rfl) (by rfl)).1,
    (key _ _ _ _ _ _ _ _ _ _ _ _ (by rfl) (by rfl)).1,
    (key _ _ _ _ _ _ _ _ _ _ _ _ (by rfl) (by rfl)).1⟩

/-- C17, on `grid1`: the scratch buffers of `sedStale` differ from those of
`sedZero`, the tendency and the surface rate that come out are the same, and
`exec` is the same for any two sets of scratch buffers. -/
theorem sedimentation_scratch_independent_witness :
    sedZero.w_qc ≠ sedStale.w_qc ∧
    (sedimentation_ss08 ratEnv sedZero qcTop (fun _ => 1) (fun _ => 1 / 100)
        (fun _ => 100) 1 500 0 130 1 8000000 (1 / 1000000000000) grid1).qct
      = (sedimentation_ss08 ratEnv sedStale qcTop (fun _ => 1) (fun _ => 1 / 100)
        (fun _ => 100) 1 500 0 130 1 8000000 (1 / 1000000000000) grid1).qct ∧
    (sedimentation_ss08 ratEnv sedZero qcTop (fun _ => 1) (fun _ => 1 / 100)
        (fun _ => 100) 1 500 0 130 1 8000000 (1 / 1000000000000) grid1).rc_bot
      = (sedimentation_ss08 ratEnv sedStale qcTop (fun _ => 1) (fun _ => 1 / 100)
        (fun _ => 100) 1 500 0 130 1 8000000 (1 / 1000000000000) grid1).rc_bot ∧
    (∀ (this : Microphys_nsw6 ℚ) (st : TendArrays ℚ) (f : Fields ℚ)
      (tmp1 tmp2 tmp3 tmp4 tmp1' tmp2' tmp3' tmp4' : Int → ℚ),
      exec ratEnv this st f (fun _ => 100) tmp1 tmp2 tmp3 tmp4 1 grid1
        = exec ratEnv this st f (fun _ => 100) tmp1' tmp2' tmp3' tmp4' 1 grid1) :=
  ⟨fun h => absurd (congrFun h 0) (by norm_num [sedZero, sedStale]),
    sedimentation_scratch_independent ratEnv grid1 grid1_wellFormed sedZero sedStale rfl rfl
      qcTop (fun _ => 1) (fun _ => 1 / 100) (fun _ => 100) 1 500 0 130 1 8000000
      (1 / 1000000000000)⟩

end FrameClaims

/-! ## The fall speed behind the reported Courant number -/

section VelocityClaims

variable {F : Type} [LinearOrderedField F]

/-- Two fall speeds of the form `C * pow (pow X e) (-d)` with a positive factor
`C` and nonzero exponents differ when the positive bases `X` differ. -/
theorem fall_speed_ne (M : Env F)
    (hpos : ∀ x y, 0 < x → 0 < M.pow x y)
    (hinj : ∀ x x' y, 0 < x → 0 < x' → y ≠ 0 → M.pow x y = M.pow x' y → x = x')
    {C X X' e d : F} (hC : 0 < C) (hX : 0 < X) (hX' : 0 < X') (he : e ≠ 0) (hd : d ≠ 0)
    (hne : X ≠ X') :
    C * M.pow (M.pow X e) (-d) ≠ C * M.pow (M.pow X' e) (-d) := by
  intro h
  have h1 := mul_left_cancel₀ hC.ne' h
  have h2 := hinj _ _ _ (hpos X e hX) (hpos X' e hX') (neg_ne_zero.mpr hd) h1
  exact hne (hinj _ _ _ hX hX' he h2)

/-- C11. In a cell where the species is present, the terminal velocity behind
the Courant number that `accretion_and_phase_changes` reports is the fall speed
of `sedimentation_ss08` for rain; for snow and for graupel it is the fall speed
that `sedimentation_ss08` would compute with the intercept `N_0r` of rain, and,
for a positive density and a `pow` that is positive and injective in a positive
base, it differs from the fall speed computed with the intercept `N_0s`
resp. `N_0g` that `exec` passes. -/
theorem cfl_velocity_uses_rain_intercept (M : Env F) (f : Fields F) (g : Grid) (i j k : Int)
    (hpi : 0 < M.M_PI) (hsqrt : ∀ x, 0 < x → 0 < M.sqrt x)
    (htg : ∀ x, 0 < x → 0 < M.tgamma x)
    (hpos : ∀ x y, 0 < x → 0 < M.pow x y)
    (hinj : ∀ x x' y, 0 < x → 0 < x' → y ≠ 0 → M.pow x y = M.pow x' y → x = x')
    (hrho : ∀ k, 0 < f.rho k) :
    ((f.cell g i j k).has_rain →
      V_Tr M (f.cell g i j k) = sed_velocity M f.qr f.rho (a_r M) b_r c_r d_r N_0r qr_min g i j k) ∧
    ((f.cell g i j k).has_snow →
      V_Ts M (f.cell g i j k) = sed_velocity M f.qs f.rho (a_s M) b_s c_s d_s N_0r qs_min g i j k ∧
      V_Ts M (f.cell g i j k)
        ≠ sed_velocity M f.qs f.rho (a_s M) b_s c_s d_s N_0s qs_min g i j k) ∧
    ((f.cell g i j k).has_graupel →
      V_Tg M (f.cell g i j k) = sed_velocity M f.qg f.rho (a_g M) b_g c_g d_g N_0r qg_min g i j k ∧
      V_Tg M (f.cell g i j k)
        ≠ sed_velocity M f.qg f.rho (a_g M) b_g c_g d_g N_0g qg_min g i j k) := by
  have hr0 : 0 < M.sqrt (f.rho g.kstart / f.rho k) := hsqrt _ (div_pos (hrho _) (hrho k))
  refine ⟨?_, ?_, ?_⟩
  · intro h
    have h' : f.qr (i + j * g.jj + k * g.kk) > qr_min := h
    simp only [V_Tr, lambda_r, rho0_rho_sqrt, Fields.cell, sed_velocity, if_pos h']
  · intro h
    have h' : f.qs (i + j * g.jj + k * g.kk) > qs_min := h
    have hq : 0 < f.qs (i + j * g.jj + k * g.kk) :=
      lt_trans (by norm_num [qs_min]) h'
    have hC : 0 < c_s * M.sqrt (f.rho g.kstart / f.rho k) * M.tgamma (b_s + d_s + 1)
        / M.tgamma (b_s + 1) :=
      div_pos (mul_pos (mul_pos (by norm_num [c_s]) hr0) (htg _ (by norm_num [b_s, d_s])))
        (htg _ (by norm_num [b_s]))
    have hA : 0 < a_s M * M.tgamma (b_s + 1) / (f.rho k * f.qs (i + j * g.jj + k * g.kk)) :=
      div_pos (mul_pos (by unfold a_s rho_s; positivity) (htg _ (by norm_num [b_s])))
        (mul_pos (hrho k) hq)
    refine ⟨?_, ?_⟩
    · simp only [V_Ts, lambda_s, rho0_rho_sqrt, Fields.cell, sed_velocity, if_pos h']
    · simp only [V_Ts, lambda_s, rho0_rho_sqrt, Fields.cell, sed_velocity, if_pos h']
      refine fall_speed_ne M hpos hinj hC ?_ ?_ (by norm_num [b_s]) (by norm_num [d_s]) ?_
      · rw [show a_s M * N_0r * M.tgamma (b_s + 1) / (f.rho k * f.qs (i + j * g.jj + k * g.kk))
            = N_0r * (a_s M * M.tgamma (b_s + 1)
              / (f.rho k * f.qs (i + j * g.jj + k * g.kk))) by ring]
        exact mul_pos (by norm_num [N_0r]) hA
      · rw [show a_s M * N_0s * M.tgamma (b_s + 1) / (f.rho k * f.qs (i + j * g.jj + k * g.kk))
            = N_0s * (a_s M * M.tgamma (b_s + 1)
              / (f.rho k * f.qs (i + j * g.jj + k * g.kk))) by ring]
        exact mul_pos (by norm_num [N_0s]) hA
      · intro e
        have e' : N_0r * (a_s M * M.tgamma (b_s + 1)
              / (f.rho k * f.qs (i + j * g.jj + k * g.kk)))
            = N_0s * (a_s M * M.tgamma (b_s + 1)
              / (f.rho k * f.qs (i + j * g.jj + k * g.kk))) := by
          linear_combination e
        have := mul_right_cancel₀ hA.ne' e'
        norm_num [N_0r, N_0s] at this
  · intro h
    have h' : f.qg (i + j * g.jj + k * g.kk) > qg_min := h
    have hq : 0 < f.qg (i + j * g.jj + k * g.kk) :=
      lt_trans (by norm_num [qg_min]) h'
    have hC : 0 < c_g * M.sqrt (f.rho g.kstart / f.rho k) * M.tgamma (b_g + d_g + 1)
        / M.tgamma (b_g + 1) :=
      div_pos (mul_pos (mul_pos (by norm_num [c_g]) hr0) (htg _ (by norm_num [b_g, d_g])))
        (htg _ (by norm_num [b_g]))
    have hA : 0 < a_g M * M.tgamma (b_g + 1) / (f.rho k * f.qg (i + j * g.jj + k * g.kk)) :=
      div_pos (mul_pos (by unfold a_g rho_g; positivity) (htg _ (by norm_num [b_g])))
        (mul_pos (hrho k) hq)
    refine ⟨?_, ?_⟩
    · simp only [V_Tg, lambda_g, rho0_rho_sqrt, Fields.cell, sed_velocity, if_pos h']
    · simp only [V_Tg, lambda_g, rho0_rho_sqrt, Fields.cell, sed_velocity, if_pos h']
      refine fall_speed_ne M hpos hinj hC ?_ ?_ (by norm_num [b_g]) (by norm_num [d_g]) ?_
      · rw [show a_g M * N_0r * M.tgamma (b_g + 1) / (f.rho k * f.qg (i + j * g.jj + k * g.kk))
            = N_0r * (a_g M * M.tgamma (b_g + 1)
              / (f.rho k * f.qg (i + j * g.jj + k * g.kk))) by ring]
        exact mul_pos (by norm_num [N_0r]) hA
      · rw [show a_g M * N_0g * M.tgamma (b_g + 1) / (f.rho k * f.qg (i + j * g.jj + k * g.kk))
            = N_0g * (a_g M * M.tgamma (b_g + 1)
              / (f.rho k * f.qg (i + j * g.jj + k * g.kk))) by ring]
        exact mul_pos (by norm_num [N_0g]) hA
      · intro e
        have e' : N_0r * (a_g M * M.tgamma (b_g + 1)
              / (f.rho k * f.qg (i + j * g.jj + k * g.kk)))
            = N_0g * (a_g M * M.tgamma (b_g + 1)
              / (f.rho k * f.qg (i + j * g.jj + k * g.kk))) := by
          linear_combination e
        have := mul_right_cancel₀ hA.ne' e'
        norm_num [N_0r, N_0g] at this

/-- The stand-in `pow` of `ratEnvLin` is positive on a positive base. -/
theorem ratEnvLin_pow_pos : ∀ x y : ℚ, 0 < x → 0 < ratEnvLin.pow x y := by
  intro x y hx
  simp only [ratEnvLin]
  split_ifs
  · exact one_pos
  · exact hx

/-- The stand-in `pow` of `ratEnvLin` is injective in its base for a nonzero
exponent. -/
theorem ratEnvLin_pow_inj : ∀ x x' y : ℚ, 0 < x → 0 < x' → y ≠ 0 →
    ratEnvLin.pow x y = ratEnvLin.pow x' y → x = x' := by
  intro x x' y _ _ hy h
  simpa only [ratEnvLin, if_neg hy] using h

/-- The stand-in `tgamma` of `ratEnvLin` is positive. -/
theorem ratEnvLin_tgamma_pos : ∀ x : ℚ, 0 < x → 0 < ratEnvLin.tgamma x := by
  intro x _
  simp only [ratEnvLin, ratEnv]
  split_ifs <;> norm_num

/-- C11, in the lower cell of `grid1` with rain, snow and graupel of `1e-3` at
unit density: the snow velocity behind the reported Courant number is not the
fall speed that the sedimentation of snow computes. -/
theorem cfl_velocity_uses_rain_intercept_witness :
    (fieldsMixed.cell grid1 1 1 1).has_snow ∧
    V_Ts ratEnvLin (fieldsMixed.cell grid1 1 1 1)
      ≠ sed_velocity ratEnvLin fieldsMixed.qs fieldsMixed.rho (a_s ratEnvLin) b_s c_s d_s N_0s
        qs_min grid1 1 1 1 :=
  ⟨by norm_num [Cell.has_snow, Fields.cell, fieldsMixed, qs_min],
    ((cfl_velocity_uses_rain_intercept ratEnvLin fieldsMixed grid1 1 1 1
      (by norm_num [ratEnvLin, ratEnv]) (fun x hx => by simpa [ratEnvLin, ratEnv] using hx)
      ratEnvLin_tgamma_pos ratEnvLin_pow_pos ratEnvLin_pow_inj
      (fun _ => by norm_num [fieldsMixed])).2.1
      (by norm_num [Cell.has_snow, Fields.cell, fieldsMixed, qs_min])).2⟩

end VelocityClaims

/-! ## Sedimentation: the accumulated flux over two cells -/

section TwoCellClaims

variable {F : Type} [LinearOrderedField F]

/-- The cumulative flux when the loop takes the whole donor cell and stops in
the cell above: `1 < c_qc[ijk] <= 2` on a uniformly spaced grid. -/
theorem sed_ftot_double (qc slope_qc c_qc rho dzi dz : Int → F) (g : Grid) (i j k : Int)
    (hk : k + 1 < g.kend) (huni1 : dz k * dzi (k + 1) = 1)
    (huni2 : (dz k + dz (k + 1)) * dzi (k + 2) = 2)
    (hc1 : 1 < c_qc (i + j * g.jj + k * g.kk)) (hc2 : c_qc (i + j * g.jj + k * g.kk) ≤ 2)
    (hc3 : c_qc (i + j * g.jj + (k + 1) * g.kk) ≤ 2) :
    sed_ftot qc slope_qc c_qc rho dzi dz g i j k
      = rho k * qc (i + j * g.jj + k * g.kk) * dz k
        + rho (k + 1) * (qc (i + j * g.jj + (k + 1) * g.kk)
          + 0.5 * slope_qc (i + j * g.jj + (k + 1) * g.kk)
            * (2 - c_qc (i + j * g.jj + k * g.kk)))
          * (c_qc (i + j * g.jj + k * g.kk) - 1) * dz (k + 1) := by
  unfold sed_ftot
  simp only []
  rw [min_eq_left hc1.le, flux_sweep_step _ _ _ _ _ _ _ _ _ _ _ _ _ one_pos (by omega)]
  have e1 : min 1 (c_qc (i + j * g.jj + k * g.kk) - (0 + dz k) * dzi (k + 1))
      = c_qc (i + j * g.jj + k * g.kk) - 1 := by
    rw [zero_add, huni1]
    exact min_eq_right (by linarith)
  rw [e1, flux_sweep_step _ _ _ _ _ _ _ _ _ _ _ _ _ (by linarith) hk, flux_sweep_of_nonpos]
  · ring
  · have e2 : k + 1 + 1 = k + 2 := by ring
    rw [zero_add, e2, huni2]
    exact le_trans (min_le_right _ _) (by linarith)

/-- C21. On a uniformly spaced grid (`dz[k]*dzi[k+1] = 1` and
`(dz[k] + dz[k+1])*dzi[k+2] = 2`), if `1 < c_qc[k] <= 2`, `k+1 < kend` and
`c_qc[k+1] <= 2`, the cumulative flux before the clip is the whole donor cell
plus the fraction `c - 1` of the cell above:
`rho[k]*q[k]*dz[k] + rho[k+1]*(q[k+1] + 0.5*slope[k+1]*(2 - c))*(c - 1)*dz[k+1]`
with `c = c_qc[k]`. -/
theorem sed_ftot_of_cfl_le_two (M : Env F) (s : SedArrays F) (qc rho dzi dz : Int → F)
    (dt a_c b_c c_c d_c N_0c qc_min : F) (g : Grid) (i j k : Int) (hk2 : k + 1 < g.kend)
    (huni1 : dz k * dzi (k + 1) = 1) (huni2 : (dz k + dz (k + 1)) * dzi (k + 2) = 2)
    (hc1 : 1 < (sedimentation_ss08 M s qc rho dzi dz dt a_c b_c c_c d_c N_0c qc_min g).c_qc
      (i + j * g.jj + k * g.kk))
    (hc2 : (sedimentation_ss08 M s qc rho dzi dz dt a_c b_c c_c d_c N_0c qc_min g).c_qc
      (i + j * g.jj + k * g.kk) ≤ 2)
    (hc3 : (sedimentation_ss08 M s qc rho dzi dz dt a_c b_c c_c d_c N_0c qc_min g).c_qc
      (i + j * g.jj + (k + 1) * g.kk) ≤ 2) :
    sed_ftot qc
        (sedimentation_ss08 M s qc rho dzi dz dt a_c b_c c_c d_c N_0c qc_min g).slope_qc
        (sedimentation_ss08 M s qc rho dzi dz dt a_c b_c c_c d_c N_0c qc_min g).c_qc
        rho dzi dz g i j k
      = rho k * qc (i + j * g.jj + k * g.kk) * dz k
        + rho (k + 1) * (qc (i + j * g.jj + (k + 1) * g.kk) + 0.5 *
          (sedimentation_ss08 M s qc rho dzi dz dt a_c b_c c_c d_c N_0c qc_min g).slope_qc
            (i + j * g.jj + (k + 1) * g.kk) *
          (2 - (sedimentation_ss08 M s qc rho dzi dz dt a_c b_c c_c d_c N_0c qc_min g).c_qc
            (i + j * g.jj + k * g.kk))) *
          ((sedimentation_ss08 M s qc rho dzi dz dt a_c b_c c_c d_c N_0c qc_min g).c_qc
            (i + j * g.jj + k * g.kk) - 1) * dz (k + 1) :=
  sed_ftot_double qc _ _ rho dzi dz g i j k hk2 huni1 huni2 hc1 hc2 hc3

/-- The Courant number of the lower cell of `grid1` for rain in the lower cell,
100 m levels and `dt = 120/13`. -/
theorem qcLow_cfl_lower :
    (sedimentation_ss08 ratEnv sedZero qcLow (fun _ => 1) (fun _ => 1 / 100)
      (fun _ => 100) (120 / 13) (a_r ratEnv) b_r c_r d_r N_0r qr_min grid1).c_qc
      (1 + 1 * grid1.jj + 1 * grid1.kk) = 3 / 2 := by
  rw [sed_c_stencil grid1_wellFormed _ _ _ _ _ _ _ _ _ _ _ _ _ grid1_inBox
    (by decide : grid1.kstart ≤ 1) (by decide : (1 : Int) < grid1.kend)]
  norm_num [sed_velocity, ratEnv, qcLow, grid1, a_r, b_r, c_r, d_r, N_0r, qr_min, rho_w]

/-- The Courant number of the upper cell of `grid1` in the same setting. -/
theorem qcLow_cfl_upper :
    (sedimentation_ss08 ratEnv sedZero qcLow (fun _ => 1) (fun _ => 1 / 100)
      (fun _ => 100) (120 / 13) (a_r ratEnv) b_r c_r d_r N_0r qr_min grid1).c_qc
      (1 + 1 * grid1.jj + (1 + 1) * grid1.kk) = 1 / 2 := by
  rw [sed_c_stencil grid1_wellFormed _ _ _ _ _ _ _ _ _ _ _ _ _ grid1_inBox
    (by decide : grid1.kstart ≤ 1 + 1) (by decide : (1 + 1 : Int) < grid1.kend)]
  norm_num [sed_velocity, ratEnv, qcLow, grid1, a_r, b_r, c_r, d_r, N_0r, qr_min, rho_w]

/-- C21, at the lower cell of the column of `grid1`, where `c_qc = 3/2` and the
cell above has `c_qc = 1/2`: the cumulative flux is the content `1e-3 * 100` of
the donor cell. -/
theorem sed_ftot_of_cfl_le_two_witness :
    sed_ftot qcLow
        (sedimentation_ss08 ratEnv sedZero qcLow (fun _ => 1) (fun _ => 1 / 100)
          (fun _ => 100) (120 / 13) (a_r ratEnv) b_r c_r d_r N_0r qr_min grid1).slope_qc
        (sedimentation_ss08 ratEnv sedZero qcLow (fun _ => 1) (fun _ => 1 / 100)
          (fun _ => 100) (120 / 13) (a_r ratEnv) b_r c_r d_r N_0r qr_min grid1).c_qc
        (fun _ => 1) (fun _ => 1 / 100) (fun _ => 100) grid1 1 1 1
      = 1 / 10 :=
  (sed_ftot_of_cfl_le_two ratEnv sedZero qcLow (fun _ => 1) (fun _ => 1 / 100)
    (fun _ => 100) (120 / 13) (a_r ratEnv) b_r c_r d_r N_0r qr_min grid1 1 1 1 (by decide)
    (by norm_num) (by norm_num) (by rw [qcLow_cfl_lower]; norm_num)
    (by rw [qcLow_cfl_lower]; norm_num) (by rw [qcLow_cfl_upper]; norm_num)).trans
    (by
      rw [qcLow_cfl_lower, sed_slope_interior grid1_wellFormed _ _ _ _ _ _ _ _ _ _ _ _ _
        grid1_inBox (by decide : grid1.kstart ≤ 1 + 1) (by decide : (1 + 1 : Int) < grid1.kend)]
      norm_num [sed_slope, ratEnv, minmod_std, qcLow, grid1])

end TwoCellClaims

/-! ## Sedimentation: direction of the fluxes and the Courant number stencil -/

section DirectionClaims

variable {F : Type} [LinearOrderedField F]

/-- C22. With `q >= 0` on the levels `kstart-1 .. kend` of a visited column,
`rho > 0`, `dz > 0`, `dt > 0` and the standard limiter, every interface flux
that `sedimentation_ss08` computes is `<= 0` (directed downward), and the
recorded surface rate `rc_bot` is `>= 0`. -/
theorem sedimentation_flux_downward (M : Env F) (s : SedArrays F) (qc rho dzi dz : Int → F)
    (dt a_c b_c c_c d_c N_0c qc_min : F) (g : Grid) (hg : g.WellFormed) (i j : Int)
    (hb : g.inBox i j) (hmm : ∀ a b, M.minmod a b = minmod_std a b) (hdt : 0 < dt)
    (hrho : ∀ k, g.kstart ≤ k → k < g.kend → 0 < rho k)
    (hdz : ∀ k, g.kstart ≤ k → k < g.kend → 0 < dz k)
    (hq : ∀ k, g.kstart - 1 ≤ k → k ≤ g.kend → 0 ≤ qc (i + j * g.jj + k * g.kk)) :
    (∀ k, g.kstart ≤ k → k ≤ g.kend →
      (sedimentation_ss08 M s qc rho dzi dz dt a_c b_c c_c d_c N_0c qc_min g).flux_qc
        (i + j * g.jj + k * g.kk) ≤ 0) ∧
    0 ≤ (sedimentation_ss08 M s qc rho dzi dz dt a_c b_c c_c d_c N_0c qc_min g).rc_bot
      (i + j * g.jj) := by
  have h := sed_flux_nonpos hg M s qc rho dzi dz dt a_c b_c c_c d_c N_0c qc_min hb hmm hdt
    (fun k h1 h2 => (hrho k h1 h2).le) (fun k h1 h2 => (hdz k h1 h2).le)
    (fun k h1 h2 => hq k (by omega) h2)
  refine ⟨h, ?_⟩
  rw [sed_rc_bot hg M s qc rho dzi dz dt a_c b_c c_c d_c N_0c qc_min hb]
  exact neg_nonneg.mpr (h g.kstart le_rfl hg.kstart_le)

/-- C22, in the column of `grid1` with rain in the upper cell: the surface rate
is not negative. -/
theorem sedimentation_flux_downward_witness :
    0 ≤ (sedimentation_ss08 ratEnv sedZero qcTop (fun _ => 1) (fun _ => 1 / 100)
      (fun _ => 100) 1 500 0 130 1 8000000 (1 / 1000000000000) grid1).rc_bot
      (1 + 1 * grid1.jj) :=
  (sedimentation_flux_downward ratEnv sedZero qcTop (fun _ => 1) (fun _ => 1 / 100)
    (fun _ => 100) 1 500 0 130 1 8000000 (1 / 1000000000000) grid1 grid1_wellFormed 1 1
    grid1_inBox (fun _ _ => rfl) one_pos (fun _ _ _ => one_pos) (fun _ _ _ => by norm_num)
    (fun k _ _ => qcTop_nonneg _)).2

/-- C26. In a visited column with at least one interior level, after
`sedimentation_ss08` the ghost value of the fall speed below is
`w[kstart-1] = w[kstart]`, the ghost value above is `w[kend] = 0`, and the
Courant number at the interior level `k` is
`0.25*(w[k-1] + 2*w[k] + w[k+1])*dt*dzi[k]`; with at least two interior levels
it is `0.25*(3*w[kstart] + w[kstart+1])*dt*dzi[kstart]` at `k = kstart` and
`0.25*(w[kend-2] + 2*w[kend-1])*dt*dzi[kend-1]` at `k = kend-1`. -/
theorem sed_cfl_three_point (M : Env F) (s : SedArrays F) (qc rho dzi dz : Int → F)
    (dt a_c b_c c_c d_c N_0c qc_min : F) (g : Grid) (hg : g.WellFormed) (i j : Int)
    (hb : g.inBox i j) (hlt : g.kstart < g.kend) :
    (sedimentation_ss08 M s qc rho dzi dz dt a_c b_c c_c d_c N_0c qc_min g).w_qc
        (i + j * g.jj + (g.kstart - 1) * g.kk)
      = (sedimentation_ss08 M s qc rho dzi dz dt a_c b_c c_c d_c N_0c qc_min g).w_qc
        (i + j * g.jj + g.kstart * g.kk) ∧
    (sedimentation_ss08 M s qc rho dzi dz dt a_c b_c c_c d_c N_0c qc_min g).w_qc
        (i + j * g.jj + g.kend * g.kk) = 0 ∧
    (∀ k, g.kstart ≤ k → k < g.kend →
      (sedimentation_ss08 M s qc rho dzi dz dt a_c b_c c_c d_c N_0c qc_min g).c_qc
          (i + j * g.jj + k * g.kk)
        = 0.25 * ((sedimentation_ss08 M s qc rho dzi dz dt a_c b_c c_c d_c N_0c qc_min g).w_qc
              (i + j * g.jj + (k - 1) * g.kk)
            + 2 * (sedimentation_ss08 M s qc rho dzi dz dt a_c b_c c_c d_c N_0c qc_min g).w_qc
              (i + j * g.jj + k * g.kk)
            + (sedimentation_ss08 M s qc rho dzi dz dt a_c b_c c_c d_c N_0c qc_min g).w_qc
              (i + j * g.jj + (k + 1) * g.kk)) * dt * dzi k) ∧
    (g.kstart + 1 < g.kend →
      (sedimentation_ss08 M s qc rho dzi dz dt a_c b_c c_c d_c N_0c qc_min g).c_qc
          (i + j * g.jj + g.kstart * g.kk)
        = 0.25 * (3 * (sedimentation_ss08 M s qc rho dzi dz dt a_c b_c c_c d_c N_0c qc_min
              g).w_qc (i + j * g.jj + g.kstart * g.kk)
            + (sedimentation_ss08 M s qc rho dzi dz dt a_c b_c c_c d_c N_0c qc_min g).w_qc
              (i + j * g.jj + (g.kstart + 1) * g.kk)) * dt * dzi g.kstart ∧
      (sedimentation_ss08 M s qc rho dzi dz dt a_c b_c c_c d_c N_0c qc_min g).c_qc
          (i + j * g.jj + (g.kend - 1) * g.kk)
        = 0.25 * ((sedimentation_ss08 M s qc rho dzi dz dt a_c b_c c_c d_c N_0c qc_min g).w_qc
              (i + j * g.jj + (g.kend - 2) * g.kk)
            + 2 * (sedimentation_ss08 M s qc rho dzi dz dt a_c b_c c_c d_c N_0c qc_min g).w_qc
              (i + j * g.jj + (g.kend - 1) * g.kk)) * dt * dzi (g.kend - 1)) := by
  have hbot := (sed_w_bot hg M s qc rho dzi dz dt a_c b_c c_c d_c N_0c qc_min hb hlt).trans
    (sed_w_interior hg M s qc rho dzi dz dt a_c b_c c_c d_c N_0c qc_min hb le_rfl hlt).symm
  have htop := sed_w_top hg M s qc rho dzi dz dt a_c b_c c_c d_c N_0c qc_min hb hlt
  have hc : ∀ k, g.kstart ≤ k → k < g.kend →
      (sedimentation_ss08 M s qc rho dzi dz dt a_c b_c c_c d_c N_0c qc_min g).c_qc
          (i + j * g.jj + k * g.kk)
        = 0.25 * ((sedimentation_ss08 M s qc rho dzi dz dt a_c b_c c_c d_c N_0c qc_min g).w_qc
              (i + j * g.jj + (k - 1) * g.kk)
            + 2 * (sedimentation_ss08 M s qc rho dzi dz dt a_c b_c c_c d_c N_0c qc_min g).w_qc
              (i + j * g.jj + k * g.kk)
            + (sedimentation_ss08 M s qc rho dzi dz dt a_c b_c c_c d_c N_0c qc_min g).w_qc
              (i + j * g.jj + (k + 1) * g.kk)) * dt * dzi k := by
    intro k hk1 hk2
    rw [sed_c_interior hg M s qc rho dzi dz dt a_c b_c c_c d_c N_0c qc_min hb hk1 hk2]
    unfold sed_cfl
    simp only []
    have e1 : i + j * g.jj + k * g.kk - g.kk = i + j * g.jj + (k - 1) * g.kk := by ring
    have e2 : i + j * g.jj + k * g.kk + g.kk = i + j * g.jj + (k + 1) * g.kk := by ring
    rw [e1, e2]
    ring
  refine ⟨hbot, htop, hc, ?_⟩
  intro h2
  constructor
  · rw [hc g.kstart le_rfl hlt, hbot]
    ring
  · have e : g.kend - 1 + 1 = g.kend := by ring
    have e' : g.kend - 1 - 1 = g.kend - 2 := by ring
    rw [hc (g.kend - 1) (by omega) (by omega), e, e', htop]
    ring

/-- C26, in the column of `grid1` with rain in the upper cell: the Courant
numbers of the two interior levels. -/
theorem sed_cfl_three_point_witness :
    (sedimentation_ss08 ratEnv sedZero qcTop (fun _ => 1) (fun _ => 1 / 100)
        (fun _ => 100) 1 500 0 130 1 8000000 (1 / 1000000000000) grid1).c_qc
        (1 + 1 * grid1.jj + grid1.kstart * grid1.kk)
      = 0.25 * (3 * (sedimentation_ss08 ratEnv sedZero qcTop (fun _ => 1) (fun _ => 1 / 100)
            (fun _ => 100) 1 500 0 130 1 8000000 (1 / 1000000000000) grid1).w_qc
            (1 + 1 * grid1.jj + grid1.kstart * grid1.kk)
          + (sedimentation_ss08 ratEnv sedZero qcTop (fun _ => 1) (fun _ => 1 / 100)
            (fun _ => 100) 1 500 0 130 1 8000000 (1 / 1000000000000) grid1).w_qc
            (1 + 1 * grid1.jj + (grid1.kstart + 1) * grid1.kk)) * 1 * (1 / 100) ∧
    (sedimentation_ss08 ratEnv sedZero qcTop (fun _ => 1) (fun _ => 1 / 100)
        (fun _ => 100) 1 500 0 130 1 8000000 (1 / 1000000000000) grid1).c_qc
        (1 + 1 * grid1.jj + (grid1.kend - 1) * grid1.kk)
      = 0.25 * ((sedimentation_ss08 ratEnv sedZero qcTop (fun _ => 1) (fun _ => 1 / 100)
            (fun _ => 100) 1 500 0 130 1 8000000 (1 / 1000000000000) grid1).w_qc
            (1 + 1 * grid1.jj + (grid1.kend - 2) * grid1.kk)
          + 2 * (sedimentation_ss08 ratEnv sedZero qcTop (fun _ => 1) (fun _ => 1 / 100)
            (fun _ => 100) 1 500 0 130 1 8000000 (1 / 1000000000000) grid1).w_qc
            (1 + 1 * grid1.jj + (grid1.kend - 1) * grid1.kk)) * 1 * (1 / 100) :=
  (sed_cfl_three_point ratEnv sedZero qcTop (fun _ => 1) (fun _ => 1 / 100)
    (fun _ => 100) 1 500 0 130 1 8000000 (1 / 1000000000000) grid1 grid1_wellFormed 1 1
    grid1_inBox (by decide)).2.2.2 (by decide)

end DirectionClaims

/-! ## Conservation of mass by the process rates -/

section MassClaims

variable {F : Type} [LinearOrderedField F]

theorem auto_cloud_to_rain_mass (M : Env F) (N_d : F) (c : Cell F) (t : Tend F) :
    (auto_cloud_to_rain M N_d c t).mass = t.mass := by
  unfold auto_cloud_to_rain Tend.mass
  split_ifs
  · simp only []
    ring
  · rfl

theorem auto_ice_to_snow_mass (M : Env F) (c : Cell F) (t : Tend F) :
    (auto_ice_to_snow M c t).mass = t.mass := by
  unfold auto_ice_to_snow Tend.mass
  split_ifs
  · simp only []
    ring
  · rfl

theorem auto_snow_to_graupel_mass (M : Env F) (c : Cell F) (t : Tend F) :
    (auto_snow_to_graupel M c t).mass = t.mass := by
  unfold auto_snow_to_graupel Tend.mass
  split_ifs
  · simp only []
    ring
  · rfl

theorem cloud_to_rain_mass (M : Env F) (c : Cell F) (t : Tend F) :
    (cloud_to_rain M c t).mass = t.mass := by
  unfold cloud_to_rain Tend.mass
  split_ifs
  · simp only []
    ring
  · rfl

theorem rain_to_vapor_mass (M : Env F) (c : Cell F) (t : Tend F) :
    (rain_to_vapor M c t).mass = t.mass := by
  unfold rain_to_vapor Tend.mass
  split_ifs
  · simp only []
    ring
  · rfl

theorem cloud_to_graupel_mass (M : Env F) (c : Cell F) (t : Tend F) :
    (cloud_to_graupel M c t).mass = t.mass := by
  unfold cloud_to_graupel Tend.mass
  split_ifs
  · simp only []
    ring
  · rfl

theorem cloud_to_snow_mass (M : Env F) (c : Cell F) (t : Tend F) :
    (cloud_to_snow M c t).mass = t.mass := by
  unfold cloud_to_snow Tend.mass
  split_ifs
  · simp only []
    ring
  · rfl

theorem ice_to_snow_mass (M : Env F) (c : Cell F) (t : Tend F) :
    (ice_to_snow M c t).mass = t.mass := by
  unfold ice_to_snow Tend.mass
  split_ifs
  · simp only []
    ring
  · rfl

theorem ice_to_graupel_mass (M : Env F) (c : Cell F) (t : Tend F) :
    (ice_to_graupel M c t).mass = t.mass := by
  unfold ice_to_graupel Tend.mass
  split_ifs
  · simp only []
    ring
  · rfl

theorem rain_to_graupel_mass (M : Env F) (c : Cell F) (t : Tend F) :
    (rain_to_graupel M c t).mass = t.mass := by
  unfold rain_to_graupel Tend.mass
  split_ifs
  · simp only []
    ring
  · rfl

theorem rain_to_snow_mass (M : Env F) (c : Cell F) (t : Tend F) :
    (rain_to_snow M c t).mass = t.mass := by
  unfold rain_to_snow Tend.mass
  split_ifs
  · simp only []
    ring
  · rfl

theorem snow_to_rain_mass (M : Env F) (c : Cell F) (t : Tend F) :
    (snow_to_rain M c t).mass = t.mass := by
  unfold snow_to_rain Tend.mass
  split_ifs
  · simp only []
    ring
  · rfl

theorem snow_to_graupel_mass (M : Env F) (c : Cell F) (t : Tend F) :
    (snow_to_graupel M c t).mass = t.mass := by
  unfold snow_to_graupel Tend.mass
  split_ifs
  · simp only []
    ring
  · rfl

theorem snow_to_vapor_mass (M : Env F) (c : Cell F) (t : Tend F) :
    (snow_to_vapor M c t).mass = t.mass := by
  unfold snow_to_vapor Tend.mass
  split_ifs
  · simp only []
    ring
  · rfl

theorem graupel_to_rain_mass (M : Env F) (c : Cell F) (t : Tend F) :
    (graupel_to_rain M c t).mass = t.mass := by
  unfold graupel_to_rain Tend.mass
  split_ifs
  · simp only []
    ring
  · rfl

theorem graupel_to_vapor_mass (M : Env F) (c : Cell F) (t : Tend F) :
    (graupel_to_vapor M c t).mass = t.mass := by
  unfold graupel_to_vapor Tend.mass
  split_ifs
  · simp only []
    ring
  · rfl

/-- The cell body of `autoconversion` keeps the sum of the four mass
tendencies. -/
theorem autoconversion_cell_mass (M : Env F) (N_d : F) (c : Cell F) (t : Tend F) :
    (autoconversion_cell M N_d c t).mass = t.mass := by
  unfold autoconversion_cell
  rw [auto_snow_to_graupel_mass, auto_ice_to_snow_mass, auto_cloud_to_rain_mass]

/-- The cell body of `accretion_and_phase_changes` keeps the sum of the four
mass tendencies. -/
theorem accretion_cell_mass (M : Env F) (c : Cell F) (t : Tend F) :
    (accretion_cell M c t).mass = t.mass := by
  unfold accretion_cell
  simp only []
  rw [graupel_to_vapor_mass, graupel_to_rain_mass, snow_to_vapor_mass, snow_to_graupel_mass,
    snow_to_rain_mass, rain_to_snow_mass, rain_to_graupel_mass, ice_to_graupel_mass,
    ice_to_snow_mass, cloud_to_snow_mass, cloud_to_graupel_mass, rain_to_vapor_mass,
    cloud_to_rain_mass]

/-- C23. In every cell and for every input, the increments that `autoconversion`
and `accretion_and_phase_changes` add to the four mass tendencies cancel:
`dqtt + dqrt + dqst + dqgt = 0`. -/
theorem process_rates_conserve_mass (M : Env F) (t : TendArrays F) (cfl_out : F)
    (f : Fields F) (N_d dt : F) (g : Grid) (hg : g.WellFormed) :
    (∀ n, ((autoconversion M t f N_d g).qtt n - t.qtt n)
        + ((autoconversion M t f N_d g).qrt n - t.qrt n)
        + ((autoconversion M t f N_d g).qst n - t.qst n)
        + ((autoconversion M t f N_d g).qgt n - t.qgt n) = 0) ∧
    (∀ n, ((accretion_and_phase_changes M t cfl_out f dt g).1.qtt n - t.qtt n)
        + ((accretion_and_phase_changes M t cfl_out f dt g).1.qrt n - t.qrt n)
        + ((accretion_and_phase_changes M t cfl_out f dt g).1.qst n - t.qst n)
        + ((accretion_and_phase_changes M t cfl_out f dt g).1.qgt n - t.qgt n) = 0) := by
  have key : ∀ (a : TendArrays F) (n : Int), (a.get n).mass = (t.get n).mass →
      (a.qtt n - t.qtt n) + (a.qrt n - t.qrt n) + (a.qst n - t.qst n) + (a.qgt n - t.qgt n)
        = 0 := by
    intro a n h
    simp only [Tend.mass, TendArrays.get] at h
    linear_combination h
  constructor
  · intro n
    apply key
    by_cases hn : g.interior n
    · obtain ⟨i, j, k, hb, hk1, hk2, rfl⟩ := hn
      rw [autoconversion_get hg M t f N_d hb hk1 hk2, autoconversion_cell_mass]
    · rw [autoconversion_outside hg M t f N_d n hn]
  · intro n
    apply key
    by_cases hn : g.interior n
    · obtain ⟨i, j, k, hb, hk1, hk2, rfl⟩ := hn
      rw [(accretion_get hg M t cfl_out f dt).1 i j k hb hk1 hk2, accretion_cell_mass]
    · rw [(accretion_get hg M t cfl_out f dt).2 n hn]

/-- C23, for `accretion_and_phase_changes` in the cell `(1, 1, 1)` of `grid1`
(flat index 13) with rain, snow and graupel present. -/
theorem process_rates_conserve_mass_witness :
    ((accretion_and_phase_changes ratEnv tendOnes 0 fieldsMixed 1 grid1).1.qtt 13
        - tendOnes.qtt 13)
      + ((accretion_and_phase_changes ratEnv tendOnes 0 fieldsMixed 1 grid1).1.qrt 13
        - tendOnes.qrt 13)
      + ((accretion_and_phase_changes ratEnv tendOnes 0 fieldsMixed 1 grid1).1.qst 13
        - tendOnes.qst 13)
      + ((accretion_and_phase_changes ratEnv tendOnes 0 fieldsMixed 1 grid1).1.qgt 13
        - tendOnes.qgt 13) = 0 :=
  (process_rates_conserve_mass ratEnv tendOnes 0 fieldsMixed 50000000 1 grid1
    grid1_wellFormed).2 13

end MassClaims

/-! ## Gating by the sign of the temperature, and the sign of the evaporation -/

section PhaseClaims

variable {F : Type} [LinearOrderedField F]

theorem T_pos_of_lt (M : Env F) (c : Cell F) (h : c.T M < M.T0) : T_pos M c = 0 := by
  unfold T_pos
  rw [if_neg (not_le.mpr h)]

theorem T_neg_of_ge (M : Env F) (c : Cell F) (h : c.T M ≥ M.T0) : T_neg M c = 0 := by
  unfold T_neg T_pos
  rw [if_pos h, sub_self]

/-- C29. Melting and freezing are gated by the sign of `T - T0`. For `T < T0`
the blocks snow-to-rain and graupel-to-rain leave the tendencies as they are.
For `T >= T0` the block rain-to-graupel moves `P_gacr + P_iacr_g` and the block
rain-to-snow moves `P_iacr_s` from the rain tendency, with nothing from `P_gfrz`
and `P_sacr`; the `thl` amounts are `Lf/(cp*exner)*(P_gacr + P_iacr_g)` in
both blocks. -/
theorem melting_freezing_gated (M : Env F) (c : Cell F) (t : Tend F) :
    (c.T M < M.T0 → snow_to_rain M c t = t ∧ graupel_to_rain M c t = t) ∧
    (c.T M ≥ M.T0 → c.has_rain →
      (rain_to_graupel M c t).qrt = t.qrt - (P_gacr M c + P_iacr_g M c) ∧
      (rain_to_graupel M c t).qgt = t.qgt + (P_gacr M c + P_iacr_g M c) ∧
      (rain_to_graupel M c t).thlt
        = t.thlt + M.Lf / (M.cp * c.exner) * (P_gacr M c + P_iacr_g M c) ∧
      (rain_to_graupel M c t).qst = t.qst ∧ (rain_to_graupel M c t).qtt = t.qtt ∧
      (rain_to_snow M c t).qrt = t.qrt - P_iacr_s M c ∧
      (rain_to_snow M c t).qst = t.qst + P_iacr_s M c ∧
      (rain_to_snow M c t).thlt
        = t.thlt + M.Lf / (M.cp * c.exner) * (P_gacr M c + P_iacr_g M c) ∧
      (rain_to_snow M c t).qgt = t.qgt ∧ (rain_to_snow M c t).qtt = t.qtt) ∧
    (c.T M ≥ M.T0 → ¬ c.has_rain → rain_to_graupel M c t = t ∧ rain_to_snow M c t = t) := by
  refine ⟨?_, ?_, ?_⟩
  · intro h
    have h0 := T_pos_of_lt M c h
    unfold snow_to_rain graupel_to_rain
    constructor
    · split_ifs
      · simp [h0]
      · rfl
    · split_ifs
      · simp [h0]
      · rfl
  · intro h hr
    have h0 := T_neg_of_ge M c h
    unfold rain_to_graupel rain_to_snow
    rw [if_pos hr, if_pos hr]
    simp [h0]
  · intro _ hr
    unfold rain_to_graupel rain_to_snow
    rw [if_neg hr, if_neg hr]
    exact ⟨rfl, rfl⟩

/-- C29, in the cold cell `cellCold` (`T < T0`): no melting. -/
theorem melting_freezing_gated_witness :
    snow_to_rain ratEnv cellCold tendZero = tendZero ∧
    graupel_to_rain ratEnv cellCold tendZero = tendZero :=
  (melting_freezing_gated ratEnv cellCold tendZero).1
    (by norm_num [Cell.T, cellCold, ratEnv])

/-- The ventilation factor of the evaporation, deposition and melting rates is
positive for a positive slope parameter. -/
theorem ventilation_pos (M : Env F) (hsqrt : ∀ x, 0 < x → 0 < M.sqrt x)
    (htg : ∀ x, 0 < x → 0 < M.tgamma x) (hpow : ∀ x y, 0 < x → 0 < M.pow x y)
    (hpow2 : ∀ z, M.pow2 z = z * z) {f1 f2 cc d r lam : F} (hf1 : 0 < f1) (hf2 : 0 < f2)
    (hc : 0 < cc) (hd : 0 ≤ d) (hr : 0 < r) (hl : 0 < lam) :
    0 < f1 * M.tgamma 2 / M.pow2 lam
      + f2 * M.sqrt (cc * r / nu) * M.tgamma (0.5 * (5 + d)) / M.pow lam (0.5 * (5 + d)) := by
  have h1 : 0 < f1 * M.tgamma 2 / M.pow2 lam := by
    rw [hpow2]
    exact div_pos (mul_pos hf1 (htg 2 two_pos)) (mul_pos hl hl)
  have h2 : 0 < f2 * M.sqrt (cc * r / nu) * M.tgamma (0.5 * (5 + d))
      / M.pow lam (0.5 * (5 + d)) :=
    div_pos (mul_pos (mul_pos hf2 (hsqrt _ (div_pos (mul_pos hc hr) (by norm_num [nu]))))
      (htg _ (by positivity))) (hpow _ _ hl)
  exact add_pos h1 h2

/-- C30. With `G_w > 0`, `rho[k] > 0` and `lambda_r > 0` (and `sqrt`, `tgamma`,
`pow` positive on positive arguments, `pow2` the square, `M_PI > 0`), the rain
evaporation rate `P_revp` is `>= 0` for every saturation ratio `S_w` and exactly
0 when `S_w >= 1`, so the block rain-to-vapor never increases the rain
tendency. -/
theorem rain_evaporation_nonneg (M : Env F) (c : Cell F) (t : Tend F) (hpi : 0 < M.M_PI)
    (hsqrt : ∀ x, 0 < x → 0 < M.sqrt x) (htg : ∀ x, 0 < x → 0 < M.tgamma x)
    (hpow : ∀ x y, 0 < x → 0 < M.pow x y) (hpow2 : ∀ z, M.pow2 z = z * z)
    (hG : 0 < G_w M c) (hrho : 0 < c.rho) (hrho0 : 0 < c.rho0) (hl : 0 < lambda_r M c) :
    0 ≤ P_revp M c ∧ (1 ≤ S_w M c → P_revp M c = 0) ∧
    (rain_to_vapor M c t).qrt ≤ t.qrt := by
  have hV := ventilation_pos M hsqrt htg hpow hpow2 (by norm_num [f_1r] : (0 : F) < f_1r)
    (by norm_num [f_2r] : (0 : F) < f_2r) (by norm_num [c_r] : (0 : F) < c_r)
    (by norm_num [d_r] : (0 : F) ≤ d_r)
    (hsqrt _ (div_pos hrho0 hrho) : 0 < rho0_rho_sqrt M c) hl
  have e : P_revp M c = 2 * M.M_PI * N_0r * G_w M c / c.rho
      * (f_1r * M.tgamma 2 / M.pow2 (lambda_r M c)
        + f_2r * M.sqrt (c_r * rho0_rho_sqrt M c / nu) * M.tgamma (0.5 * (5 + d_r))
          / M.pow (lambda_r M c) (0.5 * (5 + d_r))) * (1 - min (S_w M c) 1) := by
    unfold P_revp pi
    ring
  have hA : 0 < 2 * M.M_PI * N_0r * G_w M c / c.rho :=
    div_pos (mul_pos (mul_pos (mul_pos two_pos hpi) (by norm_num [N_0r])) hG) hrho
  have h0 : 0 ≤ P_revp M c := by
    rw [e]
    exact mul_nonneg (mul_pos hA hV).le (sub_nonneg.mpr (min_le_right _ _))
  refine ⟨h0, ?_, ?_⟩
  · intro hS
    rw [e, min_eq_right hS, sub_self, mul_zero]
  · unfold rain_to_vapor
    split_ifs
    · simp only []
      linarith
    · exact le_rfl

/-- The stand-in `pow` of `ratEnv` is positive on a positive base. -/
theorem ratEnv_pow_pos : ∀ x y : ℚ, 0 < x → 0 < ratEnv.pow x y := by
  intro x y hx
  simp only [ratEnv]
  split_ifs
  · exact hx
  · exact div_pos one_pos hx
  · exact one_pos

/-- The stand-in `tgamma` of `ratEnv` is positive. -/
theorem ratEnv_tgamma_pos : ∀ x : ℚ, 0 < x → 0 < ratEnv.tgamma x := by
  intro x _
  simp only [ratEnv]
  split_ifs <;> norm_num

/-- The coefficient `G_w` of the cold cell in the rational instance. -/
theorem cellCold_G_w_pos : 0 < G_w ratEnv cellCold := by
  norm_num [G_w, Cell.T, cellCold, ratEnv, K_a, K_d]

/-- C30, in the cell `cellCold` of the rational instance. -/
theorem rain_evaporation_nonneg_witness : 0 ≤ P_revp ratEnv cellCold :=
  (rain_evaporation_nonneg ratEnv cellCold tendZero (by norm_num [ratEnv])
    (fun _ hx => hx) ratEnv_tgamma_pos ratEnv_pow_pos (fun _ => rfl) cellCold_G_w_pos
    (by norm_num [cellCold]) (by norm_num [cellCold])
    (by norm_num [lambda_r, ratEnv, b_r])).1

end PhaseClaims

/-! ## Deposition and sublimation -/

section DepositionClaims

variable {F : Type} [LinearOrderedField F]

/-- The flag `delta_3` is 1 in air that is not supersaturated with respect to
ice. -/
theorem delta_3_of_lt (M : Env F) (c : Cell F) (h : S_i M c < 1) : delta_3 M c = 1 := by
  unfold delta_3
  rw [if_pos (by linarith)]

/-- C24 fails on the code. For a cell with snow (respectively graupel) present,
air subsaturated with respect to ice (`S_i < 1`), `G_i > 0`, `rho[k] > 0` and a
positive slope parameter (and `sqrt`, `tgamma`, `pow` positive on positive
arguments, `pow2` the square, `M_PI > 0`), the rate `P_ssub = P_sdep_ssub`
(respectively `P_gsub = P_gdep_gsub`) is negative and `P_sdep = 0`, so the block
snow-to-vapor (respectively graupel-to-vapor), which subtracts `P_sdep + P_ssub`
from the tendency of the falling category and adds it to the `qt` tendency,
raises the snow (graupel) tendency and lowers the `qt` tendency by the same
amount. -/
theorem sublimation_adds_to_category (M : Env F) (c : Cell F) (t : Tend F)
    (hpi : 0 < M.M_PI) (hsqrt : ∀ x, 0 < x → 0 < M.sqrt x)
    (htg : ∀ x, 0 < x → 0 < M.tgamma x) (hpow : ∀ x y, 0 < x → 0 < M.pow x y)
    (hpow2 : ∀ z, M.pow2 z = z * z) (hS : S_i M c < 1) (hG : 0 < G_i M c)
    (hrho : 0 < c.rho) (hrho0 : 0 < c.rho0) :
    (c.has_snow → 0 < lambda_s M c →
      P_sdep M c = 0 ∧ P_ssub M c < 0 ∧
      (snow_to_vapor M c t).qst = t.qst - P_ssub M c ∧
      (snow_to_vapor M c t).qtt = t.qtt + P_ssub M c ∧
      t.qst < (snow_to_vapor M c t).qst ∧ (snow_to_vapor M c t).qtt < t.qtt) ∧
    (c.has_graupel → 0 < lambda_g M c →
      P_gdep M c = 0 ∧ P_gsub M c < 0 ∧
      (graupel_to_vapor M c t).qgt = t.qgt - P_gsub M c ∧
      (graupel_to_vapor M c t).qtt = t.qtt + P_gsub M c ∧
      t.qgt < (graupel_to_vapor M c t).qgt ∧ (graupel_to_vapor M c t).qtt < t.qtt) := by
  have hd := delta_3_of_lt M c hS
  have hr : 0 < rho0_rho_sqrt M c := hsqrt _ (div_pos hrho0 hrho)
  constructor
  · intro hs hl
    have hV := ventilation_pos M hsqrt htg hpow hpow2 (by norm_num [f_1s] : (0 : F) < f_1s)
      (by norm_num [f_2s] : (0 : F) < f_2s) (by norm_num [c_s] : (0 : F) < c_s)
      (by norm_num [d_s] : (0 : F) ≤ d_s) hr hl
    have e : P_sdep_ssub M c = -(2 * M.M_PI * N_0s * G_i M c / c.rho
        * (f_1s * M.tgamma 2 / M.pow2 (lambda_s M c)
          + f_2s * M.sqrt (c_s * rho0_rho_sqrt M c / nu) * M.tgamma (0.5 * (5 + d_s))
            / M.pow (lambda_s M c) (0.5 * (5 + d_s))) * (1 - S_i M c)) := by
      unfold P_sdep_ssub pi
      ring
    have hA : 0 < 2 * M.M_PI * N_0s * G_i M c / c.rho :=
      div_pos (mul_pos (mul_pos (mul_pos two_pos hpi) (by norm_num [N_0s])) hG) hrho
    have hX : P_sdep_ssub M c < 0 := by
      rw [e]
      exact neg_neg_of_pos (mul_pos (mul_pos hA hV) (by linarith))
    have h1 : P_sdep M c = 0 := by
      unfold P_sdep
      rw [hd, sub_self, zero_mul]
    have h2 : P_ssub M c = P_sdep_ssub M c := by
      unfold P_ssub
      rw [hd, one_mul]
    have h3 : (snow_to_vapor M c t).qst = t.qst - P_ssub M c := by
      unfold snow_to_vapor
      rw [if_pos hs, h1, zero_add]
    have h4 : (snow_to_vapor M c t).qtt = t.qtt + P_ssub M c := by
      unfold snow_to_vapor
      rw [if_pos hs, h1, zero_add]
    refine ⟨h1, h2 ▸ hX, h3, h4, ?_, ?_⟩
    · rw [h3, h2]
      linarith
    · rw [h4, h2]
      linarith
  · intro hs hl
    have hV := ventilation_pos M hsqrt htg hpow hpow2 (by norm_num [f_1g] : (0 : F) < f_1g)
      (by norm_num [f_2g] : (0 : F) < f_2g) (by norm_num [c_g] : (0 : F) < c_g)
      (by norm_num [d_g] : (0 : F) ≤ d_g) hr hl
    have e : P_gdep_gsub M c = -(2 * M.M_PI * N_0g * G_i M c / c.rho
        * (f_1g * M.tgamma 2 / M.pow2 (lambda_g M c)
          + f_2g * M.sqrt (c_g * rho0_rho_sqrt M c / nu) * M.tgamma (0.5 * (5 + d_g))
            / M.pow (lambda_g M c) (0.5 * (5 + d_g))) * (1 - S_i M c)) := by
      unfold P_gdep_gsub pi
      ring
    have hA : 0 < 2 * M.M_PI * N_0g * G_i M c / c.rho :=
      div_pos (mul_pos (mul_pos (mul_pos two_pos hpi) (by norm_num [N_0g])) hG) hrho
    have hX : P_gdep_gsub M c < 0 := by
      rw [e]
      exact neg_neg_of_pos (mul_pos (mul_pos hA hV) (by linarith))
    have h1 : P_gdep M c = 0 := by
      unfold P_gdep
      rw [hd, sub_self, zero_mul]
    have h2 : P_gsub M c = P_gdep_gsub M c := by
      unfold P_gsub
      rw [hd, one_mul]
    have h3 : (graupel_to_vapor M c t).qgt = t.qgt - P_gsub M c := by
      unfold graupel_to_vapor
      rw [if_pos hs, h1, zero_add]
    have h4 : (graupel_to_vapor M c t).qtt = t.qtt + P_gsub M c := by
      unfold graupel_to_vapor
      rw [if_pos hs, h1, zero_add]
    refine ⟨h1, h2 ▸ hX, h3, h4, ?_, ?_⟩
    · rw [h3, h2]
      linarith
    · rw [h4, h2]
      linarith

/-- The coefficient `G_i` of the cold cell in the rational instance. -/
theorem cellCold_G_i_pos : 0 < G_i ratEnv cellCold := by
  norm_num [G_i, Cell.T, cellCold, ratEnv, K_a, K_d]

/-- C24, in the cell `cellCold` of the rational instance, where `S_i = 0.48`:
the block snow-to-vapor raises the snow tendency and lowers the `qt` tendency. -/
theorem sublimation_adds_to_category_witness :
    S_i ratEnv cellCold < 1 ∧ cellCold.has_snow ∧
    tendZero.qst < (snow_to_vapor ratEnv cellCold tendZero).qst ∧
    (snow_to_vapor ratEnv cellCold tendZero).qtt < tendZero.qtt :=
  ⟨by norm_num [S_i, cellCold, ratEnv],
    by norm_num [Cell.has_snow, cellCold, qs_min],
    ((sublimation_adds_to_category ratEnv cellCold tendZero (by norm_num [ratEnv])
      (fun _ hx => hx) ratEnv_tgamma_pos ratEnv_pow_pos (fun _ => rfl)
      (by norm_num [S_i, cellCold, ratEnv]) cellCold_G_i_pos (by norm_num [cellCold])
      (by norm_num [cellCold])).1 (by norm_num [Cell.has_snow, cellCold, qs_min])
      (by norm_num [lambda_s, ratEnv, b_s])).2.2.2.2⟩

end DepositionClaims

/-! ## The rate of graupel collecting snow -/

section CollectionClaims

variable {F : Type} [LinearOrderedField F]

/-- A term `N / (P * G)` of a collection rate grows when the positive power `P`
of the slope parameter shrinks. -/
theorem collection_term_lt {N P P' G : F} (hN : 0 < N) (hP' : 0 < P') (hlt : P' < P)
    (hG : 0 < G) : N / (P * G) < N / (P' * G) :=
  div_lt_div_of_pos_left hN (mul_pos hP' hG) (mul_lt_mul_of_pos_right hlt hG)

/-- C25 fails on the code. `P_gacs` is computed with powers of `lambda_r`, the
slope parameter of rain: for two cell states that differ only in `qr`
(`0 < x < y`), with `rho > 0`, `qg > 0`, different fall speeds of snow and
graupel and a positive collection efficiency (and `tgamma`, `pow` positive on
positive arguments, `pow` strictly increasing in a positive base for a positive
exponent, `pow2`, `pow3` the square and the cube, `M_PI > 0`), the rate for the
larger `qr` is strictly larger. -/
theorem P_gacs_depends_on_rain (M : Env F) (c : Cell F) (x y : F) (hpi : 0 < M.M_PI)
    (htg : ∀ z, 0 < z → 0 < M.tgamma z) (hpow : ∀ z e, 0 < z → 0 < M.pow z e)
    (hmono : ∀ z z' e, 0 < z → z < z' → 0 < e → M.pow z e < M.pow z' e)
    (hpow2 : ∀ z, M.pow2 z = z * z) (hpow3 : ∀ z, M.pow3 z = z * z * z)
    (hE : 0 < M.exp (gamma_gacs * (c.T M - M.T0))) (hrho : 0 < c.rho) (hqg : 0 < c.qg)
    (hV : V_Tg M c ≠ V_Ts M c) (hx : 0 < x) (hxy : x < y) :
    P_gacs M { c with qr := x } < P_gacs M { c with qr := y } := by
  have hy : 0 < y := lt_trans hx hxy
  have hY : (0 : F) < a_r M * N_0r * M.tgamma (b_r + 1) :=
    mul_pos (mul_pos (by unfold a_r rho_w; positivity) (by norm_num [N_0r]))
      (htg _ (by norm_num [b_r]))
  have hlg : 0 < lambda_g M c :=
    hpow _ _ (div_pos (mul_pos (mul_pos (by unfold a_g rho_g; positivity)
      (by norm_num [N_0r])) (htg _ (by norm_num [b_g]))) (mul_pos hrho hqg))
  have hly : 0 < lambda_r M { c with qr := y } := hpow _ _ (div_pos hY (mul_pos hrho hy))
  have hl : lambda_r M { c with qr := y } < lambda_r M { c with qr := x } := by
    unfold lambda_r
    refine hmono _ _ _ (div_pos hY (mul_pos hrho hy)) ?_ (by norm_num [b_r])
    exact div_lt_div_of_pos_left hY (mul_pos hrho hx) (mul_lt_mul_of_pos_left hxy hrho)
  have hK : 0 < pi M * a_s M * |V_Tg M c - V_Ts M c| * E_gs M c * N_0g * N_0s / (4 * c.rho) := by
    refine div_pos (mul_pos (mul_pos (mul_pos (mul_pos (mul_pos hpi ?_) ?_) ?_) ?_) ?_)
      (by linarith)
    · unfold a_s rho_s
      positivity
    · exact abs_pos.mpr (sub_ne_zero.mpr hV)
    · exact lt_min one_pos hE
    · norm_num [N_0g]
    · norm_num [N_0s]
  have h1 := collection_term_lt (mul_pos (htg (b_s + 1) (by norm_num [b_s])) (htg 3 (by norm_num)))
    (hpow _ (b_s + 1) hly) (hmono _ _ (b_s + 1) hly hl (by norm_num [b_s]))
    (by rw [hpow3]; exact mul_pos (mul_pos hlg hlg) hlg : 0 < M.pow3 (lambda_g M c))
  have h2 := collection_term_lt
    (mul_pos (mul_pos two_pos (htg (b_s + 2) (by norm_num [b_s]))) (htg 2 (by norm_num)))
    (hpow _ (b_s + 2) hly) (hmono _ _ (b_s + 2) hly hl (by norm_num [b_s]))
    (by rw [hpow2]; exact mul_pos hlg hlg : 0 < M.pow2 (lambda_g M c))
  have h3 := collection_term_lt (mul_pos (htg (b_s + 3) (by norm_num [b_s])) (htg 1 one_pos))
    (hpow _ (b_s + 3) hly) (hmono _ _ (b_s + 3) hly hl (by norm_num [b_s])) hlg
  exact mul_lt_mul_of_pos_left (add_lt_add (add_lt_add h1 h2) h3) hK

/-- The stand-in `pow` of `ratEnvLin` is strictly increasing in its base for
a positive exponent. -/
theorem ratEnvLin_pow_mono : ∀ z z' e : ℚ, 0 < z → z < z' → 0 < e →
    ratEnvLin.pow z e < ratEnvLin.pow z' e := by
  intro z z' e _ h he
  simpa only [ratEnvLin, if_neg he.ne'] using h

/-- C25, for the cell `cellWarm` with `qr = 1e-3` and with `qr = 2e-3`. -/
theorem P_gacs_depends_on_rain_witness :
    P_gacs ratEnvLin { cellWarm with qr := 1 / 1000 }
      < P_gacs ratEnvLin { cellWarm with qr := 2 / 1000 } :=
  P_gacs_depends_on_rain ratEnvLin cellWarm (1 / 1000) (2 / 1000)
    (by norm_num [ratEnvLin, ratEnv]) ratEnvLin_tgamma_pos ratEnvLin_pow_pos
    ratEnvLin_pow_mono (fun _ => rfl) (fun _ => rfl)
    (by norm_num [ratEnvLin, ratEnv, Cell.T, cellWarm, gamma_gacs])
    (by norm_num [cellWarm]) (by norm_num [cellWarm])
    (by norm_num [V_Tg, V_Ts, lambda_g, lambda_s, rho0_rho_sqrt, ratEnvLin, ratEnv, cellWarm,
      a_g, a_s, b_g, b_s, c_g, c_s, d_g, d_s, N_0r, rho_g, rho_s])
    (by norm_num) (by norm_num)

end CollectionClaims

/-! ## The fall speed as a function of the mixing ratio -/

section FallSpeedClaims

variable {F : Type} [LinearOrderedField F]

/-- C27. For `rho > 0`, species parameters `a, c, N_0 > 0` and `b, d >= 0`, and
a threshold `qc_min >= 0` (with `sqrt`, `tgamma`, `pow` positive on positive
arguments and `pow` non-decreasing in a positive base for an exponent `>= 0`,
non-increasing for an exponent `<= 0`), the fall speed `w_qc` that
`sedimentation_ss08` computes is zero when `q <= qc_min` and is a non-decreasing
function of `q` over `q >= 0`. -/
theorem sed_velocity_monotone (M : Env F) (qc qc' rho : Int → F)
    (a_c b_c c_c d_c N_0c qc_min : F) (g : Grid) (i j k : Int)
    (hsqrt : ∀ z, 0 < z → 0 < M.sqrt z) (htg : ∀ z, 0 < z → 0 < M.tgamma z)
    (hpow : ∀ z e, 0 < z → 0 < M.pow z e)
    (hmono : ∀ z z' e, 0 < z → z ≤ z' → 0 ≤ e → M.pow z e ≤ M.pow z' e)
    (hanti : ∀ z z' e, 0 < z → z ≤ z' → e ≤ 0 → M.pow z' e ≤ M.pow z e)
    (hrho : 0 < rho k) (hrho0 : 0 < rho g.kstart) (ha : 0 < a_c) (hb : 0 ≤ b_c) (hc : 0 < c_c)
    (hd : 0 ≤ d_c) (hN : 0 < N_0c) (hmin : 0 ≤ qc_min) :
    (qc (i + j * g.jj + k * g.kk) ≤ qc_min →
      sed_velocity M qc rho a_c b_c c_c d_c N_0c qc_min g i j k = 0) ∧
    (0 ≤ qc (i + j * g.jj + k * g.kk) →
      qc (i + j * g.jj + k * g.kk) ≤ qc' (i + j * g.jj + k * g.kk) →
      sed_velocity M qc rho a_c b_c c_c d_c N_0c qc_min g i j k
        ≤ sed_velocity M qc' rho a_c b_c c_c d_c N_0c qc_min g i j k) := by
  have hC : 0 < c_c * M.sqrt (rho g.kstart / rho k) * M.tgamma (b_c + d_c + 1)
      / M.tgamma (b_c + 1) :=
    div_pos (mul_pos (mul_pos hc (hsqrt _ (div_pos hrho0 hrho))) (htg _ (by linarith)))
      (htg _ (by linarith))
  have hY : 0 < a_c * N_0c * M.tgamma (b_c + 1) :=
    mul_pos (mul_pos ha hN) (htg _ (by linarith))
  have hnn : ∀ q : Int → F,
      0 ≤ sed_velocity M q rho a_c b_c c_c d_c N_0c qc_min g i j k := by
    intro q
    unfold sed_velocity
    simp only []
    split_ifs with h
    · exact (mul_pos hC (hpow _ _ (hpow _ _
        (div_pos hY (mul_pos hrho (lt_of_le_of_lt hmin h)))))).le
    · exact le_rfl
  constructor
  · intro h
    exact sed_velocity_of_le M qc rho a_c b_c c_c d_c N_0c qc_min g i j k h
  · intro _ hle
    by_cases h : qc (i + j * g.jj + k * g.kk) ≤ qc_min
    · rw [sed_velocity_of_le M qc rho a_c b_c c_c d_c N_0c qc_min g i j k h]
      exact hnn qc'
    · have h1 : qc (i + j * g.jj + k * g.kk) > qc_min := not_le.mp h
      have h2 : qc' (i + j * g.jj + k * g.kk) > qc_min := lt_of_lt_of_le h1 hle
      have hq : 0 < qc (i + j * g.jj + k * g.kk) := lt_of_le_of_lt hmin h1
      have hq' : 0 < qc' (i + j * g.jj + k * g.kk) := lt_of_le_of_lt hmin h2
      unfold sed_velocity
      simp only []
      rw [if_pos h1, if_pos h2]
      refine mul_le_mul_of_nonneg_left ?_ hC.le
      refine hanti _ _ _ (hpow _ _ (div_pos hY (mul_pos hrho hq'))) ?_ (by linarith)
      refine hmono _ _ _ (div_pos hY (mul_pos hrho hq')) ?_
        (div_nonneg zero_le_one (by linarith))
      exact div_le_div_of_nonneg_left hY.le (mul_pos hrho hq)
        (mul_le_mul_of_nonneg_left hle hrho.le)

/-- The stand-in `pow` of `ratEnv` is non-decreasing in a positive base for an
exponent `>= 0`. -/
theorem ratEnv_pow_mono : ∀ z z' e : ℚ, 0 < z → z ≤ z' → 0 ≤ e →
    ratEnv.pow z e ≤ ratEnv.pow z' e := by
  intro z z' e _ h he
  simp only [ratEnv]
  split_ifs with h1 h2
  · exact h
  · rw [h2] at he
    norm_num at he
  · exact le_rfl

/-- The stand-in `pow` of `ratEnv` is non-increasing in a positive base for an
exponent `<= 0`. -/
theorem ratEnv_pow_anti : ∀ z z' e : ℚ, 0 < z → z ≤ z' → e ≤ 0 →
    ratEnv.pow z' e ≤ ratEnv.pow z e := by
  intro z z' e hz h he
  simp only [ratEnv]
  split_ifs with h1 h2
  · rw [h1] at he
    norm_num at he
  · exact one_div_le_one_div_of_le hz h
  · exact le_rfl

/-- C27, at the upper cell of `grid1` with the parameters `b = 0`, `d = 1`, for
which the rational stand-in of `pow` is exact: the fall speed for `q = 1e-3` is
not larger than the fall speed for `q = 2e-3`. -/
theorem sed_velocity_monotone_witness :
    sed_velocity ratEnv qcTop (fun _ => 1) 500 0 130 1 8000000 (1 / 1000000000000) grid1 1 1 2
      ≤ sed_velocity ratEnv (fun _ => 2 / 1000) (fun _ => 1) 500 0 130 1 8000000
        (1 / 1000000000000) grid1 1 1 2 :=
  (sed_velocity_monotone ratEnv qcTop (fun _ => 2 / 1000) (fun _ => 1) 500 0 130 1 8000000
    (1 / 1000000000000) grid1 1 1 2 (fun _ hz => hz) ratEnv_tgamma_pos ratEnv_pow_pos
    ratEnv_pow_mono ratEnv_pow_anti one_pos one_pos (by norm_num) le_rfl (by norm_num)
    zero_le_one (by norm_num) (by norm_num)).2 (qcTop_nonneg _)
    (by norm_num [qcTop, grid1])

end FallSpeedClaims

/-! ## Termination and accesses of the accumulation loop -/

section TerminationClaims

variable {F : Type} [LinearOrderedField F]

theorem flux_sweep_trace_step (qc slope_qc c_qc rho dzi dz : Int → F) (g : Grid)
    (i j kc : Int) (ftot dzz cc : F) (h1 : 0 < cc) (h2 : kc < g.kend) :
    flux_sweep_trace qc slope_qc c_qc rho dzi dz g i j kc ftot dzz cc
      = ((flux_sweep_trace qc slope_qc c_qc rho dzi dz g i j (kc + 1)
          (ftot + rho kc * (qc (i + j * g.jj + kc * g.kk)
            + 0.5 * slope_qc (i + j * g.jj + kc * g.kk) * (1 - cc)) * cc * dz kc)
          (dzz + dz kc)
          (min 1 (c_qc (i + j * g.jj + kc * g.kk) - (dzz + dz kc) * dzi (kc + 1)))).1,
        kc :: (flux_sweep_trace qc slope_qc c_qc rho dzi dz g i j (kc + 1)
          (ftot + rho kc * (qc (i + j * g.jj + kc * g.kk)
            + 0.5 * slope_qc (i + j * g.jj + kc * g.kk) * (1 - cc)) * cc * dz kc)
          (dzz + dz kc)
          (min 1 (c_qc (i + j * g.jj + kc * g.kk) - (dzz + dz kc) * dzi (kc + 1)))).2) := by
  rw [flux_sweep_trace, if_pos ⟨h1, h2⟩]

theorem flux_sweep_trace_stop (qc slope_qc c_qc rho dzi dz : Int → F) (g : Grid)
    (i j kc : Int) (ftot dzz cc : F) (h : ¬ (0 < cc ∧ kc < g.kend)) :
    flux_sweep_trace qc slope_qc c_qc rho dzi dz g i j kc ftot dzz cc = (ftot, []) := by
  rw [flux_sweep_trace, if_neg h]

theorem flux_sweep_stop (qc slope_qc c_qc rho dzi dz : Int → F) (g : Grid)
    (i j kc : Int) (ftot dzz cc : F) (h : ¬ (0 < cc ∧ kc < g.kend)) :
    flux_sweep qc slope_qc c_qc rho dzi dz g i j kc ftot dzz cc = ftot := by
  rw [flux_sweep, if_neg h]

/-- The recorded loop computes the `ftot` of `flux_sweep`, runs its body at
most `kend - kc` times, and only at levels from `kc` to `kend - 1`. -/
theorem flux_sweep_trace_spec (qc slope_qc c_qc rho dzi dz : Int → F) (g : Grid)
    (i j kc : Int) (ftot dzz cc : F) :
    (flux_sweep_trace qc slope_qc c_qc rho dzi dz g i j kc ftot dzz cc).1
        = flux_sweep qc slope_qc c_qc rho dzi dz g i j kc ftot dzz cc ∧
    (flux_sweep_trace qc slope_qc c_qc rho dzi dz g i j kc ftot dzz cc).2.length
        ≤ (g.kend - kc).toNat ∧
    (∀ m ∈ (flux_sweep_trace qc slope_qc c_qc rho dzi dz g i j kc ftot dzz cc).2,
      kc ≤ m ∧ m < g.kend) := by
  obtain ⟨n, hn⟩ : ∃ n : Nat, n = (g.kend - kc).toNat := ⟨_, rfl⟩
  induction n generalizing kc ftot dzz cc with
  | zero =>
    have h : ¬ (0 < cc ∧ kc < g.kend) := by
      rintro ⟨_, h2⟩
      omega
    rw [flux_sweep_trace_stop _ _ _ _ _ _ _ _ _ _ _ _ _ h,
      flux_sweep_stop _ _ _ _ _ _ _ _ _ _ _ _ _ h]
    simp
  | succ n ih =>
    by_cases h : 0 < cc ∧ kc < g.kend
    · obtain ⟨h1, h2⟩ := h
      rw [flux_sweep_trace_step _ _ _ _ _ _ _ _ _ _ _ _ _ h1 h2,
        flux_sweep_step _ _ _ _ _ _ _ _ _ _ _ _ _ h1 h2]
      obtain ⟨a, b, c⟩ := ih (kc + 1)
        (ftot + rho kc * (qc (i + j * g.jj + kc * g.kk)
          + 0.5 * slope_qc (i + j * g.jj + kc * g.kk) * (1 - cc)) * cc * dz kc)
        (dzz + dz kc)
        (min 1 (c_qc (i + j * g.jj + kc * g.kk) - (dzz + dz kc) * dzi (kc + 1))) (by omega)
      refine ⟨a, ?_, ?_⟩
      · simp only [List.length_cons]
        omega
      · intro m hm
        rcases List.mem_cons.mp hm with rfl | hm
        · exact ⟨le_rfl, h2⟩
        · have := c m hm
          omega
    · rw [flux_sweep_trace_stop _ _ _ _ _ _ _ _ _ _ _ _ _ h,
        flux_sweep_stop _ _ _ _ _ _ _ _ _ _ _ _ _ h]
      simp

/-- The accumulation loop started at level `kc` gives the same `ftot` for
arrays that agree at the levels `kc .. kend-1` of the column (`dzi` at the
levels `kc+1 .. kend`). -/
theorem flux_sweep_local (qc slope_qc c_qc rho dzi dz qc' slope_qc' c_qc' rho' dzi' dz' :
    Int → F) (g : Grid) (i j kc : Int) (ftot dzz cc : F)
    (hq : ∀ m, kc ≤ m → m < g.kend →
      qc (i + j * g.jj + m * g.kk) = qc' (i + j * g.jj + m * g.kk))
    (hs : ∀ m, kc ≤ m → m < g.kend →
      slope_qc (i + j * g.jj + m * g.kk) = slope_qc' (i + j * g.jj + m * g.kk))
    (hc : ∀ m, kc ≤ m → m < g.kend →
      c_qc (i + j * g.jj + m * g.kk) = c_qc' (i + j * g.jj + m * g.kk))
    (hrho : ∀ m, kc ≤ m → m < g.kend → rho m = rho' m)
    (hdz : ∀ m, kc ≤ m → m < g.kend → dz m = dz' m)
    (hdzi : ∀ m, kc < m → m ≤ g.kend → dzi m = dzi' m) :
    flux_sweep qc slope_qc c_qc rho dzi dz g i j kc ftot dzz cc
      = flux_sweep qc' slope_qc' c_qc' rho' dzi' dz' g i j kc ftot dzz cc := by
  obtain ⟨n, hn⟩ : ∃ n : Nat, n = (g.kend - kc).toNat := ⟨_, rfl⟩
  induction n generalizing kc ftot dzz cc with
  | zero =>
    rw [flux_sweep_of_top _ _ _ _ _ _ _ _ _ _ _ _ _ (by omega),
      flux_sweep_of_top _ _ _ _ _ _ _ _ _ _ _ _ _ (by omega)]
  | succ n ih =>
    by_cases h1 : 0 < cc
    · have h2 : kc < g.kend := by omega
      rw [flux_sweep_step _ _ _ _ _ _ _ _ _ _ _ _ _ h1 h2,
        flux_sweep_step _ _ _ _ _ _ _ _ _ _ _ _ _ h1 h2, hq kc le_rfl h2, hs kc le_rfl h2,
        hc kc le_rfl h2, hrho kc le_rfl h2, hdz kc le_rfl h2,
        hdzi (kc + 1) (by omega) (by omega)]
      exact ih (kc + 1) _ _ _ (fun m h3 h4 => hq m (by omega) h4)
        (fun m h3 h4 => hs m (by omega) h4) (fun m h3 h4 => hc m (by omega) h4)
        (fun m h3 h4 => hrho m (by omega) h4) (fun m h3 h4 => hdz m (by omega) h4)
        (fun m h3 h4 => hdzi m (by omega) h4) (by omega)
    · rw [flux_sweep_of_nonpos _ _ _ _ _ _ _ _ _ _ _ _ _ (not_lt.1 h1),
        flux_sweep_of_nonpos _ _ _ _ _ _ _ _ _ _ _ _ _ (not_lt.1 h1)]

/-- C28. For every input, the accumulation loop of the flux sweep at level `k`
terminates: its body runs at most `kend - k` times, and only at levels `kc` with
`k <= kc < kend`, where it reads `qc`, `slope_qc`, `c_qc`, `rho` and `dz` at
level `kc` and `dzi` at level `kc + 1 <= kend`; accordingly the cumulative flux
is the same for arrays that agree at the levels `k .. kend-1` (`dzi` at the
levels `k+1 .. kend`). -/
theorem flux_sweep_terminates (qc slope_qc c_qc rho dzi dz : Int → F) (g : Grid)
    (i j k : Int) :
    (flux_sweep_trace qc slope_qc c_qc rho dzi dz g i j k 0 0
        (min 1 (c_qc (i + j * g.jj + k * g.kk)))).1
      = sed_ftot qc slope_qc c_qc rho dzi dz g i j k ∧
    (flux_sweep_trace qc slope_qc c_qc rho dzi dz g i j k 0 0
        (min 1 (c_qc (i + j * g.jj + k * g.kk)))).2.length ≤ (g.kend - k).toNat ∧
    (∀ kc ∈ (flux_sweep_trace qc slope_qc c_qc rho dzi dz g i j k 0 0
        (min 1 (c_qc (i + j * g.jj + k * g.kk)))).2, k ≤ kc ∧ kc < g.kend ∧ kc + 1 ≤ g.kend) ∧
    (∀ qc' slope_qc' c_qc' rho' dzi' dz' : Int → F,
      (∀ m, k ≤ m → m < g.kend →
        qc (i + j * g.jj + m * g.kk) = qc' (i + j * g.jj + m * g.kk)
        ∧ slope_qc (i + j * g.jj + m * g.kk) = slope_qc' (i + j * g.jj + m * g.kk)
        ∧ c_qc (i + j * g.jj + m * g.kk) = c_qc' (i + j * g.jj + m * g.kk)
        ∧ rho m = rho' m ∧ dz m = dz' m) →
      (∀ m, k < m → m ≤ g.kend → dzi m = dzi' m) →
      sed_ftot qc slope_qc c_qc rho dzi dz g i j k
        = sed_ftot qc' slope_qc' c_qc' rho' dzi' dz' g i j k) := by
  obtain ⟨a, b, c⟩ := flux_sweep_trace_spec qc slope_qc c_qc rho dzi dz g i j k 0 0
    (min 1 (c_qc (i + j * g.jj + k * g.kk)))
  refine ⟨a, b, ?_, ?_⟩
  · intro kc hkc
    have := c kc hkc
    omega
  · intro qc' slope_qc' c_qc' rho' dzi' dz' h hdzi
    unfold sed_ftot
    simp only []
    by_cases hk : k < g.kend
    · rw [(h k le_rfl hk).2.2.1]
      exact flux_sweep_local _ _ _ _ _ _ _ _ _ _ _ _ g i j k 0 0 _
        (fun m h1 h2 => (h m h1 h2).1) (fun m h1 h2 => (h m h1 h2).2.1)
        (fun m h1 h2 => (h m h1 h2).2.2.1) (fun m h1 h2 => (h m h1 h2).2.2.2.1)
        (fun m h1 h2 => (h m h1 h2).2.2.2.2) hdzi
    · rw [flux_sweep_of_top _ _ _ _ _ _ _ _ _ _ _ _ _ (not_lt.mp hk),
        flux_sweep_of_top _ _ _ _ _ _ _ _ _ _ _ _ _ (not_lt.mp hk)]

/-- C28, at the lower cell of the column of `grid1` with `c_qc = 3/2`, where
the loop runs in both interior levels: two iterations, `kend - k = 2`. -/
theorem flux_sweep_terminates_witness :
    (flux_sweep_trace qcLow (fun _ => 0) (fun _ => 3 / 2) (fun _ => 1) (fun _ => 1 / 100)
        (fun _ => 100) grid1 1 1 1 0 0 (min 1 (3 / 2))).2.length ≤ 2 :=
  (flux_sweep_terminates qcLow (fun _ => 0) (fun _ => 3 / 2) (fun _ => 1) (fun _ => 1 / 100)
    (fun _ => 100) grid1 1 1 1).2.1

end TerminationClaims

/-! ## Routing of the rain-ice collection, the snow threshold, the stored Courant number -/

section RoutingClaims

variable {F : Type} [LinearOrderedField F]

/-- C31. The products of the rain-ice collection are routed by the rain
threshold `1e-4`: for `qr >= 1e-4` all of `P_iacr` and `P_raci` goes to
graupel, for `qr < 1e-4` all of it goes to snow, and in both cases
`P_iacr_s + P_iacr_g = P_iacr` and `P_raci_s + P_raci_g = P_raci`. -/
theorem rain_ice_collection_routed (M : Env F) (c : Cell F) :
    (c.qr ≥ 1e-4 →
      P_iacr_s M c = 0 ∧ P_raci_s M c = 0 ∧
      P_iacr_g M c = P_iacr M c ∧ P_raci_g M c = P_raci M c) ∧
    (c.qr < 1e-4 →
      P_iacr_g M c = 0 ∧ P_raci_g M c = 0 ∧
      P_iacr_s M c = P_iacr M c ∧ P_raci_s M c = P_raci M c) ∧
    P_iacr_s M c + P_iacr_g M c = P_iacr M c ∧
    P_raci_s M c + P_raci_g M c = P_raci M c := by
  refine ⟨?_, ?_, ?_, ?_⟩
  · intro h
    have hd : delta_1 c = 1 := by
      unfold delta_1
      rw [if_pos h]
    unfold P_iacr_s P_raci_s P_iacr_g P_raci_g
    rw [hd]
    refine ⟨?_, ?_, ?_, ?_⟩ <;> ring
  · intro h
    have hd : delta_1 c = 0 := by
      unfold delta_1
      rw [if_neg (not_le.mpr h)]
    unfold P_iacr_s P_raci_s P_iacr_g P_raci_g
    rw [hd]
    refine ⟨?_, ?_, ?_, ?_⟩ <;> ring
  · unfold P_iacr_s P_iacr_g
    ring
  · unfold P_raci_s P_raci_g
    ring

/-- C31, in the cell `cellCold` with `qr = 1e-3`: nothing goes to snow. -/
theorem rain_ice_collection_routed_witness :
    P_iacr_s ratEnv cellCold = 0 ∧ P_raci_s ratEnv cellCold = 0 ∧
    P_iacr_g ratEnv cellCold = P_iacr ratEnv cellCold ∧
    P_raci_g ratEnv cellCold = P_raci ratEnv cellCold :=
  (rain_ice_collection_routed ratEnv cellCold).1 (by norm_num [cellCold])

/-- C32. In `autoconversion` the snow-to-graupel rate is
`max(beta_2*(qs - 6e-4), 0)` with `beta_2 <= 1e-3`; for an exponential that is
not negative, a cell with `qs <= 6e-4` moves no mass from snow to graupel, and
a cell with `qs > 6e-4` moves an amount that is `>= 0` and at most
`1e-3*(qs - 6e-4)`. -/
theorem snow_to_graupel_threshold (M : Env F) (c : Cell F) (t : Tend F)
    (hexp : 0 ≤ M.exp (gamma_gaut * (c.T M - M.T0))) :
    P_gaut M c = max (beta_2 M c * (c.qs - 6e-4)) 0 ∧ beta_2 M c ≤ 1e-3 ∧
    (c.qs ≤ 6e-4 → P_gaut M c = 0 ∧ auto_snow_to_graupel M c t = t) ∧
    (c.qs > 6e-4 →
      0 ≤ P_gaut M c ∧ P_gaut M c ≤ 1e-3 * (c.qs - 6e-4) ∧
      (auto_snow_to_graupel M c t).qst = t.qst - P_gaut M c ∧
      (auto_snow_to_graupel M c t).qgt = t.qgt + P_gaut M c) := by
  have hb1 : beta_2 M c ≤ 1e-3 := min_le_left _ _
  have hb0 : 0 ≤ beta_2 M c := le_min (by norm_num) (mul_nonneg (by norm_num) hexp)
  refine ⟨rfl, hb1, ?_, ?_⟩
  · intro h
    have h0 : P_gaut M c = 0 := by
      unfold P_gaut q_scrt
      exact max_eq_right (mul_nonpos_of_nonneg_of_nonpos hb0 (by linarith))
    refine ⟨h0, ?_⟩
    unfold auto_snow_to_graupel
    split_ifs
    · rw [h0]
      simp
    · rfl
  · intro h
    have hs : c.has_snow := by
      unfold Cell.has_snow qs_min
      refine lt_trans ?_ h
      norm_num
    refine ⟨le_max_right _ _, ?_, ?_, ?_⟩
    · unfold P_gaut q_scrt
      exact max_le (mul_le_mul_of_nonneg_right hb1 (by linarith))
        (mul_nonneg (by norm_num) (by linarith))
    · unfold auto_snow_to_graupel
      rw [if_pos hs]
    · unfold auto_snow_to_graupel
      rw [if_pos hs]

/-- C32, in the cell `cellWarm` with `qs = 1e-3`. -/
theorem snow_to_graupel_threshold_witness :
    0 ≤ P_gaut ratEnv cellWarm ∧ P_gaut ratEnv cellWarm ≤ 1e-3 * (cellWarm.qs - 6e-4) ∧
    (auto_snow_to_graupel ratEnv cellWarm tendZero).qst
      = tendZero.qst - P_gaut ratEnv cellWarm ∧
    (auto_snow_to_graupel ratEnv cellWarm tendZero).qgt
      = tendZero.qgt + P_gaut ratEnv cellWarm :=
  (snow_to_graupel_threshold ratEnv cellWarm tendZero
    (by norm_num [ratEnv, Cell.T, cellWarm, gamma_gaut])).2.2.2
    (by norm_num [cellWarm])

end RoutingClaims

section QueryClaims

variable {F : Type} [LinearOrderedField F] [FloorRing F]

/-- C33. `get_time_limit` floors the stored `cfl` at `1e-5` and changes no
other member: after a call `cfl = max(cfl_before, 1e-5)` and `cfl_max` is as
before, and a second call with the same `idt` leaves the object as the first
call left it, writes the same output and returns the same value. -/
theorem get_time_limit_idempotent (this : Microphys_nsw6 F) (idt : Nat) (dt dt' : F) :
    (get_time_limit this idt dt).1 = { this with cfl := max this.cfl 1e-5 } ∧
    (get_time_limit this idt dt).1.cfl = max this.cfl 1e-5 ∧
    (get_time_limit this idt dt).1.cfl_max = this.cfl_max ∧
    get_time_limit (get_time_limit this idt dt).1 idt dt' = get_time_limit this idt dt := by
  refine ⟨rfl, rfl, rfl, ?_⟩
  unfold get_time_limit
  simp only [max_self, max_assoc]

end QueryClaims

/-! ## The buffer layer -/

section BufferLemmas

theorem foldlM_option_eq_some {α σ : Type} (l : List α) (f : σ → α → Option σ)
    (g : σ → α → σ) (h : ∀ x ∈ l, ∀ s, f s x = some (g s x)) (s : σ) :
    l.foldlM f s = some (l.foldl g s) := by
  induction l generalizing s with
  | nil => rfl
  | cons a l ih =>
    rw [List.foldlM_cons, h a (List.mem_cons_self _ _) s]
    exact ih (fun x hx => h x (List.mem_cons_of_mem _ hx)) _

theorem foldlM_option_isSome {α σ : Type} (l : List α) (f : σ → α → Option σ)
    (h : ∀ x ∈ l, ∀ s, ∃ r, f s x = some r) (s : σ) : ∃ r, l.foldlM f s = some r := by
  induction l generalizing s with
  | nil => exact ⟨s, rfl⟩
  | cons a l ih =>
    obtain ⟨r, hr⟩ := h a (List.mem_cons_self _ _) s
    rw [List.foldlM_cons, hr]
    exact ih (fun x hx => h x (List.mem_cons_of_mem _ hx)) _

/-- A loop whose body succeeds at every value of the loop variable succeeds,
with the result of the loop over the results of the body. -/
theorem forUpM_eq_some {σ : Type} (lo hi : Int) (body : Int → σ → Option σ)
    (g : Int → σ → σ) (h : ∀ k, lo ≤ k → k < hi → ∀ s, body k s = some (g k s)) (s : σ) :
    forUpM lo hi body s = some (forUp lo hi g s) := by
  unfold forUpM forUp
  exact foldlM_option_eq_some _ _ _ (fun k hk s => h k (mem_lvls.1 hk).1 (mem_lvls.1 hk).2 s) s

theorem forUpM_isSome {σ : Type} (lo hi : Int) (body : Int → σ → Option σ)
    (h : ∀ k, lo ≤ k → k < hi → ∀ s, ∃ r, body k s = some r) (s : σ) :
    ∃ r, forUpM lo hi body s = some r := by
  unfold forUpM
  exact foldlM_option_isSome _ _ (fun k hk s => h k (mem_lvls.1 hk).1 (mem_lvls.1 hk).2 s) s

theorem length_lvls (lo hi : Int) : (lvls lo hi).length = (hi - lo).toNat := by
  unfold lvls
  simp

/-- The allocations of `init` succeed for a non-negative `bufferkcells` and
change `bufferprofs` only. -/
theorem alloc_fold {F : Type} (names : List String) (b : cbuffer F) (h : 0 ≤ b.bufferkcells) :
    ∃ b1, names.foldlM (fun (b : cbuffer F) name => b.alloc name) b = some b1 ∧
      b1.bufferkcells = b.bufferkcells ∧ b1.bufferkstart = b.bufferkstart := by
  induction names generalizing b with
  | nil => exact ⟨b, rfl, rfl, rfl⟩
  | cons a l ih =>
    rw [List.foldlM_cons, cbuffer.alloc, if_pos h]
    exact ih _ h

variable {F : Type} [LinearOrderedField F]

/-- With the profile allocated for all levels of the loop, `buffer` returns, and
its result is that of the loop nest over the cells above `bufferkstart`. -/
theorem buffer_eq_some (M : Env F) (this : cbuffer F) (grid : cgrid F)
    (at_ a abuf z : Int → F)
    (halloc : grid.kend - (this.bufferkstart + 1) ≤ this.bufferkcells) :
    this.buffer M grid at_ a abuf z
      = some (loop3 (this.loops grid) (fun i j k at_ =>
          Function.update at_ (i + j * (this.loops grid).jj + k * (this.loops grid).kk)
            ((fun i j k v => v - this.sigma M grid z k
              * (a (i + j * grid.icells + k * (grid.icells * grid.jcells))
                - abuf (k - (this.bufferkstart + 1)))) i j k
              (at_ (i + j * (this.loops grid).jj + k * (this.loops grid).kk)))) at_) := by
  unfold cbuffer.buffer
  simp only []
  refine forUpM_eq_some _ _ _ (fun k => loop2 (this.loops grid) (fun i j at_ =>
    Function.update at_ (i + j * (this.loops grid).jj + k * (this.loops grid).kk)
      ((fun i j k v => v - this.sigma M grid z k
        * (a (i + j * grid.icells + k * (grid.icells * grid.jcells))
          - abuf (k - (this.bufferkstart + 1)))) i j k
        (at_ (i + j * (this.loops grid).jj + k * (this.loops grid).kk))))) ?_ at_
  intro k hk1 hk2 s
  refine forUpM_eq_some _ _ _ (fun j => forUp grid.istart grid.iend (fun i at_ =>
    Function.update at_ (i + j * (this.loops grid).jj + k * (this.loops grid).kk)
      ((fun i j k v => v - this.sigma M grid z k
        * (a (i + j * grid.icells + k * (grid.icells * grid.jcells))
          - abuf (k - (this.bufferkstart + 1)))) i j k
        (at_ (i + j * (this.loops grid).jj + k * (this.loops grid).kk))))) ?_ s
  intro j _ _ s
  refine forUpM_eq_some _ _ _ (fun i at_ =>
    Function.update at_ (i + j * (this.loops grid).jj + k * (this.loops grid).kk)
      ((fun i j k v => v - this.sigma M grid z k
        * (a (i + j * grid.icells + k * (grid.icells * grid.jcells))
          - abuf (k - (this.bufferkstart + 1)))) i j k
        (at_ (i + j * (this.loops grid).jj + k * (this.loops grid).kk)))) ?_ s
  intro i _ _ s
  rw [cbuffer.read_prof, if_pos ⟨by omega, by omega⟩]
  rfl

/-- With the profile allocated for all levels of the loop, `setbuffer` returns. -/
theorem setbuffer_isSome (this : cbuffer F) (grid : cgrid F)
    (getprof : (Int → F) → Int → (Int → F)) (a abuf : Int → F)
    (halloc : grid.kend - (this.bufferkstart + 1) ≤ this.bufferkcells) :
    ∃ r, this.setbuffer grid getprof a abuf = some r := by
  unfold cbuffer.setbuffer
  simp only []
  obtain ⟨r, hr⟩ := forUpM_isSome (this.bufferkstart + 1) grid.kend (fun k abuf =>
    (this.update_prof abuf (k - (this.bufferkstart + 1)) (fun _ => 0)).bind (fun abuf =>
    (forUpM grid.jstart grid.jend (fun j abuf =>
      forUpM grid.istart grid.iend (fun i abuf =>
        this.update_prof abuf (k - (this.bufferkstart + 1))
          (fun v => v + a (i + j * grid.icells + k * (grid.icells * grid.jcells)))) abuf)
      abuf).bind
    (fun abuf =>
      this.update_prof abuf (k - (this.bufferkstart + 1))
        (fun v => v / ((grid.imax * grid.jmax : Int) : F))))) (by
    intro k hk1 hk2 s
    beta_reduce
    have hin : 0 ≤ k - (this.bufferkstart + 1) ∧ k - (this.bufferkstart + 1)
        < this.bufferkcells := ⟨by omega, by omega⟩
    have hu : ∀ (f : F → F) (s : Int → F), ∃ r,
        this.update_prof s (k - (this.bufferkstart + 1)) f = some r := by
      intro f s
      rw [cbuffer.update_prof, if_pos hin]
      exact ⟨_, rfl⟩
    obtain ⟨r1, e1⟩ := hu (fun _ => 0) s
    rw [e1, Option.some_bind]
    obtain ⟨r2, e2⟩ := forUpM_isSome grid.jstart grid.jend (fun j abuf =>
      forUpM grid.istart grid.iend (fun i abuf =>
        this.update_prof abuf (k - (this.bufferkstart + 1))
          (fun v => v + a (i + j * grid.icells + k * (grid.icells * grid.jcells)))) abuf)
      (fun j _ _ s => forUpM_isSome _ _ _ (fun i _ _ s => hu _ s) s) r1
    rw [e2, Option.some_bind]
    exact hu _ r2) abuf
  rw [hr]
  exact ⟨_, rfl⟩

/-- The strides `jj = icells`, `kk = icells*jcells` address the cells of the
loop nest of `buffer` without overlap. -/
theorem loops_wellFormed {F : Type} (this : cbuffer F) (grid : cgrid F) (h1 : 0 ≤ grid.istart)
    (h2 : grid.iend ≤ grid.icells) (h3 : 0 ≤ grid.jstart) (h4 : grid.jend ≤ grid.jcells)
    (h5 : 0 ≤ grid.icells) (hk : this.bufferkstart + 1 ≤ grid.kend) :
    (this.loops grid).WellFormed :=
  { istart_nonneg := h1
    iend_le := h2
    jstart_nonneg := h3
    jend_le := by
      show grid.jend * grid.icells ≤ grid.icells * grid.jcells
      rw [mul_comm grid.icells]
      exact mul_le_mul_of_nonneg_right h4 h5
    kstart_le := hk }

end BufferLemmas

section BufferClaims

variable {F : Type} [LinearOrderedField F]

/-- C34. After `cbuffer::init` with `ibuffer = 1` and
`0 <= bufferkstart <= kmax - 1` on a grid with `kend = kstart + kmax`, the
object has `bufferkcells = kmax - bufferkstart - 1`, every profile index
`k - kloopstart` of the level loop of `buffer` and `setbuffer` lies in
`[0, bufferkcells)`, the loop visits exactly `bufferkcells` levels, and both
functions return without an access outside the profile. -/
theorem buffer_profile_index_in_bounds (M : Env F) (this : cbuffer F) (grid : cgrid F)
    (MomentumProg ScalarProg : List String) (hi : this.ibuffer = 1)
    (_h0 : 0 ≤ this.bufferkstart) (h1 : this.bufferkstart ≤ grid.kmax - 1)
    (hk : grid.kend = grid.kstart + grid.kmax) :
    ∃ b, this.init grid MomentumProg ScalarProg = some b ∧
      b.bufferkcells = grid.kmax - this.bufferkstart - 1 ∧
      b.bufferkstart = this.bufferkstart + grid.kstart ∧
      (∀ k ∈ lvls (b.bufferkstart + 1) grid.kend,
        0 ≤ k - (b.bufferkstart + 1) ∧ k - (b.bufferkstart + 1) < b.bufferkcells) ∧
      ((lvls (b.bufferkstart + 1) grid.kend).length : Int) = b.bufferkcells ∧
      (∀ at_ a abuf z : Int → F, ∃ r, b.buffer M grid at_ a abuf z = some r) ∧
      (∀ (getprof : (Int → F) → Int → (Int → F)) (a abuf : Int → F),
        ∃ r, b.setbuffer grid getprof a abuf = some r) := by
  obtain ⟨b1, e1, c1, s1⟩ := alloc_fold MomentumProg
    ({ this with bufferkcells := grid.kmax - this.bufferkstart - 1 } : cbuffer F)
    (by
      show 0 ≤ grid.kmax - this.bufferkstart - 1
      omega)
  obtain ⟨b2, e2, c2, s2⟩ := alloc_fold ScalarProg b1 (by
    rw [c1]
    show 0 ≤ grid.kmax - this.bufferkstart - 1
    omega)
  have hc : b2.bufferkcells = grid.kmax - this.bufferkstart - 1 := by rw [c2, c1]
  have hs : b2.bufferkstart = this.bufferkstart := by rw [s2, s1]
  refine ⟨{ b2 with allocated := true, bufferkstart := b2.bufferkstart + grid.kstart }, ?_,
    hc, ?_, ?_, ?_, ?_, ?_⟩
  · unfold cbuffer.init
    rw [if_pos hi]
    simp only []
    rw [e1, Option.some_bind, e2, Option.some_bind]
  · show b2.bufferkstart + grid.kstart = _
    rw [hs]
  · intro k hk'
    have := mem_lvls.1 hk'
    change b2.bufferkstart + grid.kstart + 1 ≤ k ∧ k < grid.kend at this
    show 0 ≤ k - (b2.bufferkstart + grid.kstart + 1)
      ∧ k - (b2.bufferkstart + grid.kstart + 1) < b2.bufferkcells
    omega
  · rw [length_lvls]
    show ((grid.kend - (b2.bufferkstart + grid.kstart + 1)).toNat : Int) = b2.bufferkcells
    omega
  · intro at_ a abuf z
    exact ⟨_, buffer_eq_some M _ grid at_ a abuf z (by
      show grid.kend - (b2.bufferkstart + grid.kstart + 1) ≤ b2.bufferkcells
      omega)⟩
  · intro getprof a abuf
    exact setbuffer_isSome _ grid getprof a abuf (by
      show grid.kend - (b2.bufferkstart + grid.kstart + 1) ≤ b2.bufferkcells
      omega)

/-- C34, for `bufInput` on `gridBuf` with the prognostic fields `u, v, w` and
`s`: one buffered level. -/
theorem buffer_profile_index_in_bounds_witness :
    ∃ b, bufInput.init gridBuf ["u", "v", "w"] ["s"] = some b ∧
      b.bufferkcells = gridBuf.kmax - bufInput.bufferkstart - 1 ∧
      b.bufferkstart = bufInput.bufferkstart + gridBuf.kstart ∧
      (∀ k ∈ lvls (b.bufferkstart + 1) gridBuf.kend,
        0 ≤ k - (b.bufferkstart + 1) ∧ k - (b.bufferkstart + 1) < b.bufferkcells) ∧
      ((lvls (b.bufferkstart + 1) gridBuf.kend).length : Int) = b.bufferkcells ∧
      (∀ at_ a abuf z : Int → ℚ, ∃ r, b.buffer ratEnv gridBuf at_ a abuf z = some r) ∧
      (∀ (getprof : (Int → ℚ) → Int → (Int → ℚ)) (a abuf : Int → ℚ),
        ∃ r, b.setbuffer gridBuf getprof a abuf = some r) :=
  buffer_profile_index_in_bounds ratEnv bufInput gridBuf ["u", "v", "w"] ["s"] rfl
    (by decide) (by decide) (by decide)

/-- C35. With strides that address the cells without overlap and a profile
allocated for all levels of the loop, `cbuffer::buffer` returns, and it changes
the tendency only at the interior cells with `k > bufferkstart`, by
`-sigma_k*(a[ijk] - abuf[k - kloopstart])` with
`sigma_k = buffersigma*pow((z[k] - z[bufferkstart])/zsizebuf, bufferbeta)`; a
field equal to its buffer profile at every damped cell leaves the tendency as
it is, and the cells at or below `bufferkstart` are not modified. -/
theorem buffer_damps_above_bufferkstart (M : Env F) (this : cbuffer F) (grid : cgrid F)
    (at_ a abuf z : Int → F) (h1 : 0 ≤ grid.istart) (h2 : grid.iend ≤ grid.icells)
    (h3 : 0 ≤ grid.jstart) (h4 : grid.jend ≤ grid.jcells) (h5 : 0 ≤ grid.icells)
    (halloc : grid.kend - (this.bufferkstart + 1) ≤ this.bufferkcells) :
    ∃ r, this.buffer M grid at_ a abuf z = some r ∧
      (∀ i j k, grid.istart ≤ i → i < grid.iend → grid.jstart ≤ j → j < grid.jend →
        this.bufferkstart < k → k < grid.kend →
        r (i + j * grid.icells + k * (grid.icells * grid.jcells))
          = at_ (i + j * grid.icells + k * (grid.icells * grid.jcells))
            - this.buffersigma
              * M.pow ((z k - z this.bufferkstart) / (grid.zsize - z this.bufferkstart))
                this.bufferbeta
              * (a (i + j * grid.icells + k * (grid.icells * grid.jcells))
                - abuf (k - (this.bufferkstart + 1)))) ∧
      (∀ n, (∀ i j k, grid.istart ≤ i → i < grid.iend → grid.jstart ≤ j → j < grid.jend →
          this.bufferkstart < k → k < grid.kend →
          n ≠ i + j * grid.icells + k * (grid.icells * grid.jcells)) → r n = at_ n) ∧
      ((∀ i j k, grid.istart ≤ i → i < grid.iend → grid.jstart ≤ j → j < grid.jend →
          this.bufferkstart < k → k < grid.kend →
          a (i + j * grid.icells + k * (grid.icells * grid.jcells))
            = abuf (k - (this.bufferkstart + 1))) → r = at_) ∧
      (∀ i j k, 0 ≤ i → i < grid.icells → 0 ≤ j → j < grid.jcells →
        k ≤ this.bufferkstart →
        r (i + j * grid.icells + k * (grid.icells * grid.jcells))
          = at_ (i + j * grid.icells + k * (grid.icells * grid.jcells))) := by
  refine ⟨_, buffer_eq_some M this grid at_ a abuf z halloc, ?_⟩
  have hcell : ∀ i j k, grid.istart ≤ i → i < grid.iend → grid.jstart ≤ j → j < grid.jend →
      this.bufferkstart < k → k < grid.kend →
      loop3 (this.loops grid) (fun i j k at_ =>
        Function.update at_ (i + j * (this.loops grid).jj + k * (this.loops grid).kk)
          ((fun i j k v => v - this.sigma M grid z k
            * (a (i + j * grid.icells + k * (grid.icells * grid.jcells))
              - abuf (k - (this.bufferkstart + 1)))) i j k
            (at_ (i + j * (this.loops grid).jj + k * (this.loops grid).kk)))) at_
        (i + j * grid.icells + k * (grid.icells * grid.jcells))
      = at_ (i + j * grid.icells + k * (grid.icells * grid.jcells))
        - this.sigma M grid z k
          * (a (i + j * grid.icells + k * (grid.icells * grid.jcells))
            - abuf (k - (this.bufferkstart + 1))) := by
    intro i j k a1 a2 a3 a4 a5 a6
    have hg := loops_wellFormed this grid h1 h2 h3 h4 h5 (by omega)
    exact (loop3_modify hg (fun i j k v => v - this.sigma M grid z k
      * (a (i + j * grid.icells + k * (grid.icells * grid.jcells))
        - abuf (k - (this.bufferkstart + 1)))) at_).1 i j k ⟨a1, a2, a3, a4⟩
      (by show this.bufferkstart + 1 ≤ k; omega) a6
  have hout : ∀ n, (∀ i j k, grid.istart ≤ i → i < grid.iend → grid.jstart ≤ j →
      j < grid.jend → this.bufferkstart < k → k < grid.kend →
      n ≠ i + j * grid.icells + k * (grid.icells * grid.jcells)) →
      loop3 (this.loops grid) (fun i j k at_ =>
        Function.update at_ (i + j * (this.loops grid).jj + k * (this.loops grid).kk)
          ((fun i j k v => v - this.sigma M grid z k
            * (a (i + j * grid.icells + k * (grid.icells * grid.jcells))
              - abuf (k - (this.bufferkstart + 1)))) i j k
            (at_ (i + j * (this.loops grid).jj + k * (this.loops grid).kk)))) at_ n
      = at_ n := by
    intro n hn
    by_cases hk : this.bufferkstart + 1 ≤ grid.kend
    · have hg := loops_wellFormed this grid h1 h2 h3 h4 h5 hk
      refine (loop3_modify hg (fun i j k v => v - this.sigma M grid z k
        * (a (i + j * grid.icells + k * (grid.icells * grid.jcells))
          - abuf (k - (this.bufferkstart + 1)))) at_).2 n ?_
      intro i j k hb hk1 hk2
      exact hn i j k hb.1 hb.2.1 hb.2.2.1 hb.2.2.2
        (by change this.bufferkstart + 1 ≤ k at hk1; omega) hk2
    · unfold loop3 forUp
      rw [lvls_of_le (by show grid.kend ≤ this.bufferkstart + 1; omega)]
      rfl
  refine ⟨hcell, hout, ?_, ?_⟩
  · intro heq
    funext n
    by_cases hn : ∃ i j k, grid.istart ≤ i ∧ i < grid.iend ∧ grid.jstart ≤ j ∧ j < grid.jend ∧
        this.bufferkstart < k ∧ k < grid.kend ∧
        n = i + j * grid.icells + k * (grid.icells * grid.jcells)
    · obtain ⟨i, j, k, a1, a2, a3, a4, a5, a6, rfl⟩ := hn
      rw [hcell i j k a1 a2 a3 a4 a5 a6, heq i j k a1 a2 a3 a4 a5 a6, sub_self, mul_zero,
        sub_zero]
    · exact hout n (fun i j k a1 a2 a3 a4 a5 a6 e => hn ⟨i, j, k, a1, a2, a3, a4, a5, a6, e⟩)
  · intro i j k a1 a2 a3 a4 a5
    refine hout _ ?_
    intro i' j' k' b1 b2 b3 b4 b5 b6 e
    have hg := loops_wellFormed this grid h1 h2 h3 h4 h5 (by omega)
    obtain ⟨_, _, c0, c1⟩ := hg.ij_bounds (show (this.loops grid).inBox i' j' from
      ⟨b1, b2, b3, b4⟩)
    have d0 : 0 ≤ i + j * grid.icells := add_nonneg a1 (mul_nonneg a3 h5)
    have d1 : i + j * grid.icells < grid.icells * grid.jcells := by
      have : (j + 1) * grid.icells ≤ grid.jcells * grid.icells :=
        mul_le_mul_of_nonneg_right (by omega) h5
      nlinarith
    have := (divmod_unique d0 d1 c0 c1 e).2
    omega

/-- C35, for the buffer object `bufReady` on `gridBuf`, where the upper
interior level `k = 2` is damped toward the profile value `abuf[0] = 1`: the
tendency of the cell `(1, 1, 2)` changes by `-sigma_2*(3 - 1)`, and the cell
`(1, 1, 1)` keeps its tendency. -/
theorem buffer_damps_above_bufferkstart_witness :
    ∃ r, bufReady.buffer ratEnv gridBuf (fun _ => 0) (fun _ => 3) (fun _ => 1) zBuf = some r ∧
      r (1 + 1 * gridBuf.icells + 2 * (gridBuf.icells * gridBuf.jcells))
        = 0 - bufReady.buffersigma
          * ratEnv.pow ((zBuf 2 - zBuf bufReady.bufferkstart)
            / (gridBuf.zsize - zBuf bufReady.bufferkstart)) bufReady.bufferbeta * (3 - 1) ∧
      r (1 + 1 * gridBuf.icells + 1 * (gridBuf.icells * gridBuf.jcells)) = 0 := by
  obtain ⟨r, e, c1, _, _, c4⟩ := buffer_damps_above_bufferkstart ratEnv bufReady gridBuf
    (fun _ => 0) (fun _ => 3) (fun _ => 1) zBuf (by decide) (by decide) (by decide)
    (by decide) (by decide) (by decide)
  exact ⟨r, e, c1 1 1 2 (by decide) (by decide) (by decide) (by decide) (by decide)
    (by decide), c4 1 1 1 (by decide) (by decide) (by decide) (by decide) (by decide)⟩

end BufferClaims

/-! ## The time limit in double precision -/

section DoubleLemmas

theorem round_even_intCast (n : Int) : round_even (n : ℚ) = n := by
  unfold round_even
  simp

theorem round_even_eq_of_abs_lt {q : ℚ} {n : Int} (h : |q - n| < 1 / 2) : round_even q = n := by
  rw [abs_lt] at h
  obtain ⟨h1, h2⟩ := h
  unfold round_even
  simp only []
  by_cases hf : (n : ℚ) ≤ q
  · have e : ⌊q⌋ = n := Int.floor_eq_iff.mpr ⟨hf, by linarith⟩
    rw [e, if_pos (by linarith)]
  · have e : ⌊q⌋ = n - 1 := Int.floor_eq_iff.mpr ⟨by push_cast; linarith, by
      push_cast; linarith⟩
    have e' : ((n - 1 : Int) : ℚ) = (n : ℚ) - 1 := by push_cast; ring
    rw [e, e', if_neg (by linarith), if_pos (by linarith)]
    ring

theorem binade_eq {x : ℚ} {e : Int} (he : -1022 ≤ e) (h1 : (2 : ℚ) ^ e ≤ |x|)
    (h2 : |x| < (2 : ℚ) ^ (e + 1)) : binade x = e := by
  have hx : 0 < |x| := lt_of_lt_of_le (zpow_pos (by norm_num) e) h1
  have a : e ≤ Int.log 2 |x| :=
    (Int.zpow_le_iff_le_log (by norm_num) hx).mp (by exact_mod_cast h1)
  have b : Int.log 2 |x| < e + 1 :=
    (Int.lt_zpow_iff_log_lt (by norm_num) hx).mp (by exact_mod_cast h2)
  unfold binade
  omega

/-- The rounded value of `x` from the binade of `x` and an integer within one
half of `x` in units of the last place. -/
theorem fl64_eq {x : ℚ} {e n : Int} (he : -1022 ≤ e) (h1 : (2 : ℚ) ^ e ≤ |x|)
    (h2 : |x| < (2 : ℚ) ^ (e + 1)) (hn : |x / 2 ^ (e - 52) - n| < 1 / 2)
    (hfin : |(n : ℚ) * 2 ^ (e - 52)| < 2 ^ 1024) :
    fl64 x = some ((n : ℚ) * 2 ^ (e - 52)) := by
  unfold fl64
  simp only []
  rw [binade_eq he h1 h2, round_even_eq_of_abs_lt hn, if_pos hfin]

/-- A number `m * 2^k` with `|m| < 2^53` and `k >= -1074` that is in the finite
range is a `double`. -/
theorem fl64_int_mul_zpow (m k : Int) (hm : |m| < 2 ^ 53) (hk : -1074 ≤ k)
    (hfin : |(m : ℚ) * 2 ^ k| < 2 ^ 1024) : fl64 ((m : ℚ) * 2 ^ k) = some ((m : ℚ) * 2 ^ k) := by
  have h2 : (0 : ℚ) < 2 := by norm_num
  have hb : binade ((m : ℚ) * 2 ^ k) - 52 ≤ k ∨ m = 0 := by
    by_cases h0 : m = 0
    · exact Or.inr h0
    · left
      have hx : 0 < |(m : ℚ) * 2 ^ k| :=
        abs_pos.mpr (mul_ne_zero (by exact_mod_cast h0) (zpow_pos h2 k).ne')
      have hlt : |(m : ℚ) * 2 ^ k| < (2 : ℚ) ^ (53 + k) := by
        rw [abs_mul, abs_of_pos (zpow_pos h2 k), zpow_add₀ h2.ne']
        refine mul_lt_mul_of_pos_right ?_ (zpow_pos h2 k)
        have h53 : (2 : ℚ) ^ (53 : Int) = 2 ^ (53 : Nat) := by norm_num
        rw [h53]
        exact_mod_cast hm
      have := (Int.lt_zpow_iff_log_lt (b := 2) (by norm_num) hx).mp (by exact_mod_cast hlt)
      unfold binade
      omega
  unfold fl64
  simp only []
  have key : ∀ b : Int, (b - 52 ≤ k ∨ m = 0) →
      (round_even ((m : ℚ) * 2 ^ k / 2 ^ (b - 52)) : ℚ) * 2 ^ (b - 52) = (m : ℚ) * 2 ^ k := by
    intro b hb
    rcases hb with hb | rfl
    · obtain ⟨d, hd⟩ : ∃ d : Nat, k = b - 52 + d := ⟨(k - (b - 52)).toNat, by omega⟩
      have e1 : (m : ℚ) * 2 ^ k / 2 ^ (b - 52) = ((m * 2 ^ d : Int) : ℚ) := by
        rw [hd, zpow_add₀ h2.ne', zpow_natCast]
        push_cast
        field_simp
        ring
      rw [e1, round_even_intCast, hd, zpow_add₀ h2.ne', zpow_natCast]
      push_cast
      ring
    · simp [round_even]
  rw [key _ hb, if_pos hfin]

/-- A natural number below `2^53` is a `double`. -/
theorem fl64_natCast (n : Nat) (h : n < 2 ^ 53) : fl64 (n : ℚ) = some (n : ℚ) := by
  have := fl64_int_mul_zpow (n : Int) 0 (by rw [abs_of_nonneg (by positivity)]; exact_mod_cast h)
    (by norm_num) (by
      rw [zpow_zero, mul_one, abs_of_nonneg (by positivity)]
      have : (n : ℚ) < 2 ^ 53 := by exact_mod_cast h
      exact lt_trans this (by norm_num))
  simpa using this

end DoubleLemmas

section DoubleClaims

/-- The literal `1.e-5` is the `double` nearest to `1/100000`. -/
theorem fl64_1em5 : fl64 (1 / 100000) = some double_1em5 := by
  have h := fl64_eq (x := 1 / 100000) (e := -17) (n := 5902958103587057) (by norm_num)
    (by norm_num [abs_of_pos]) (by norm_num [abs_of_pos]) (by
      rw [abs_lt]
      constructor <;> norm_num) (by norm_num [abs_of_pos])
  rw [h]
  norm_num [double_1em5]

/-- The value `double_1p2` is the `double` nearest to `1.2`. -/
theorem fl64_1p2 : fl64 (6 / 5) = some double_1p2 := by
  have h := fl64_eq (x := 6 / 5) (e := 0) (n := 5404319552844595) (by norm_num)
    (by norm_num [abs_of_pos]) (by norm_num [abs_of_pos]) (by
      rw [abs_lt]
      constructor <;> norm_num) (by norm_num [abs_of_pos])
  rw [h]
  norm_num [double_1p2]

/-- The rounded product `31 * 1.2` in `double`. -/
theorem fl64_31_mul_1p2 :
    fl64 (((31 : Nat) : ℚ) * double_1p2) = some (5235434566818201 / 2 ^ 47) := by
  have h := fl64_eq (x := ((31 : Nat) : ℚ) * double_1p2) (e := 5) (n := 5235434566818201)
    (by norm_num) (by norm_num [abs_of_pos, double_1p2])
    (by norm_num [abs_of_pos, double_1p2]) (by
      rw [abs_lt]
      constructor <;> norm_num [double_1p2]) (by norm_num [abs_of_pos])
  rw [h]
  norm_num

/-- The rounded quotient of the rounded product `31 * 1.2` and `1.2` in
`double`: one unit in the last place below 31. -/
theorem fl64_31_quotient :
    fl64 (5235434566818201 / 2 ^ 47 / double_1p2) = some (8725724278030335 / 2 ^ 48) := by
  have h := fl64_eq (x := 5235434566818201 / 2 ^ 47 / double_1p2) (e := 4)
    (n := 8725724278030335)
    (by norm_num) (by norm_num [abs_of_pos, double_1p2])
    (by norm_num [abs_of_pos, double_1p2]) (by
      rw [abs_lt]
      constructor <;> norm_num [double_1p2]) (by norm_num [abs_of_pos])
  rw [h]
  norm_num

/-- C6 as stated fails. With `cfl = cfl_max = 1.2` (the `double` nearest to
`1.2`, above the floor `1e-5`) and `idt = 31`, the product `31 * cfl_max` is
rounded down, the rounded quotient by `cfl` is `31 - 2^-48`, and
`get_time_limit` returns 30, not 31. -/
theorem get_time_limit_double_loses_one :
    fl64 nsw6D.cfl_max = some nsw6D.cfl_max ∧ nsw6D.cfl = nsw6D.cfl_max ∧
    double_1em5 ≤ nsw6D.cfl_max ∧
    (get_time_limit_double nsw6D 31 1).2.2 = some 30 ∧
    (get_time_limit_double nsw6D 31 1).2.2 ≠ some 31 := by
  have hrep : fl64 nsw6D.cfl_max = some nsw6D.cfl_max := by
    have h := fl64_int_mul_zpow 5404319552844595 (-52) (by norm_num) (by norm_num)
      (by norm_num [abs_of_pos])
    have e : ((5404319552844595 : Int) : ℚ) * 2 ^ (-52 : Int) = nsw6D.cfl_max := by
      norm_num [nsw6D, double_1p2]
    rw [e] at h
    exact h
  have hfloor : double_1em5 ≤ nsw6D.cfl_max := by norm_num [nsw6D, double_1p2, double_1em5]
  have hval : (get_time_limit_double nsw6D 31 1).2.2 = some 30 := by
    unfold get_time_limit_double
    simp only []
    have hmax : max nsw6D.cfl double_1em5 = double_1p2 := max_eq_left hfloor
    rw [hmax, fl64_natCast 31 (by norm_num), Option.some_bind]
    have hcm : nsw6D.cfl_max = double_1p2 := rfl
    rw [hcm, fl64_31_mul_1p2, Option.some_bind, fl64_31_quotient, Option.some_bind,
      to_unsigned_long_of_mem _ (by norm_num) (by norm_num)]
    congr 1
    rw [Nat.floor_eq_iff (by norm_num)]
    constructor <;> norm_num
  refine ⟨hrep, rfl, hfloor, hval, ?_⟩
  rw [hval]
  decide

/-- C6, amended. When the observed `cfl` equals the configured `cfl_max`,
`cfl_max` is at least the floor `1e-5` and `idt < 2^64`, `get_time_limit` in
`double` arithmetic returns `idt` unchanged if the conversion of `idt` to
`double` and the product `idt * cfl_max` are exact; they are exact when
`idt < 2^53` and `cfl_max` is a power of two up to `2^971`, such as the default
`cfl_max = 2`. -/
theorem get_time_limit_double_eq_of_exact (this : Microphys_nsw6 ℚ) (idt : Nat) (dt : ℚ)
    (hcfl : this.cfl = this.cfl_max) (hmax : double_1em5 ≤ this.cfl_max)
    (hidt : idt < 2 ^ 64) :
    (fl64 (idt : ℚ) = some (idt : ℚ) →
      fl64 ((idt : ℚ) * this.cfl_max) = some ((idt : ℚ) * this.cfl_max) →
      (get_time_limit_double this idt dt).2.2 = some idt) ∧
    (idt < 2 ^ 53 → ∀ j : Int, j ≤ 971 → this.cfl_max = 2 ^ j →
      (get_time_limit_double this idt dt).2.2 = some idt) := by
  have hpos : (0 : ℚ) < this.cfl_max := lt_of_lt_of_le (by norm_num [double_1em5]) hmax
  have main : fl64 (idt : ℚ) = some (idt : ℚ) →
      fl64 ((idt : ℚ) * this.cfl_max) = some ((idt : ℚ) * this.cfl_max) →
      (get_time_limit_double this idt dt).2.2 = some idt := by
    intro h1 h2
    unfold get_time_limit_double
    simp only []
    rw [hcfl, max_eq_left hmax, h1, Option.some_bind, h2, Option.some_bind,
      mul_div_assoc, div_self hpos.ne', mul_one, h1, Option.some_bind,
      to_unsigned_long_of_mem _
        (lt_of_lt_of_le (by norm_num) (Nat.cast_nonneg idt)) (by exact_mod_cast hidt),
      Nat.floor_natCast]
  refine ⟨main, ?_⟩
  intro h53 j hj hpow
  have hj0 : -1074 ≤ j := by
    by_contra hlt
    have h18 : j ≤ -18 := by omega
    have : (2 : ℚ) ^ j ≤ 2 ^ (-18 : Int) := zpow_le_zpow_right₀ (by norm_num) h18
    rw [hpow] at hmax
    have : double_1em5 ≤ (2 : ℚ) ^ (-18 : Int) := le_trans hmax this
    norm_num [double_1em5] at this
  refine main (fl64_natCast idt h53) ?_
  rw [hpow]
  have hfin : |((idt : Int) : ℚ) * 2 ^ j| < 2 ^ 1024 := by
    rw [abs_of_nonneg (by positivity)]
    have a : ((idt : Int) : ℚ) < 2 ^ (53 : Nat) := by exact_mod_cast h53
    have b : (2 : ℚ) ^ j ≤ 2 ^ (971 : Int) := zpow_le_zpow_right₀ (by norm_num) hj
    calc ((idt : Int) : ℚ) * 2 ^ j ≤ ((idt : Int) : ℚ) * 2 ^ (971 : Int) :=
          mul_le_mul_of_nonneg_left b (by positivity)
      _ < 2 ^ (53 : Nat) * 2 ^ (971 : Int) :=
          mul_lt_mul_of_pos_right a (by positivity)
      _ = 2 ^ 1024 := by norm_num
  have h := fl64_int_mul_zpow (idt : Int) j
    (by rw [abs_of_nonneg (by positivity)]; exact_mod_cast h53) hj0 hfin
  simpa using h

/-- C6 amended, for `cfl = cfl_max = 2` and `idt = 1000`. -/
theorem get_time_limit_double_eq_of_exact_witness :
    (get_time_limit_double nsw6C 1000 1).2.2 = some 1000 :=
  (get_time_limit_double_eq_of_exact nsw6C 1000 1 rfl (by norm_num [nsw6C, double_1em5])
    (by norm_num)).2 (by norm_num) 1 (by norm_num) (by norm_num [nsw6C])

end DoubleClaims

end MicroHH
